import Mathlib

/-!
# Currency converter backend: rate resolution, conversion and bookmarks

A shallow embedding of

* `src/utils/exchangeRateAPI.js` (`getLiveExchangeRate`, `getMockExchangeRate`),
* `src/controllers/conversionController.js` (`convertCurrency`),
* `src/models/BookmarkedPairs.js` (`updateRate`, the schema and its unique index),
* `src/controllers/bookmarkController.js` (`addBookmark`, `removeBookmark`,
  `updateBookmarkRate`, `updateAllBookmarkRates`),
* `src/utils/exchangeRateAPI.js` (`getHistoricalExchangeRates`) and
  `src/controllers/historicalController.js` (`getHistoricalData`,
  `generateMockHistoricalData`),
* `src/controllers/conversionController.js` (`getLiveRate`) and
  `src/controllers/historyController.js` (`getHistory`, `formatRelativeTime`).

Modelling conventions.

* A finite JavaScript number is a rational, next to `NaN` and the two infinities. In the
  conversion and bookmark handlers arithmetic is exact; in the historical handler the
  rounding of literals and operations is an argument `rnd`, with `JsNum.fin` for exact
  arithmetic and `binary64` for the doubles of the engine. The sign of zero is not
  modelled.
* Request fields that the handlers coerce (`amount`, `saveHistory`) are JavaScript values;
  the coercions `!x`, `x <= 0`, `parseFloat(x)`, `x * y` follow ECMAScript.
* Currency codes and the fee type are strings; an absent currency code behaves as the empty
  string (both are falsy and stop at the first guard).
* Everything a handler obtains from outside (the provider reply, `Math.random()`, the clock,
  the time zone of the server, whether the database accepts a write) is an explicit
  argument.
* `toUpperCase` is the ASCII mapping; no general statement below depends on how it acts on
  other characters.
-/

namespace CurrencyConverter

/-! ## JavaScript values -/

/-- JavaScript number: `NaN`, plus or minus `Infinity`, or a finite value. -/
inductive JsNum where
  | nan
  | inf (negative : Bool)
  | fin (q : ℚ)
  deriving DecidableEq

namespace JsNum

/-- Multiplication `a * b` on numbers. -/
def mul : JsNum → JsNum → JsNum
  | fin a, fin b => fin (a * b)
  | fin a, inf t => if a = 0 then nan else inf (decide (a < 0) != t)
  | inf s, fin b => if b = 0 then nan else inf (s != decide (b < 0))
  | inf s, inf t => inf (s != t)
  | _, _ => nan

/-- Division `a / b` on numbers (a zero divisor counts as positive zero). -/
def div : JsNum → JsNum → JsNum
  | fin a, fin b => if b = 0 then (if a = 0 then nan else inf (decide (a < 0))) else fin (a / b)
  | fin _, inf _ => fin 0
  | inf s, fin b => inf (s != decide (b < 0))
  | _, _ => nan

/-- Addition `a + b` on numbers. -/
def add : JsNum → JsNum → JsNum
  | fin a, fin b => fin (a + b)
  | fin _, inf t => inf t
  | inf s, fin _ => inf s
  | inf s, inf t => if s = t then inf s else nan
  | _, _ => nan

/-- Subtraction `a - b` on numbers. -/
def sub : JsNum → JsNum → JsNum
  | fin a, fin b => fin (a - b)
  | fin _, inf t => inf (!t)
  | inf s, fin _ => inf s
  | inf s, inf t => if s = t then nan else inf s
  | _, _ => nan

/-- Comparison `a < b`; false as soon as one side is `NaN`. -/
def lt : JsNum → JsNum → Bool
  | fin a, fin b => decide (a < b)
  | fin _, inf t => !t
  | inf s, fin _ => s
  | inf s, inf t => s && !t
  | _, _ => false

/-- Comparison `a <= b`; false as soon as one side is `NaN`. -/
def le : JsNum → JsNum → Bool
  | fin a, fin b => decide (a ≤ b)
  | fin _, inf t => !t
  | inf s, fin _ => s
  | inf s, inf t => s || !t
  | _, _ => false

/-- Truthiness of a number: `0` and `NaN` are falsy. -/
def truthy : JsNum → Bool
  | fin q => decide (q ≠ 0)
  | inf _ => true
  | nan => false

/-- The number is a finite value strictly greater than zero, or positive infinity. -/
def isPositive : JsNum → Bool
  | fin q => decide (0 < q)
  | inf s => !s
  | nan => false

/-- Value denoted by `x.toFixed(digits)`: rounding to `digits` decimals, ties away from
zero; values of magnitude `10^21` and above, `NaN` and the infinities print as themselves. -/
def toFixed (digits : Nat) : JsNum → JsNum
  | fin q =>
    if (10 : ℚ) ^ 21 ≤ |q| then fin q
    else
      let n : ℤ := ⌊|q| * (10 : ℚ) ^ digits + 1 / 2⌋
      fin ((if q < 0 then -1 else 1) * (n : ℚ) / (10 : ℚ) ^ digits)
  | x => x

end JsNum

/-- JavaScript value as it can reach the handlers. An object, array or function is
represented by the string its conversion to a primitive yields. -/
inductive JsVal where
  | undefined
  | null
  | bool (b : Bool)
  | num (n : JsNum)
  | str (s : String)
  | obj (asString : String)
  deriving DecidableEq

/-- Truthiness (`ToBoolean`). -/
def JsVal.truthy : JsVal → Bool
  | .undefined => false
  | .null => false
  | .bool b => b
  | .num n => n.truthy
  | .str s => decide (s ≠ "")
  | .obj _ => true

/-! ### Numeric strings -/

/-- White space and line terminators that `parseFloat` and `Number` strip. -/
def isStrWhiteSpace (c : Char) : Bool :=
  let v := c.toNat
  v = 0x9 || v = 0xA || v = 0xB || v = 0xC || v = 0xD || v = 0x20 || v = 0xA0 ||
  v = 0x1680 || (0x2000 ≤ v && v ≤ 0x200A) || v = 0x2028 || v = 0x2029 ||
  v = 0x202F || v = 0x205F || v = 0x3000 || v = 0xFEFF

/-- Remove the literal `lit` from the front of `cs`, when it is there. -/
def dropLit : List Char → List Char → Option (List Char)
  | [], cs => some cs
  | _ :: _, [] => none
  | l :: ls, c :: cs => if l = c then dropLit ls cs else none

/-- Value of a digit in a base up to 16 (`none` for any other character). -/
def digitValue (c : Char) : Option Nat :=
  if c.isDigit then some (c.toNat - 48)
  else if 97 ≤ c.toNat ∧ c.toNat ≤ 102 then some (c.toNat - 87)
  else if 65 ≤ c.toNat ∧ c.toNat ≤ 70 then some (c.toNat - 55)
  else none

/-- Value of a digit string in base `base`; `none` if a character is not a digit of it. -/
def digitsValue (base : Nat) (cs : List Char) : Option Nat :=
  cs.foldl (fun acc c =>
    match acc, digitValue c with
    | some a, some d => if d < base then some (base * a + d) else none
    | _, _ => none) (some 0)

/-- Value of a string of decimal digits. -/
def decimalValue (cs : List Char) : Nat :=
  cs.foldl (fun acc c => 10 * acc + (c.toNat - 48)) 0

/-- Optional exponent part `e`, optional sign, one digit or more. Yields the exponent and
the rest; without a digit the exponent part is not consumed. -/
def scanExponent (cs : List Char) : Int × List Char :=
  match cs with
  | c :: t =>
    if c = 'e' ∨ c = 'E' then
      let (negative, u) := match t with
        | '+' :: u => (false, u)
        | '-' :: u => (true, u)
        | _ => (false, t)
      let ds := u.takeWhile Char.isDigit
      if ds = [] then (0, cs)
      else ((if negative then -1 else 1) * (decimalValue ds : Int), u.dropWhile Char.isDigit)
    else (0, cs)
  | [] => (0, cs)

/-- Scale a mantissa by a power of ten. -/
def scalePow10 (m : ℚ) (e : Int) : ℚ :=
  if 0 ≤ e then m * (10 : ℚ) ^ e.toNat else m / (10 : ℚ) ^ (-e).toNat

/-- Longest leading `StrDecimalLiteral` of `cs`: its value and what follows it. -/
def scanStrDecimalLiteral (cs : List Char) : Option (JsNum × List Char) :=
  let (negative, cs1) := match cs with
    | '+' :: t => (false, t)
    | '-' :: t => (true, t)
    | _ => (false, cs)
  match dropLit "Infinity".data cs1 with
  | some rest => some (.inf negative, rest)
  | none =>
    let ip := cs1.takeWhile Char.isDigit
    let r1 := cs1.dropWhile Char.isDigit
    let (fp, r2) := match r1 with
      | '.' :: t => (t.takeWhile Char.isDigit, t.dropWhile Char.isDigit)
      | _ => ([], r1)
    if ip = [] ∧ fp = [] then none
    else
      let mantissa : ℚ := (decimalValue ip : ℚ) + (decimalValue fp : ℚ) / (10 : ℚ) ^ fp.length
      let (e, r3) := scanExponent r2
      some (.fin ((if negative then -1 else 1) * scalePow10 mantissa e), r3)

/-- Hexadecimal, octal and binary integer literals `0x..`, `0o..`, `0b..`. -/
def scanNonDecimal (cs : List Char) : Option Nat :=
  match cs with
  | '0' :: c :: ds =>
    if ds = [] then none
    else if c = 'x' ∨ c = 'X' then digitsValue 16 ds
    else if c = 'o' ∨ c = 'O' then digitsValue 8 ds
    else if c = 'b' ∨ c = 'B' then digitsValue 2 ds
    else none
  | _ => none

/-- Conversion `StringToNumber`, as applied by `Number(s)` and by comparisons. -/
def stringToNumber (s : String) : JsNum :=
  let cs := ((s.data.dropWhile isStrWhiteSpace).reverse.dropWhile isStrWhiteSpace).reverse
  if cs = [] then .fin 0
  else match scanNonDecimal cs with
    | some n => .fin n
    | none =>
      match scanStrDecimalLiteral cs with
      | some (v, []) => v
      | _ => .nan

/-- Conversion `ToNumber`. -/
def toNumber : JsVal → JsNum
  | .undefined => .nan
  | .null => .fin 0
  | .bool b => .fin (if b then 1 else 0)
  | .num n => n
  | .str s => stringToNumber s
  | .obj s => stringToNumber s

/-- The function `parseFloat` on a string. -/
def parseFloatString (s : String) : JsNum :=
  match scanStrDecimalLiteral (s.data.dropWhile isStrWhiteSpace) with
  | some (v, _) => v
  | none => .nan

/-- The global `parseFloat(x)`: `x` is converted to a string, of which the longest numeric
beginning is read. A number prints and reads back as itself. -/
def parseFloat : JsVal → JsNum
  | .num n => n
  | .str s => parseFloatString s
  | .obj s => parseFloatString s
  | .undefined => .nan
  | .null => .nan
  | .bool _ => .nan

/-- Names every plain object inherits from `Object.prototype`. -/
def objectPrototypeKeys : List String :=
  ["constructor", "__defineGetter__", "__defineSetter__", "hasOwnProperty",
   "__lookupGetter__", "__lookupSetter__", "isPrototypeOf", "propertyIsEnumerable",
   "toString", "valueOf", "__proto__", "toLocaleString"]

/-- Property read `o[key]` on a plain object with own properties `own`: an own property,
else a member inherited from `Object.prototype` (a function, or the prototype object
itself for `__proto__`), else `undefined`. -/
def getProperty (own : List (String × JsVal)) (key : String) : JsVal :=
  match own.lookup key with
  | some v => v
  | none =>
    if key = "__proto__" then .obj "[object Object]"
    else if key ∈ objectPrototypeKeys then
      .obj ("function " ++ (if key = "constructor" then "Object" else key) ++
        "() \x7b [native code] \x7d")
    else .undefined

/-- Method `toUpperCase` (ASCII letters). -/
def toUpperCase (s : String) : String := ⟨s.data.map Char.toUpper⟩

/-- Property `length` of a string: the number of UTF-16 code units. -/
def jsLength (s : String) : Nat :=
  s.data.foldl (fun n c => n + (if 0x10000 ≤ c.toNat then 2 else 1)) 0

/-! ## Rate sources (`src/utils/exchangeRateAPI.js`) -/

/-- Body of a reply of the live provider: `data.rates` (absent when the provider answers
with some other JSON document), a table of JSON numbers, and `data.date`. -/
structure LatestResponse where
  rates : Option (List (String × ℚ))
  date : String

/-- Value `getLiveExchangeRate` resolves to. -/
structure RateData where
  rate : JsVal
  timestamp : String
  source : String
  deriving DecidableEq

/-- Function `getLiveExchangeRate`. `reply` is what `axios.get` yields: `none` when the
request throws (network error, timeout, non-2xx status). Every error raised inside the
`try` block is caught and replaced by the same final error. -/
def getLiveExchangeRate (reply : Option LatestResponse) (_fromCurrency toCurrency : String) :
    Except String RateData :=
  match reply with
  | none => .error "Failed to fetch live exchange rate"
  | some response =>
    match response.rates with
    | none => .error "Failed to fetch live exchange rate"
    | some rates =>
      let rate := getProperty (rates.map (fun p => (p.1, JsVal.num (.fin p.2)))) toCurrency
      if !rate.truthy then .error "Failed to fetch live exchange rate"
      else .ok { rate := rate, timestamp := response.date, source := "exchangerate-api" }

/-- Table `mockRates` of `getMockExchangeRate`. -/
def mockRates : List (String × JsVal) :=
  [("USD-INR", .num (.fin 83.25)), ("USD-EUR", .num (.fin 0.92)),
   ("USD-GBP", .num (.fin 0.79)), ("USD-JPY", .num (.fin 149.50)),
   ("EUR-USD", .num (.fin 1.08)), ("GBP-USD", .num (.fin 1.27)),
   ("JPY-USD", .num (.fin 0.0067))]

/-- Function `getMockExchangeRate`; `random` is the value of `Math.random()`. -/
def getMockExchangeRate (random : ℚ) (fromCurrency toCurrency : String) : JsVal :=
  let key := fromCurrency ++ "-" ++ toCurrency
  let reverseKey := toCurrency ++ "-" ++ fromCurrency
  if (getProperty mockRates key).truthy then
    getProperty mockRates key
  else if (getProperty mockRates reverseKey).truthy then
    .num (JsNum.div (.fin 1) (toNumber (getProperty mockRates reverseKey)))
  else
    .num (JsNum.add (JsNum.mul (.fin random) (.fin 10)) (.fin 0.1))

/-! ## Conversion (`src/controllers/conversionController.js`) -/

/-- Object `feeOptions` of `convertCurrency`. -/
def feeOptions : List (String × JsVal) :=
  [("none", .num (.fin 0)), ("bank", .num (.fin 3)), ("paypal", .num (.fin 4)),
   ("wise", .num (.fin 0.5)), ("western_union", .num (.fin 5))]

/-- Request as `convertCurrency` sees it: the body fields and `req.user`. A `feeType` of
`none` is an absent field. -/
structure ConvertRequest where
  fromCurrency : String
  toCurrency : String
  amount : JsVal
  feeType : Option String
  saveHistory : JsVal
  user : Option Nat

/-- What one run of `convertCurrency` obtains from outside. -/
structure ConvertEnv where
  live : Option LatestResponse
  random : ℚ
  dbOk : Bool

/-- Values computed by lines 28 to 42 of `convertCurrency`. -/
structure Computation where
  convertedAmount : JsNum
  feePercentage : JsVal
  feeAmount : JsNum
  finalAmount : JsNum
  deriving DecidableEq

/-- Lines 28 to 42 of `convertCurrency`: the conversion and the fee. -/
def calculate (amount : JsVal) (exchangeRate : JsVal) (feeType : String) : Computation :=
  let convertedAmount := JsNum.mul (parseFloat amount) (toNumber exchangeRate)
  let feePercentage :=
    if (getProperty feeOptions feeType).truthy then getProperty feeOptions feeType
    else .num (.fin 0)
  let feeAmount := JsNum.div (JsNum.mul convertedAmount (toNumber feePercentage)) (.fin 100)
  let finalAmount := JsNum.sub convertedAmount feeAmount
  { convertedAmount := convertedAmount, feePercentage := feePercentage,
    feeAmount := feeAmount, finalAmount := finalAmount }

/-- Document handed to `new ConversionHistory(..)`, and the record stored from it. -/
structure HistoryEntry where
  userId : Nat
  fromCurrency : String
  toCurrency : String
  amount : JsNum
  rate : JsVal
  convertedAmount : JsNum
  feeType : String
  feeAmount : JsNum
  finalAmount : JsNum
  deriving DecidableEq

/-- A `Number` path with `min: 0`: the value casts to a number other than `NaN` that is
at least zero. -/
def numberMinZero : JsVal → Bool
  | .num n => JsNum.le (.fin 0) n
  | _ => false

/-- Validation of `src/models/ConversionHistory.js` that `save()` runs: codes of length 3,
numbers at least zero, fee type in the enumeration. -/
def validHistory (e : HistoryEntry) : Bool :=
  jsLength e.fromCurrency = 3 && jsLength e.toCurrency = 3 &&
  numberMinZero (.num e.amount) && numberMinZero e.rate &&
  numberMinZero (.num e.convertedAmount) &&
  decide (e.feeType ∈ ["none", "bank", "paypal", "wise", "western_union"]) &&
  numberMinZero (.num e.feeAmount) && numberMinZero (.num e.finalAmount)

/-- Call of a rate source. -/
inductive RateLookup where
  | live (fromCurrency toCurrency : String)
  | mock (fromCurrency toCurrency : String)
  deriving DecidableEq

/-- Success body of `convertCurrency` (the values passed to `res.json`, without the
timestamp). -/
structure ConversionResult where
  fromCurrency : String
  toCurrency : String
  amount : JsNum
  rate : JsVal
  convertedAmount : JsNum
  feeType : String
  feePercentage : JsVal
  feeAmount : JsNum
  finalAmount : JsNum
  deriving DecidableEq

/-- Body of a response of `convertCurrency`. -/
inductive ConvertBody where
  | error (message : String)
  | result (r : ConversionResult)
  deriving DecidableEq

/-- Observable outcome of `convertCurrency`: the response, the rate lookups made and the
history record written, if any. -/
structure ConvertOutcome where
  status : Nat
  body : ConvertBody
  lookups : List RateLookup
  saved : Option HistoryEntry
  deriving DecidableEq

/-- Lines 17 to 26 of `convertCurrency`: the live rate, else the mock rate. -/
def resolveRate (live : Option LatestResponse) (random : ℚ) (fromCurrency toCurrency : String) :
    JsVal × List RateLookup :=
  match getLiveExchangeRate live fromCurrency toCurrency with
  | .ok rateData => (rateData.rate, [.live fromCurrency toCurrency])
  | .error _ =>
    (getMockExchangeRate random fromCurrency toCurrency,
      [.live fromCurrency toCurrency, .mock fromCurrency toCurrency])

/-- Handler `convertCurrency`. -/
def convertCurrency (req : ConvertRequest) (env : ConvertEnv) : ConvertOutcome :=
  let feeType := req.feeType.getD "none"
  let saveHistory := if req.saveHistory = .undefined then JsVal.bool true else req.saveHistory
  if req.fromCurrency = "" ∨ req.toCurrency = "" ∨ !req.amount.truthy then
    { status := 400,
      body := .error "Missing required fields: fromCurrency, toCurrency, amount",
      lookups := [], saved := none }
  else if JsNum.le (toNumber req.amount) (.fin 0) then
    { status := 400, body := .error "Amount must be greater than 0",
      lookups := [], saved := none }
  else
    let (exchangeRate, lookups) := resolveRate env.live env.random req.fromCurrency req.toCurrency
    let c := calculate req.amount exchangeRate feeType
    let saved : Option HistoryEntry :=
      match req.user with
      | some userId =>
        if saveHistory.truthy then
          let entry : HistoryEntry :=
            { userId := userId,
              fromCurrency := toUpperCase (toUpperCase req.fromCurrency),
              toCurrency := toUpperCase (toUpperCase req.toCurrency),
              amount := parseFloat req.amount,
              rate := exchangeRate,
              convertedAmount := c.convertedAmount,
              feeType := feeType,
              feeAmount := c.feeAmount,
              finalAmount := c.finalAmount }
          if validHistory entry && env.dbOk then some entry else none
        else none
      | none => none
    { status := 200,
      body := .result
        { fromCurrency := toUpperCase req.fromCurrency,
          toCurrency := toUpperCase req.toCurrency,
          amount := parseFloat req.amount,
          rate := exchangeRate,
          convertedAmount := JsNum.toFixed 2 c.convertedAmount,
          feeType := feeType,
          feePercentage := c.feePercentage,
          feeAmount := JsNum.toFixed 2 c.feeAmount,
          finalAmount := JsNum.toFixed 2 c.finalAmount },
      lookups := lookups, saved := saved }

/-! ## Bookmarks (`src/models/BookmarkedPairs.js`, `src/controllers/bookmarkController.js`) -/

/-- Values of the `trend` path. -/
inductive Trend where
  | up
  | down
  | neutral
  deriving DecidableEq

/-- Stored document of the `BookmarkedPairs` model. Identifiers and instants are natural
numbers; a stored rate is a finite number. -/
structure Bookmark where
  id : Nat
  userId : Nat
  fromCurrency : String
  toCurrency : String
  currentRate : ℚ
  trend : Trend
  createdAt : Nat
  updatedAt : Nat
  deriving DecidableEq

/-- Collection of bookmarks, in natural order. -/
abbrev Store := List Bookmark

/-- Validation that `save()` runs for `bookmarkedPairsSchema`: codes of length 3 and a rate
of at least zero (every such path is `required`, hence validated on each save). -/
def validBookmark (b : Bookmark) : Bool :=
  jsLength b.fromCurrency = 3 && jsLength b.toCurrency = 3 && decide (0 ≤ b.currentRate)

/-- Lines 78 to 88 of `updateRate`: the transition on the document in memory. -/
def setRate (b : Bookmark) (newRate : ℚ) : Bookmark :=
  let oldRate := b.currentRate
  { b with
    currentRate := newRate,
    trend := if newRate > oldRate then .up else if newRate < oldRate then .down else .neutral }

/-- First document satisfying `p` (`findOne`). -/
def findOne (p : Bookmark → Bool) (store : Store) : Option Bookmark := store.find? p

/-- Apply `f` to the first document satisfying `p` (`updateOne`). -/
def updateFirst (p : Bookmark → Bool) (f : Bookmark → Bookmark) : Store → Store
  | [] => []
  | x :: xs => if p x then f x :: xs else x :: updateFirst p f xs

/-- Remove the first document satisfying `p` (`findOneAndDelete`). -/
def deleteFirst (p : Bookmark → Bool) : Store → Store
  | [] => []
  | x :: xs => if p x then xs else x :: deleteFirst p xs

/-- Call `this.save()` on a loaded document whose rate and trend were assigned: the document
is validated, the `pre('save')` hook stamps `updatedAt`, and the modified paths are written
to the stored record with the same `_id`. The handlers only save documents they have just
loaded. `dbOk` tells whether the database accepts the write. -/
def saveLoaded (store : Store) (b : Bookmark) (now : Nat) (dbOk : Bool) :
    Except String (Bookmark × Store) :=
  if !validBookmark b then .error "BookmarkedPairs validation failed"
  else if !dbOk then .error "write failed"
  else
    .ok ({ b with updatedAt := now },
      updateFirst (fun x => x.id = b.id)
        (fun x => { x with currentRate := b.currentRate, trend := b.trend, updatedAt := now })
        store)

/-- Method `updateRate`: the transition, then `save()`. -/
def updateRate (store : Store) (b : Bookmark) (newRate : ℚ) (now : Nat) (dbOk : Bool) :
    Except String (Bookmark × Store) :=
  saveLoaded store (setRate b newRate) now dbOk

/-- Cast of a value assigned to the `Number` path `currentRate`. The rate sources yield a
finite number, or an inherited member of the rate table, which does not cast. -/
def castRate : JsVal → Option ℚ
  | .num (.fin q) => some q
  | _ => none

/-- What one step of a bookmark handler obtains from outside. -/
structure BookmarkEnv where
  live : Option LatestResponse
  random : ℚ
  now : Nat
  dbOk : Bool
  freshId : Nat

/-- Bookmark as shown in a response; `rate` is the value `toFixed(4)` prints. -/
structure BookmarkView where
  id : Nat
  fromCurrency : String
  toCurrency : String
  rate : JsNum
  trend : Trend
  deriving DecidableEq

/-- The view of a document. -/
def viewOf (b : Bookmark) : BookmarkView :=
  { id := b.id, fromCurrency := b.fromCurrency, toCurrency := b.toCurrency,
    rate := JsNum.toFixed 4 (.fin b.currentRate), trend := b.trend }

/-- Body of a response of a single-bookmark handler. -/
inductive BookmarkBody where
  | error (message : String)
  | message (message : String)
  | bookmark (message : String) (bookmark : BookmarkView)
  deriving DecidableEq

/-- Outcome of a single-bookmark handler: the response and the store afterwards. -/
structure BookmarkOutcome where
  status : Nat
  body : BookmarkBody
  store : Store
  deriving DecidableEq

/-- Handler `addBookmark` for the authenticated user `user`. -/
def addBookmark (store : Store) (user : Nat) (fromCurrency toCurrency : String)
    (env : BookmarkEnv) : BookmarkOutcome :=
  if fromCurrency = "" ∨ toCurrency = "" then
    { status := 400, body := .error "Missing required fields: fromCurrency, toCurrency",
      store := store }
  else if fromCurrency = toCurrency then
    { status := 400, body := .error "From and To currencies cannot be the same",
      store := store }
  else
    let existingBookmark := findOne (fun b => b.userId = user ∧
      b.fromCurrency = toUpperCase fromCurrency ∧ b.toCurrency = toUpperCase toCurrency) store
    if existingBookmark.isSome then
      { status := 409, body := .error "Currency pair already bookmarked", store := store }
    else
      let currentRate := (resolveRate env.live env.random fromCurrency toCurrency).1
      match castRate currentRate with
      | none =>
        { status := 500, body := .error "Internal server error adding bookmark", store := store }
      | some rate =>
        let bookmark : Bookmark :=
          { id := env.freshId, userId := user,
            fromCurrency := toUpperCase (toUpperCase fromCurrency),
            toCurrency := toUpperCase (toUpperCase toCurrency),
            currentRate := rate, trend := .neutral,
            createdAt := env.now, updatedAt := env.now }
        let duplicate := store.any (fun b => b.id = bookmark.id ∨
          (b.userId = bookmark.userId ∧ b.fromCurrency = bookmark.fromCurrency ∧
            b.toCurrency = bookmark.toCurrency))
        if validBookmark bookmark && !duplicate && env.dbOk then
          { status := 201,
            body := .bookmark "Currency pair bookmarked successfully" (viewOf bookmark),
            store := store ++ [bookmark] }
        else
          { status := 500, body := .error "Internal server error adding bookmark",
            store := store }

/-- Handler `removeBookmark`; `id` is `none` when the path parameter is not an identifier,
and the query throws. -/
def removeBookmark (store : Store) (user : Nat) (id : Option Nat) : BookmarkOutcome :=
  match id with
  | none =>
    { status := 500, body := .error "Internal server error removing bookmark", store := store }
  | some id =>
    match findOne (fun b => b.id = id ∧ b.userId = user) store with
    | none => { status := 404, body := .error "Bookmark not found", store := store }
    | some _ =>
      { status := 200, body := .message "Bookmark removed successfully",
        store := deleteFirst (fun b => b.id = id ∧ b.userId = user) store }

/-- Lines 126 to 137 of `updateBookmarkRate`, also lines 173 to 182 of
`updateAllBookmarkRates`: the new rate, live or else mock, then `updateRate`. -/
def refresh (store : Store) (b : Bookmark) (env : BookmarkEnv) :
    Except String (Bookmark × Store) :=
  let newRate := (resolveRate env.live env.random b.fromCurrency b.toCurrency).1
  match castRate newRate with
  | none => .error "BookmarkedPairs validation failed"
  | some rate => updateRate store b rate env.now env.dbOk

/-- Handler `updateBookmarkRate`. -/
def updateBookmarkRate (store : Store) (user : Nat) (id : Option Nat) (env : BookmarkEnv) :
    BookmarkOutcome :=
  match id with
  | none =>
    { status := 500, body := .error "Internal server error updating bookmark rate",
      store := store }
  | some id =>
    match findOne (fun b => b.id = id ∧ b.userId = user) store with
    | none => { status := 404, body := .error "Bookmark not found", store := store }
    | some bookmark =>
      match refresh store bookmark env with
      | .ok (bookmark, store) =>
        { status := 200,
          body := .bookmark "Bookmark rate updated successfully" (viewOf bookmark),
          store := store }
      | .error _ =>
        { status := 500, body := .error "Internal server error updating bookmark rate",
          store := store }

/-- Entry of `results` in `updateAllBookmarkRates`. -/
structure RefreshResult where
  id : Nat
  fromCurrency : String
  toCurrency : String
  rate : Option JsNum
  trend : Option Trend
  updated : Bool
  error : Option String
  deriving DecidableEq

/-- Body of the response of `updateAllBookmarkRates`. -/
inductive RefreshAllBody where
  | nothing (message : String) (updatedCount : Nat)
  | summary (message : String) (updatedCount totalCount : Nat) (results : List RefreshResult)
  deriving DecidableEq

/-- Outcome of `updateAllBookmarkRates`. -/
structure RefreshAllOutcome where
  status : Nat
  body : RefreshAllBody
  store : Store
  deriving DecidableEq

/-- Loop state of `updateAllBookmarkRates`: the store, `updatedCount` and `results`. -/
structure LoopState where
  store : Store
  updatedCount : Nat
  results : List RefreshResult
  deriving DecidableEq

/-- One iteration of the loop of `updateAllBookmarkRates`, on the loaded document `b`. -/
def refreshStep (st : LoopState) (b : Bookmark) (env : BookmarkEnv) : LoopState :=
  match refresh st.store b env with
  | .ok (bookmark, store) =>
    { store := store, updatedCount := st.updatedCount + 1,
      results := st.results ++
        [{ id := bookmark.id, fromCurrency := bookmark.fromCurrency,
           toCurrency := bookmark.toCurrency,
           rate := some (JsNum.toFixed 4 (.fin bookmark.currentRate)),
           trend := some bookmark.trend, updated := true, error := none }] }
  | .error message =>
    { st with
      results := st.results ++
        [{ id := b.id, fromCurrency := b.fromCurrency, toCurrency := b.toCurrency,
           rate := none, trend := none, updated := false, error := some message }] }

/-- The loop of `updateAllBookmarkRates`: iteration `k` runs in environment `env k`. -/
def refreshLoop (env : Nat → BookmarkEnv) : Nat → List Bookmark → LoopState → LoopState
  | _, [], st => st
  | k, b :: bs, st => refreshLoop env (k + 1) bs (refreshStep st b (env k))

/-- Handler `updateAllBookmarkRates` for the authenticated user `user`. -/
def updateAllBookmarkRates (store : Store) (user : Nat) (env : Nat → BookmarkEnv) :
    RefreshAllOutcome :=
  let bookmarks := store.filter (fun b => b.userId = user)
  if bookmarks.length = 0 then
    { status := 200, body := .nothing "No bookmarks to update" 0, store := store }
  else
    let st := refreshLoop env 0 bookmarks { store := store, updatedCount := 0, results := [] }
    { status := 200,
      body := .summary
        ("Updated " ++ toString st.updatedCount ++ " out of " ++ toString bookmarks.length ++
          " bookmarks")
        st.updatedCount bookmarks.length st.results,
      store := st.store }

/-! ## Dates -/

/-- Milliseconds in one day, `1000 * 60 * 60 * 24`. -/
def msPerDay : Int := 1000 * 60 * 60 * 24

/-- Time zone of the server, in milliseconds: `offsetAt t` is the offset of local time from
UTC at the instant `t` (local time is `t + offsetAt t`), `offsetOfLocal l` the offset that
applies to the local time `l` (the instant is `l - offsetOfLocal l`; for a local time that
a transition skips or repeats ECMAScript takes the offset before the transition).
`advances` says that the same local time on the next local day is a later instant. -/
structure TimeZone where
  offsetAt : Int → Int
  offsetOfLocal : Int → Int
  advances : ∀ t, offsetOfLocal (t + offsetAt t + msPerDay) < offsetAt t + msPerDay

/-- Zone at a constant offset from UTC. -/
def fixedZone (offset : Int) : TimeZone :=
  { offsetAt := fun _ => offset,
    offsetOfLocal := fun _ => offset,
    advances := fun _ => by simp [msPerDay] }

/-- Zone of a server running in UTC. -/
def utc : TimeZone := fixedZone 0

/-- Zone `America/New_York` with its rules for 2024 and 2025: four hours behind UTC from
10 March 2024, 07:00 UTC, to 3 November 2024, 06:00 UTC, and from 9 March 2025, 07:00 UTC,
to 2 November 2025, 06:00 UTC; five hours behind otherwise. -/
def newYork : TimeZone :=
  { offsetAt := fun t =>
      if (1710054000000 ≤ t ∧ t < 1730613600000) ∨ (1741503600000 ≤ t ∧ t < 1762063200000)
      then -14400000 else -18000000,
    offsetOfLocal := fun l =>
      if (1710039600000 ≤ l ∧ l < 1730599200000) ∨ (1741489200000 ≤ l ∧ l < 1762048800000)
      then -14400000 else -18000000,
    advances := fun t => by
      simp only [msPerDay]
      split_ifs <;> omega }

/-- Instant after `current.setDate(current.getDate() + 1)`: the same local time on the next
local day. -/
def nextLocalDay (zone : TimeZone) (t : Int) : Int :=
  let l := t + zone.offsetAt t + msPerDay
  l - zone.offsetOfLocal l

/-- Leap years of the Gregorian calendar. -/
def isLeapYear (y : Nat) : Bool := (y % 4 = 0 && y % 100 ≠ 0) || y % 400 = 0

/-- Number of days of month `m` (1 to 12) in year `y`; 0 for any other `m`. -/
def daysInMonth (y m : Nat) : Nat :=
  match m with
  | 1 => 31
  | 2 => if isLeapYear y then 29 else 28
  | 3 => 31
  | 4 => 30
  | 5 => 31
  | 6 => 30
  | 7 => 31
  | 8 => 31
  | 9 => 30
  | 10 => 31
  | 11 => 30
  | 12 => 31
  | _ => 0

/-- Days of year `y` before month `m`: the months 1 to `m - 1`. -/
def daysBeforeMonth (y : Nat) : Nat → Nat
  | 0 => 0
  | m + 1 => daysBeforeMonth y m + daysInMonth y m

/-- Days from 1 January of year 0 to 1 January of year `y`. -/
def daysBeforeYear (y : Nat) : Nat :=
  365 * y + (y + 3) / 4 - (y + 99) / 100 + (y + 399) / 400

/-- Day number of a calendar date, counted from 1 January 1970. -/
def dayNumber (y m d : Nat) : Int :=
  (daysBeforeYear y : Int) + (daysBeforeMonth y m : Int) + ((d : Int) - 1) - 719528

/-- Value of two or more decimal digits, `none` when a character is not a digit. -/
def digitsNat (cs : List Char) : Option Nat :=
  if cs.all Char.isDigit then some (decimalValue cs) else none

/-- Time value of `new Date(s)` for a date-only ISO string `YYYY-MM-DD` naming a calendar
date: midnight UTC of that day, in milliseconds. Any other string counts as an invalid
date here (`none`, the time value `NaN`). -/
def parseIsoDate (s : String) : Option Int :=
  match s.data with
  | [y1, y2, y3, y4, '-', m1, m2, '-', d1, d2] =>
    match digitsNat [y1, y2, y3, y4], digitsNat [m1, m2], digitsNat [d1, d2] with
    | some y, some m, some d =>
      if 1 ≤ m ∧ m ≤ 12 ∧ 1 ≤ d ∧ d ≤ daysInMonth y m then some (dayNumber y m d * msPerDay)
      else none
    | _, _, _ => none
  | _ => none

/-- Month and day of month of a time value read as a civil time (civil date from the day
count). -/
def monthDay (t : Int) : Nat × Nat :=
  let z := t / msPerDay + 719468
  let era := z / 146097
  let doe := z - era * 146097
  let yoe := (doe - doe / 1460 + doe / 36524 - doe / 146096) / 365
  let doy := doe - (365 * yoe + yoe / 4 - yoe / 100)
  let mp := (5 * doy + 2) / 153
  let d := doy - (153 * mp + 2) / 5 + 1
  let m := if mp < 10 then mp + 3 else mp - 9
  (m.toNat, d.toNat)

/-- Short month names of the locale `en-US`. -/
def monthNames : List String :=
  ["Jan", "Feb", "Mar", "Apr", "May", "Jun", "Jul", "Aug", "Sep", "Oct", "Nov", "Dec"]

/-- Text of `date.toLocaleDateString('en-US', { month: 'short', day: 'numeric' })` on a
server in the zone `zone`: month and day of the local time; `none` is an invalid date. -/
def toLocaleDateString (zone : TimeZone) (t : Option Int) : String :=
  match t with
  | none => "Invalid Date"
  | some t =>
    monthNames.getD ((monthDay (t + zone.offsetAt t)).1 - 1) "" ++ " " ++
      toString (monthDay (t + zone.offsetAt t)).2

/-! ### Binary rounding

The statistics and the mock series are computed with a rounding `rnd : ℚ → JsNum` applied
to every literal that is not a binary fraction and to the result of every operation. The
rounding `JsNum.fin` is exact arithmetic; `binary64` is the arithmetic of the engine. -/

/-- Rounding to the nearest integer, a tie to the even one. -/
def roundHalfEven (x : ℚ) : ℤ :=
  if x - ⌊x⌋ < 1 / 2 then ⌊x⌋
  else if 1 / 2 < x - ⌊x⌋ then ⌊x⌋ + 1
  else if ⌊x⌋ % 2 = 0 then ⌊x⌋ else ⌊x⌋ + 1

/-- The IEEE 754 double nearest to a rational, ties to even: 53 significant bits, the
exponent from -1022 on (below it the spacing stays `2 ^ (-1074)`), and an infinity once the
rounded magnitude reaches `2 ^ 1024`. The sign of zero is not modelled. -/
def binary64 (q : ℚ) : JsNum :=
  if q = 0 then .fin 0
  else
    let e : ℤ := max (Int.log 2 |q|) (-1022)
    let ulp : ℚ := (2 : ℚ) ^ (e - 52)
    let r : ℚ := (roundHalfEven (q / ulp) : ℚ) * ulp
    if (2 : ℚ) ^ (1024 : ℤ) ≤ |r| then .inf (decide (q < 0)) else .fin r

/-- The result of an operation under the rounding `rnd`. -/
def JsNum.rounded (rnd : ℚ → JsNum) : JsNum → JsNum
  | .fin q => rnd q
  | x => x

/-- Function `Math.max` on two numbers. -/
def JsNum.max (a b : JsNum) : JsNum :=
  match a, b with
  | .nan, _ => .nan
  | _, .nan => .nan
  | a, b => if JsNum.lt a b then b else a

/-- Function `Math.min` on two numbers. -/
def JsNum.min (a b : JsNum) : JsNum :=
  match a, b with
  | .nan, _ => .nan
  | _, .nan => .nan
  | a, b => if JsNum.lt b a then b else a

/-- Call `Math.max(...xs)`. -/
def mathMax (xs : List JsNum) : JsNum := xs.foldl JsNum.max (.inf true)

/-- Call `Math.min(...xs)`. -/
def mathMin (xs : List JsNum) : JsNum := xs.foldl JsNum.min (.inf false)

/-- Statistics block of the historical responses. -/
structure SeriesStats where
  highest : JsNum
  lowest : JsNum
  average : JsNum
  dataPoints : Nat
  deriving DecidableEq

/-- The statistics computed from a series: `Math.max`, `Math.min`, and the sum of
`reduce((a, b) => a + b, 0)`, rounded after every addition, divided by the length. -/
def seriesStats (rnd : ℚ → JsNum) (rates : List JsNum) : SeriesStats :=
  { highest := mathMax rates,
    lowest := mathMin rates,
    average := JsNum.rounded rnd
      (JsNum.div (rates.foldl (fun a b => JsNum.rounded rnd (JsNum.add a b)) (.fin 0))
        (.fin rates.length)),
    dataPoints := rates.length }

/-! ## Historical rates (`src/utils/exchangeRateAPI.js`, `historicalController.js`)

The parser of date strings, `new Date(s).getTime()`, is an argument `dateParse` of the
definitions below (`none` is the time value `NaN`); `parseIsoDate` is that parser on
date-only ISO strings. -/

/-- Body of a reply of the historical provider: `data.rates`, mapping a date string to the
rate table of that day (absent when the provider answers with some other document). -/
structure HistoricalResponse where
  rates : Option (List (String × List (String × JsVal)))

/-- Entry of the series `getHistoricalExchangeRates` returns. -/
structure HistoricalPoint where
  date : String
  rate : JsNum
  deriving DecidableEq

/-- Value `getHistoricalExchangeRates` resolves to. -/
structure HistoricalData where
  fromCurrency : String
  toCurrency : String
  data : List HistoricalPoint
  source : String
  deriving DecidableEq

/-- The comparator `(a, b) => new Date(a.date) - new Date(b.date)`. -/
def compareByDate (dateParse : String → Option Int) (a b : HistoricalPoint) : JsNum :=
  match dateParse a.date, dateParse b.date with
  | some ta, some tb => .fin ((ta - tb : Int) : ℚ)
  | _, _ => .nan

/-- Order that `sort` establishes from the comparator: `a` stays before `b` unless the
comparator is above zero. -/
def notAfter (dateParse : String → Option Int) (a b : HistoricalPoint) : Prop :=
  JsNum.lt (.fin 0) (compareByDate dateParse a b) = false

instance decidableNotAfter (dateParse : String → Option Int) :
    DecidableRel (notAfter dateParse) := by
  intro a b
  unfold notAfter
  infer_instance

/-- Function `getHistoricalExchangeRates`. `reply` is what `fastAxios.get` yields, `none`
when the request throws. The entries of `data.rates` are mapped in their order and sorted
by the stable `sort`; every error inside the `try` block becomes the final error. -/
def getHistoricalExchangeRates (dateParse : String → Option Int)
    (reply : Option HistoricalResponse)
    (fromCurrency toCurrency _startDate _endDate : String) :
    Except String HistoricalData :=
  match reply with
  | none => .error "Failed to fetch historical exchange rates via Frankfurter"
  | some data =>
    match data.rates with
    | none => .error "Failed to fetch historical exchange rates via Frankfurter"
    | some entries =>
      let historicalData :=
        (entries.map (fun entry =>
          let parsed := parseFloat (getProperty entry.2 toCurrency)
          ({ date := entry.1,
             rate := if parsed.truthy then parsed else .fin 0 } : HistoricalPoint))).insertionSort
          (notAfter dateParse)
      .ok { fromCurrency := fromCurrency, toCurrency := toCurrency, data := historicalData,
            source := "frankfurter" }

/-- Object `baseRates` of `generateMockHistoricalData`; its literals are rounded. -/
def baseRates (rnd : ℚ → JsNum) : List (String × JsVal) :=
  [("USD-INR", .num (rnd 83.25)), ("USD-EUR", .num (rnd 0.92)),
   ("USD-GBP", .num (rnd 0.79)), ("USD-JPY", .num (rnd 149.50)),
   ("EUR-USD", .num (rnd 1.08)), ("GBP-USD", .num (rnd 1.27)),
   ("JPY-USD", .num (rnd 0.0067))]

/-- Line 122 of `generateMockHistoricalData`: the base rate of the pair. -/
def baseRateOf (rnd : ℚ → JsNum) (fromCurrency toCurrency : String) : JsVal :=
  let key := fromCurrency ++ "-" ++ toCurrency
  let reverseKey := toCurrency ++ "-" ++ fromCurrency
  if (getProperty (baseRates rnd) key).truthy then getProperty (baseRates rnd) key
  else if (getProperty (baseRates rnd) reverseKey).truthy then
    .num (JsNum.rounded rnd
      (JsNum.div (.fin 1) (toNumber (getProperty (baseRates rnd) reverseKey))))
  else .num (.fin 1.0)

/-- State of the loop of `generateMockHistoricalData`: `data` and `labels`. -/
structure MockSeries where
  data : List JsNum
  labels : List String
  deriving DecidableEq

/-- The `while (current <= end)` loop of `generateMockHistoricalData` on a server in the
zone `zone`: the label is the local date of `current`, and `setDate(getDate() + 1)` moves
`current` to the same local time on the next local day. Iteration `k` draws `random k` from
`Math.random()`; the literals 0.5 and 1 are binary fractions, 0.1 is rounded. -/
def mockLoop (zone : TimeZone) (rnd : ℚ → JsNum) (random : Nat → ℚ) (baseRate : JsVal)
    (endTime : Int) (k : Nat) (current : Int) (acc : MockSeries) : MockSeries :=
  if current ≤ endTime then
    let variation := JsNum.rounded rnd
      (JsNum.mul (JsNum.rounded rnd (JsNum.sub (.fin (random k)) (.fin 0.5))) (rnd 0.1))
    let rate := JsNum.rounded rnd
      (JsNum.mul (toNumber baseRate) (JsNum.rounded rnd (JsNum.add (.fin 1) variation)))
    mockLoop zone rnd random baseRate endTime (k + 1) (nextLocalDay zone current)
      { data := acc.data ++ [rate],
        labels := acc.labels ++ [toLocaleDateString zone (some current)] }
  else acc
termination_by (endTime - current + 1).toNat
decreasing_by
  have := zone.advances current
  simp only [nextLocalDay]
  omega

/-- Value `generateMockHistoricalData` returns: the chart series and its statistics. -/
structure MockHistoricalData where
  labels : List String
  datasetLabel : String
  data : List JsNum
  stats : SeriesStats
  deriving DecidableEq

/-- Function `generateMockHistoricalData`; `startDate` and `endDate` are the time values of
the two `Date` arguments. -/
def generateMockHistoricalData (zone : TimeZone) (rnd : ℚ → JsNum) (random : Nat → ℚ)
    (fromCurrency toCurrency : String) (startDate endDate : Int) : MockHistoricalData :=
  let series := mockLoop zone rnd random (baseRateOf rnd fromCurrency toCurrency) endDate 0
    startDate { data := [], labels := [] }
  { labels := series.labels,
    datasetLabel := fromCurrency ++ " to " ++ toCurrency,
    data := series.data,
    stats := seriesStats rnd series.data }

/-- Success body of `getHistoricalData`. -/
structure HistoricalResult where
  fromCurrency : String
  toCurrency : String
  startDate : String
  endDate : String
  labels : List String
  datasetLabel : String
  data : List JsNum
  stats : SeriesStats
  source : String
  warning : Option String
  deriving DecidableEq

/-- Body of a response of `getHistoricalData`. -/
inductive HistoricalBody where
  | error (message : String)
  | result (r : HistoricalResult)
  deriving DecidableEq

/-- Response of `getHistoricalData`. -/
structure HistoricalOutcome where
  status : Nat
  body : HistoricalBody
  deriving DecidableEq

/-- Rounding `Math.ceil(x / d)` of an integer quotient, `d` above zero. -/
def ceilDiv (x d : Int) : Int := -((-x) / d)

/-- Handler `getHistoricalData`; the query parameters are strings, an absent one behaves as
the empty string. -/
def getHistoricalData (zone : TimeZone) (rnd : ℚ → JsNum)
    (dateParse : String → Option Int) (reply : Option HistoricalResponse)
    (random : Nat → ℚ) (fromCurrency toCurrency startDate endDate : String) :
    HistoricalOutcome :=
  if fromCurrency = "" ∨ toCurrency = "" ∨ startDate = "" ∨ endDate = "" then
    { status := 400,
      body := .error "Missing required parameters: fromCurrency, toCurrency, startDate, endDate" }
  else
    match dateParse startDate, dateParse endDate with
    | some start, some «end» =>
      if start > «end» then
        { status := 400, body := .error "Start date cannot be after end date" }
      else
        let daysDiff := ceilDiv («end» - start) msPerDay
        if daysDiff > 365 then
          { status := 400, body := .error "Date range cannot exceed 365 days" }
        else
          match getHistoricalExchangeRates dateParse reply fromCurrency toCurrency startDate
              endDate with
          | .ok historicalData =>
            let rates := historicalData.data.map (fun item => item.rate)
            { status := 200,
              body := .result
                { fromCurrency := toUpperCase fromCurrency,
                  toCurrency := toUpperCase toCurrency,
                  startDate := startDate, endDate := endDate,
                  labels := historicalData.data.map
                    (fun item => toLocaleDateString zone (dateParse item.date)),
                  datasetLabel := fromCurrency ++ " to " ++ toCurrency,
                  data := rates,
                  stats := seriesStats rnd rates,
                  source := historicalData.source,
                  warning := none } }
          | .error _ =>
            let mockData :=
              generateMockHistoricalData zone rnd random fromCurrency toCurrency start «end»
            { status := 200,
              body := .result
                { fromCurrency := toUpperCase fromCurrency,
                  toCurrency := toUpperCase toCurrency,
                  startDate := startDate, endDate := endDate,
                  labels := mockData.labels,
                  datasetLabel := mockData.datasetLabel,
                  data := mockData.data,
                  stats := mockData.stats,
                  source := "mock",
                  warning := some "Using mock data due to API unavailability" } }
    | _, _ => { status := 400, body := .error "Invalid date format. Use YYYY-MM-DD" }

/-! ## Live-rate endpoint and the failures of the live source -/

/-- Errors raised inside the `try` block of `getLiveExchangeRate`. -/
inductive LiveFailure where
  | requestFailed
  | malformedResponse
  | rateNotFound (message : String)
  deriving DecidableEq

/-- The `try` block of `getLiveExchangeRate` (lines 16 to 27), before its `catch`: the
request may throw, reading `rates` of a document without rates throws, and a falsy rate
throws the error with the text `Exchange rate not found for .. to ..`. -/
def getLiveExchangeRateTry (reply : Option LatestResponse) (fromCurrency toCurrency : String) :
    Except LiveFailure RateData :=
  match reply with
  | none => .error .requestFailed
  | some response =>
    match response.rates with
    | none => .error .malformedResponse
    | some rates =>
      let rate := getProperty (rates.map (fun p => (p.1, JsVal.num (.fin p.2)))) toCurrency
      if !rate.truthy then
        .error (.rateNotFound
          ("Exchange rate not found for " ++ fromCurrency ++ " to " ++ toCurrency))
      else .ok { rate := rate, timestamp := response.date, source := "exchangerate-api" }

/-- Success body of the handler `getLiveRate`. The timestamp is the text the instant was
built from: the date of the provider, or the clock reading. -/
structure LiveRateResult where
  fromCurrency : String
  toCurrency : String
  rate : JsVal
  timestamp : String
  source : String
  deriving DecidableEq

/-- Body of a response of `getLiveRate`. -/
inductive LiveRateBody where
  | error (message : String)
  | result (r : LiveRateResult)
  deriving DecidableEq

/-- Response of `getLiveRate`. -/
structure LiveRateOutcome where
  status : Nat
  body : LiveRateBody
  deriving DecidableEq

/-- Handler `getLiveRate`; `now` is the reading of the clock. -/
def getLiveRate (live : Option LatestResponse) (random : ℚ) (now : String)
    (fromCurrency toCurrency : String) : LiveRateOutcome :=
  if fromCurrency = "" ∨ toCurrency = "" then
    { status := 400, body := .error "Missing currency parameters" }
  else
    let rateData : RateData :=
      match getLiveExchangeRate live fromCurrency toCurrency with
      | .ok rateData => rateData
      | .error _ =>
        { rate := getMockExchangeRate random fromCurrency toCurrency, timestamp := now,
          source := "mock" }
    { status := 200,
      body := .result
        { fromCurrency := toUpperCase fromCurrency, toCurrency := toUpperCase toCurrency,
          rate := rateData.rate, timestamp := rateData.timestamp,
          source := rateData.source } }

/-! ## History (`src/controllers/historyController.js`) -/

/-- Stored document of the `ConversionHistory` model: the saved entry with its identifier
and its `timestamp` (milliseconds). -/
structure HistoryRecord where
  id : Nat
  timestamp : Int
  entry : HistoryEntry
  deriving DecidableEq

/-- Function `formatRelativeTime`; `now` is the reading of the clock. -/
def formatRelativeTime (now timestamp : Int) : String :=
  let diff := now - timestamp
  let hours := diff / (1000 * 60 * 60)
  let days := hours / 24
  if days > 0 then
    toString days ++ " day" ++ (if days > 1 then "s" else "") ++ " ago"
  else if hours > 0 then
    toString hours ++ " hour" ++ (if hours > 1 then "s" else "") ++ " ago"
  else
    let minutes := diff / (1000 * 60)
    toString minutes ++ " minute" ++ (if minutes > 1 then "s" else "") ++ " ago"

/-- Item of `formattedHistory`; `rate`, `result` and `feeAmount` are the values the texts
of `toFixed` denote. -/
structure HistoryView where
  id : Nat
  fromCurrency : String
  toCurrency : String
  amount : JsNum
  rate : JsNum
  result : JsNum
  timestamp : String
  feeType : String
  feeAmount : JsNum
  deriving DecidableEq

/-- Lines 28 to 38 of `getHistory`: the display form of one stored document. -/
def formatHistoryItem (now : Int) (item : HistoryRecord) : HistoryView :=
  { id := item.id,
    fromCurrency := item.entry.fromCurrency,
    toCurrency := item.entry.toCurrency,
    amount := item.entry.amount,
    rate := JsNum.toFixed 4 (toNumber item.entry.rate),
    result := JsNum.toFixed 2 item.entry.finalAmount,
    timestamp := formatRelativeTime now item.timestamp,
    feeType := item.entry.feeType,
    feeAmount := JsNum.toFixed 2 item.entry.feeAmount }

/-- Block `pagination` of the response of `getHistory`. -/
structure Pagination where
  currentPage : Nat
  totalPages : JsNum
  totalCount : Nat
  hasMore : Bool
  deriving DecidableEq

/-- Body of a response of `getHistory`. -/
inductive HistoryBody where
  | error (message : String)
  | page (history : List HistoryView) (pagination : Pagination)
  deriving DecidableEq

/-- Response of `getHistory`. -/
structure HistoryOutcome where
  status : Nat
  body : HistoryBody
  deriving DecidableEq

/-- Function `Math.ceil` on the quotient of two counts. -/
def ceilQuotient (n d : Nat) : JsNum :=
  if d = 0 then (if n = 0 then .nan else .inf false) else .fin (((n + d - 1) / d : Nat) : ℚ)

/-- Handler `getHistory` for the authenticated user `user`. `page` and `limit` are the
values of `parseInt(page)` and `parseInt(limit)`, taken to be integers that are not
negative; `sortDocs` is the order in which the database returns the matching documents for
the requested `sortBy` and `sortOrder`; a limit of 0 means no limit, a negative skip is
refused by the database; `dbOk` tells whether the queries go through. -/
def getHistory (store : List HistoryRecord) (user : Nat)
    (sortDocs : List HistoryRecord → List HistoryRecord) (page limit : Nat) (now : Int)
    (dbOk : Bool) : HistoryOutcome :=
  let skip : Int := ((page : Int) - 1) * (limit : Int)
  if !dbOk ∨ skip < 0 then
    { status := 500, body := .error "Internal server error fetching history" }
  else
    let matching := store.filter (fun r => r.entry.userId = user)
    let skipped := (sortDocs matching).drop skip.toNat
    let history := if limit = 0 then skipped else skipped.take limit
    let totalCount := matching.length
    { status := 200,
      body := .page (history.map (formatHistoryItem now))
        { currentPage := page,
          totalPages := ceilQuotient totalCount limit,
          totalCount := totalCount,
          hasMore := decide (skip + (history.length : Int) < (totalCount : Int)) } }

/-! ## Specification-side definitions -/

/-- The fee schedule as the specification words it: fee type and percentage. -/
def feeSchedule : List (String × ℚ) :=
  [("none", 0), ("bank", 3), ("paypal", 4), ("wise", 0.5), ("western_union", 5)]

/-- The table of the mock generator as the specification words it: ordered pair and
baseline value. -/
def mockTable : List ((String × String) × ℚ) :=
  [(("USD", "INR"), 83.25), (("USD", "EUR"), 0.92), (("USD", "GBP"), 0.79),
   (("USD", "JPY"), 149.50), (("EUR", "USD"), 1.08), (("GBP", "USD"), 1.27),
   (("JPY", "USD"), 0.0067)]

/-- Reference definition of `mockRate` in three branches: the entry of the pair, else the
reciprocal of the entry of the reverse pair, else `10 * random + 0.1`. -/
def mockRateSpec (random : ℚ) (fromCurrency toCurrency : String) : ℚ :=
  match mockTable.lookup (fromCurrency, toCurrency) with
  | some v => v
  | none =>
    match mockTable.lookup (toCurrency, fromCurrency) with
    | some v => 1 / v
    | none => 10 * random + 0.1

/-- What identifies a bookmark and never changes: identifier, owner, pair, creation. -/
def identityOf (b : Bookmark) : Nat × Nat × String × String × Nat :=
  (b.id, b.userId, b.fromCurrency, b.toCurrency, b.createdAt)

/-- No two bookmarks share owner, source currency and target currency. -/
def uniquePairs (store : Store) : Prop :=
  (store.map (fun b => (b.userId, b.fromCurrency, b.toCurrency))).Nodup

instance decidableUniquePairs (store : Store) : Decidable (uniquePairs store) := by
  unfold uniquePairs
  infer_instance

/-! ## Derived definitions and example data -/

/-- The entry `updateAllBookmarkRates` pushes for the outcome of one refresh of `b`
(lines 185 to 192 on success, lines 195 to 201 on failure). -/
def resultEntry (b : Bookmark) : Except String (Bookmark × Store) → RefreshResult
  | .ok (bookmark, _) =>
    { id := bookmark.id, fromCurrency := bookmark.fromCurrency,
      toCurrency := bookmark.toCurrency,
      rate := some (JsNum.toFixed 4 (.fin bookmark.currentRate)),
      trend := some bookmark.trend, updated := true, error := none }
  | .error message =>
    { id := b.id, fromCurrency := b.fromCurrency, toCurrency := b.toCurrency,
      rate := none, trend := none, updated := false, error := some message }

/-- The entries pushed by the loop, one per document, in order. -/
def loopEntries (env : Nat → BookmarkEnv) : Nat → List Bookmark → List RefreshResult
  | _, [] => []
  | k, b :: bs => resultEntry b (refresh [] b (env k)) :: loopEntries env (k + 1) bs

/-- Example store: three bookmarks of owner 1 and one of owner 2. -/
def exampleStore : Store :=
  [ { id := 1, userId := 1, fromCurrency := "USD", toCurrency := "EUR", currentRate := 0.9,
      trend := .neutral, createdAt := 10, updatedAt := 10 },
    { id := 2, userId := 2, fromCurrency := "USD", toCurrency := "EUR", currentRate := 0.9,
      trend := .neutral, createdAt := 11, updatedAt := 11 },
    { id := 3, userId := 1, fromCurrency := "USD", toCurrency := "INR", currentRate := 80,
      trend := .neutral, createdAt := 12, updatedAt := 12 },
    { id := 4, userId := 1, fromCurrency := "GBP", toCurrency := "USD", currentRate := 1.27,
      trend := .up, createdAt := 13, updatedAt := 13 } ]

/-- Example environments: the live source answers, except in iteration 1. -/
def exampleEnv (k : Nat) : BookmarkEnv :=
  { live := if k = 1 then none
      else some { rates := some [("EUR", 0.95), ("USD", 1.27)], date := "2025-06-01" },
    random := 0, now := 100 + k, dbOk := true, freshId := 50 + k }

/-- Lines 49 to 52 of `getHistoricalExchangeRates`: the point made of one entry of
`data.rates`. -/
def historicalPoint (toCurrency : String) (entry : String × List (String × JsVal)) :
    HistoricalPoint :=
  let parsed := parseFloat (getProperty entry.2 toCurrency)
  { date := entry.1, rate := if parsed.truthy then parsed else .fin 0 }

/-- Time value of the date of a point, 0 when the date is invalid. -/
def timeOf (dateParse : String → Option Int) (p : HistoricalPoint) : Int :=
  (dateParse p.date).getD 0

/-- The value the loop pushes in iteration `k`. -/
def mockValue (rnd : ℚ → JsNum) (random : Nat → ℚ) (baseRate : JsVal) (k : Nat) : JsNum :=
  JsNum.rounded rnd
    (JsNum.mul (toNumber baseRate)
      (JsNum.rounded rnd
        (JsNum.add (.fin 1)
          (JsNum.rounded rnd
            (JsNum.mul (JsNum.rounded rnd (JsNum.sub (.fin (random k)) (.fin 0.5)))
              (rnd 0.1))))))

/-- The instants at which the loop runs its body, from `current` on. -/
def mockInstants (zone : TimeZone) (endTime current : Int) : List Int :=
  if current ≤ endTime then current :: mockInstants zone endTime (nextLocalDay zone current)
  else []
termination_by (endTime - current + 1).toNat
decreasing_by
  have := zone.advances current
  simp only [nextLocalDay]
  omega

/-- Number of days from `current` to `endTime` counted in steps of 24 hours, both ends
included. -/
def mockCount (current endTime : Int) : Nat :=
  if current ≤ endTime then ((endTime - current) / msPerDay).toNat + 1 else 0

/-- Reference definition of the base rate of the mock series: the table entry of the pair,
else the reciprocal of the entry of the reverse pair, else 1. -/
def baseRateSpec (fromCurrency toCurrency : String) : ℚ :=
  match mockTable.lookup (fromCurrency, toCurrency) with
  | some v => v
  | none =>
    match mockTable.lookup (toCurrency, fromCurrency) with
    | some v => 1 / v
    | none => 1

/-- Example history: five records of user 1 and one of user 2. -/
def exampleHistory : List HistoryRecord :=
  (List.range 6).map (fun i =>
    { id := i, timestamp := 1000 * (i : Int),
      entry := { userId := if i = 5 then 2 else 1, fromCurrency := "USD", toCurrency := "INR",
                 amount := .fin 100, rate := .num (.fin 83.25), convertedAmount := .fin 8325,
                 feeType := "none", feeAmount := .fin 0, finalAmount := .fin 8325 } })

/-- The value of a finite number, 0 for `NaN` and the infinities. -/
def finiteValue : JsNum → ℚ
  | .fin q => q
  | _ => 0

/-! ## Basic facts -/

@[simp]
theorem JsNum.mul_fin (a b : ℚ) : JsNum.mul (.fin a) (.fin b) = .fin (a * b) := rfl

@[simp]
theorem JsNum.sub_fin (a b : ℚ) : JsNum.sub (.fin a) (.fin b) = .fin (a - b) := rfl

@[simp]
theorem JsNum.add_fin (a b : ℚ) : JsNum.add (.fin a) (.fin b) = .fin (a + b) := rfl

theorem JsNum.div_fin (a b : ℚ) (hb : b ≠ 0) : JsNum.div (.fin a) (.fin b) = .fin (a / b) := by
  simp [JsNum.div, hb]

@[simp]
theorem JsNum.div_hundred (a : ℚ) : JsNum.div (.fin a) (.fin 100) = .fin (a / 100) :=
  JsNum.div_fin a 100 (by norm_num)

@[simp]
theorem JsNum.le_fin (a b : ℚ) : JsNum.le (.fin a) (.fin b) = decide (a ≤ b) := rfl

@[simp]
theorem toNumber_num (n : JsNum) : toNumber (.num n) = n := rfl

@[simp]
theorem parseFloat_num (n : JsNum) : parseFloat (.num n) = n := rfl

@[simp]
theorem truthy_fin (q : ℚ) : (JsVal.num (.fin q)).truthy = decide (q ≠ 0) := rfl

@[simp]
theorem numberMinZero_fin (q : ℚ) : numberMinZero (.num (.fin q)) = decide (0 ≤ q) := rfl

/-- The fee table read at a listed fee type gives the listed percentage. -/
theorem feeOptions_listed (feeType : String) (p : ℚ) (hfee : (feeType, p) ∈ feeSchedule) :
    getProperty feeOptions feeType = .num (.fin p) := by
  simp only [feeSchedule, List.mem_cons, Prod.mk.injEq, List.mem_singleton, List.not_mem_nil,
    or_false] at hfee
  rcases hfee with ⟨rfl, rfl⟩ | ⟨rfl, rfl⟩ | ⟨rfl, rfl⟩ | ⟨rfl, rfl⟩ | ⟨rfl, rfl⟩ <;> rfl

/-- A listed percentage lies between 0 and 100. -/
theorem feeSchedule_bounds (feeType : String) (p : ℚ) (hfee : (feeType, p) ∈ feeSchedule) :
    0 ≤ p ∧ p ≤ 100 := by
  simp only [feeSchedule, List.mem_cons, Prod.mk.injEq, List.mem_singleton, List.not_mem_nil,
    or_false] at hfee
  rcases hfee with ⟨rfl, rfl⟩ | ⟨rfl, rfl⟩ | ⟨rfl, rfl⟩ | ⟨rfl, rfl⟩ | ⟨rfl, rfl⟩ <;> norm_num

/-- The calculation on a finite amount and rate at a listed fee type. -/
theorem calculate_listed (a r p : ℚ) (feeType : String) (hfee : (feeType, p) ∈ feeSchedule) :
    calculate (.num (.fin a)) (.num (.fin r)) feeType =
      { convertedAmount := .fin (a * r), feePercentage := .num (.fin p),
        feeAmount := .fin (a * r * p / 100), finalAmount := .fin (a * r * (1 - p / 100)) } := by
  have h := feeOptions_listed feeType p hfee
  by_cases hp : p = 0
  · subst hp
    simp [calculate, h]
  · simp [calculate, h, hp]
    ring

/-- Splitting at the hyphen is unambiguous when the two parts have none. -/
theorem append_hyphen_inj (a b : List Char) (ha : '-' ∉ a) (hb : '-' ∉ b) (f t : List Char) :
    f ++ '-' :: t = a ++ '-' :: b ↔ f = a ∧ t = b := by
  constructor
  · intro h
    induction a generalizing f with
    | nil =>
      cases f with
      | nil => simpa using h
      | cons c cs =>
        simp only [List.cons_append, List.nil_append, List.cons.injEq] at h
        obtain ⟨rfl, h⟩ := h
        exfalso
        apply hb
        rw [← h]
        simp
    | cons x xs ih =>
      cases f with
      | nil =>
        simp only [List.nil_append, List.cons_append, List.cons.injEq] at h
        obtain ⟨rfl, -⟩ := h
        simp at ha
      | cons c cs =>
        simp only [List.cons_append, List.cons.injEq] at h
        obtain ⟨rfl, h⟩ := h
        have := ih (fun hx => ha (List.mem_cons_of_mem _ hx)) cs h
        simp [this.1, this.2]
  · rintro ⟨rfl, rfl⟩
    rfl

/-- The key of a pair equals the key of a hyphen-free pair exactly for that pair. -/
theorem key_eq_iff (a b : String) (ha : '-' ∉ a.data) (hb : '-' ∉ b.data) (f t : String) :
    f ++ "-" ++ t = a ++ "-" ++ b ↔ (f, t) = (a, b) := by
  rw [Prod.mk.injEq, String.ext_iff, String.ext_iff, String.ext_iff]
  simp only [String.data_append]
  rw [List.append_assoc, List.append_assoc]
  exact append_hyphen_inj a.data b.data ha hb f.data t.data

/-- The key of a pair is no inherited property name. -/
theorem key_not_inherited (f t : String) :
    f ++ "-" ++ t ≠ "__proto__" ∧ f ++ "-" ++ t ∉ objectPrototypeKeys := by
  have hmem : '-' ∈ (f ++ "-" ++ t).data := by
    simp only [String.data_append]
    have : "-".data = ['-'] := rfl
    simp [this]
  have hall : ∀ k ∈ objectPrototypeKeys, '-' ∉ k.data := by decide
  constructor
  · intro h
    rw [h] at hmem
    revert hmem
    decide
  · intro h
    exact hall _ h hmem

/-- Reading the mock table at the key of a pair is a lookup of the pair. -/
theorem getProperty_mockRates (f t : String) :
    getProperty mockRates (f ++ "-" ++ t) =
      match mockTable.lookup (f, t) with
      | some v => .num (.fin v)
      | none => .undefined := by
  have hk := key_not_inherited f t
  have e1 := key_eq_iff "USD" "INR" (by decide) (by decide) f t
  have e2 := key_eq_iff "USD" "EUR" (by decide) (by decide) f t
  have e3 := key_eq_iff "USD" "GBP" (by decide) (by decide) f t
  have e4 := key_eq_iff "USD" "JPY" (by decide) (by decide) f t
  have e5 := key_eq_iff "EUR" "USD" (by decide) (by decide) f t
  have e6 := key_eq_iff "GBP" "USD" (by decide) (by decide) f t
  have e7 := key_eq_iff "JPY" "USD" (by decide) (by decide) f t
  have k1 : "USD" ++ "-" ++ "INR" = "USD-INR" := by decide
  have k2 : "USD" ++ "-" ++ "EUR" = "USD-EUR" := by decide
  have k3 : "USD" ++ "-" ++ "GBP" = "USD-GBP" := by decide
  have k4 : "USD" ++ "-" ++ "JPY" = "USD-JPY" := by decide
  have k5 : "EUR" ++ "-" ++ "USD" = "EUR-USD" := by decide
  have k6 : "GBP" ++ "-" ++ "USD" = "GBP-USD" := by decide
  have k7 : "JPY" ++ "-" ++ "USD" = "JPY-USD" := by decide
  rw [k1] at e1; rw [k2] at e2; rw [k3] at e3; rw [k4] at e4
  rw [k5] at e5; rw [k6] at e6; rw [k7] at e7
  by_cases h1 : (f, t) = ("USD", "INR")
  · cases h1; rfl
  by_cases h2 : (f, t) = ("USD", "EUR")
  · cases h2; rfl
  by_cases h3 : (f, t) = ("USD", "GBP")
  · cases h3; rfl
  by_cases h4 : (f, t) = ("USD", "JPY")
  · cases h4; rfl
  by_cases h5 : (f, t) = ("EUR", "USD")
  · cases h5; rfl
  by_cases h6 : (f, t) = ("GBP", "USD")
  · cases h6; rfl
  by_cases h7 : (f, t) = ("JPY", "USD")
  · cases h7; rfl
  have b1 := beq_false_of_ne (mt e1.1 h1)
  have b2 := beq_false_of_ne (mt e2.1 h2)
  have b3 := beq_false_of_ne (mt e3.1 h3)
  have b4 := beq_false_of_ne (mt e4.1 h4)
  have b5 := beq_false_of_ne (mt e5.1 h5)
  have b6 := beq_false_of_ne (mt e6.1 h6)
  have b7 := beq_false_of_ne (mt e7.1 h7)
  have c1 := beq_false_of_ne h1
  have c2 := beq_false_of_ne h2
  have c3 := beq_false_of_ne h3
  have c4 := beq_false_of_ne h4
  have c5 := beq_false_of_ne h5
  have c6 := beq_false_of_ne h6
  have c7 := beq_false_of_ne h7
  simp only [getProperty, mockRates, mockTable, List.lookup, b1, b2, b3, b4, b5, b6, b7,
    c1, c2, c3, c4, c5, c6, c7, hk.1, hk.2, if_false]

/-- The mock table holds no zero. -/
theorem mockTable_ne_zero (k : String × String) (v : ℚ) (h : mockTable.lookup k = some v) :
    v ≠ 0 := by
  have hall : ∀ p ∈ mockTable, p.2 ≠ 0 := by
    intro p hp
    simp only [mockTable, List.mem_cons, List.mem_singleton, List.not_mem_nil, or_false] at hp
    rcases hp with rfl | rfl | rfl | rfl | rfl | rfl | rfl <;> norm_num
  obtain ⟨l₁, l₂, hl, -⟩ := List.lookup_eq_some_iff.1 h
  exact hall (k, v) (by rw [hl]; simp)

/-- The source function computes the reference definition. -/
theorem getMockExchangeRate_eq (random : ℚ) (f t : String) :
    getMockExchangeRate random f t = .num (.fin (mockRateSpec random f t)) := by
  unfold getMockExchangeRate mockRateSpec
  simp only [getProperty_mockRates]
  cases h1 : mockTable.lookup (f, t) with
  | some v =>
    have := mockTable_ne_zero _ _ h1
    simp [this]
  | none =>
    cases h2 : mockTable.lookup (t, f) with
    | some v =>
      have := mockTable_ne_zero _ _ h2
      simp [JsVal.truthy, JsNum.truthy, this, JsNum.div_fin]
    | none =>
      simp [JsVal.truthy]
      ring

/-- The outcome of `convertCurrency` once both guards are passed. -/
theorem convertCurrency_accepted (req : ConvertRequest) (env : ConvertEnv)
    (h1 : ¬ (req.fromCurrency = "" ∨ req.toCurrency = "" ∨ (!req.amount.truthy) = true))
    (h2 : ¬ JsNum.le (toNumber req.amount) (.fin 0) = true) :
    convertCurrency req env =
      { status := 200,
        body := .result
          { fromCurrency := toUpperCase req.fromCurrency,
            toCurrency := toUpperCase req.toCurrency,
            amount := parseFloat req.amount,
            rate := (resolveRate env.live env.random req.fromCurrency req.toCurrency).1,
            convertedAmount := JsNum.toFixed 2 (calculate req.amount
              (resolveRate env.live env.random req.fromCurrency req.toCurrency).1
              (req.feeType.getD "none")).convertedAmount,
            feeType := req.feeType.getD "none",
            feePercentage := (calculate req.amount
              (resolveRate env.live env.random req.fromCurrency req.toCurrency).1
              (req.feeType.getD "none")).feePercentage,
            feeAmount := JsNum.toFixed 2 (calculate req.amount
              (resolveRate env.live env.random req.fromCurrency req.toCurrency).1
              (req.feeType.getD "none")).feeAmount,
            finalAmount := JsNum.toFixed 2 (calculate req.amount
              (resolveRate env.live env.random req.fromCurrency req.toCurrency).1
              (req.feeType.getD "none")).finalAmount },
        lookups := (resolveRate env.live env.random req.fromCurrency req.toCurrency).2,
        saved :=
          match req.user with
          | some userId =>
            if (if req.saveHistory = .undefined then JsVal.bool true
                else req.saveHistory).truthy then
              if validHistory
                  { userId := userId,
                    fromCurrency := toUpperCase (toUpperCase req.fromCurrency),
                    toCurrency := toUpperCase (toUpperCase req.toCurrency),
                    amount := parseFloat req.amount,
                    rate := (resolveRate env.live env.random req.fromCurrency req.toCurrency).1,
                    convertedAmount := (calculate req.amount
                      (resolveRate env.live env.random req.fromCurrency req.toCurrency).1
                      (req.feeType.getD "none")).convertedAmount,
                    feeType := req.feeType.getD "none",
                    feeAmount := (calculate req.amount
                      (resolveRate env.live env.random req.fromCurrency req.toCurrency).1
                      (req.feeType.getD "none")).feeAmount,
                    finalAmount := (calculate req.amount
                      (resolveRate env.live env.random req.fromCurrency req.toCurrency).1
                      (req.feeType.getD "none")).finalAmount } && env.dbOk
              then some
                  { userId := userId,
                    fromCurrency := toUpperCase (toUpperCase req.fromCurrency),
                    toCurrency := toUpperCase (toUpperCase req.toCurrency),
                    amount := parseFloat req.amount,
                    rate := (resolveRate env.live env.random req.fromCurrency req.toCurrency).1,
                    convertedAmount := (calculate req.amount
                      (resolveRate env.live env.random req.fromCurrency req.toCurrency).1
                      (req.feeType.getD "none")).convertedAmount,
                    feeType := req.feeType.getD "none",
                    feeAmount := (calculate req.amount
                      (resolveRate env.live env.random req.fromCurrency req.toCurrency).1
                      (req.feeType.getD "none")).feeAmount,
                    finalAmount := (calculate req.amount
                      (resolveRate env.live env.random req.fromCurrency req.toCurrency).1
                      (req.feeType.getD "none")).finalAmount }
              else none
            else none
          | none => none } := by
  unfold convertCurrency
  rw [if_neg h1, if_neg h2]

/-- A request is stopped by a guard exactly when nothing is looked up or written. -/
theorem convertCurrency_rejected_saved (req : ConvertRequest) (env : ConvertEnv)
    (h : (req.fromCurrency = "" ∨ req.toCurrency = "" ∨ (!req.amount.truthy) = true) ∨
      JsNum.le (toNumber req.amount) (.fin 0) = true) :
    (convertCurrency req env).status = 400 ∧ (convertCurrency req env).lookups = [] ∧
      (convertCurrency req env).saved = none := by
  unfold convertCurrency
  by_cases h1 : req.fromCurrency = "" ∨ req.toCurrency = "" ∨ (!req.amount.truthy) = true
  · rw [if_pos h1]
    exact ⟨rfl, rfl, rfl⟩
  · rw [if_neg h1]
    have h2 := h.resolve_left h1
    rw [if_pos h2]
    exact ⟨rfl, rfl, rfl⟩

/-- The inherited constructor function converts to `NaN`. -/
theorem toNumber_constructor :
    getProperty feeOptions "constructor" = .obj "function Object() \x7b [native code] \x7d" ∧
    toNumber (.obj "function Object() \x7b [native code] \x7d") = .nan := by
  decide

/-- Upper-casing the codes used in the evaluations. -/
theorem toUpperCase_codes :
    toUpperCase "USD" = "USD" ∧ toUpperCase "INR" = "INR" ∧ toUpperCase "usd" = "USD" := by
  decide

/-- With the live source down, USD to INR resolves to the table value 83.25. -/
theorem resolveRate_usd_inr (random : ℚ) :
    resolveRate none random "USD" "INR" =
      (.num (.fin 83.25), [.live "USD" "INR", .mock "USD" "INR"]) := by
  simp [resolveRate, getLiveExchangeRate, getMockExchangeRate_eq, mockRateSpec, mockTable,
    List.lookup]

/-! ### Bookmarks -/

/-- When the live source fails, the rate is the mock rate, after both lookups. -/
theorem resolveRate_of_error (live : Option LatestResponse) (random : ℚ) (f t : String)
    (h : ∃ msg, getLiveExchangeRate live f t = .error msg) :
    resolveRate live random f t =
      (getMockExchangeRate random f t, [.live f t, .mock f t]) := by
  obtain ⟨msg, h⟩ := h
  simp [resolveRate, h]

/-- Every value of the mock table is above zero. -/
theorem mockTable_pos (k : String × String) (v : ℚ) (h : mockTable.lookup k = some v) :
    0 < v := by
  have hall : ∀ p ∈ mockTable, 0 < p.2 := by
    intro p hp
    simp only [mockTable, List.mem_cons, List.mem_singleton, List.not_mem_nil, or_false] at hp
    rcases hp with rfl | rfl | rfl | rfl | rfl | rfl | rfl <;> norm_num
  obtain ⟨l₁, l₂, hl, -⟩ := List.lookup_eq_some_iff.1 h
  exact hall (k, v) (by rw [hl]; simp)

/-- The mock rate is above zero for a draw that is not negative. -/
theorem mockRateSpec_pos (random : ℚ) (f t : String) (h : 0 ≤ random) :
    0 < mockRateSpec random f t := by
  unfold mockRateSpec
  cases h1 : mockTable.lookup (f, t) with
  | some v => exact mockTable_pos _ _ h1
  | none =>
    cases h2 : mockTable.lookup (t, f) with
    | some v =>
      have := mockTable_pos _ _ h2
      simp only
      positivity
    | none =>
      simp only
      linarith

/-- When the live source fails, a refresh is `updateRate` at the mock rate. -/
theorem refresh_of_error (store : Store) (b : Bookmark) (env : BookmarkEnv)
    (h : ∃ msg, getLiveExchangeRate env.live b.fromCurrency b.toCurrency = .error msg) :
    refresh store b env =
      updateRate store b (mockRateSpec env.random b.fromCurrency b.toCurrency)
        env.now env.dbOk := by
  simp [refresh, resolveRate_of_error _ _ _ _ h, getMockExchangeRate_eq, castRate]

/-- A valid document stays valid when its rate is set to a value that is not negative. -/
theorem validBookmark_setRate (b : Bookmark) (q : ℚ) (hf : jsLength b.fromCurrency = 3)
    (ht : jsLength b.toCurrency = 3) (hq : 0 ≤ q) : validBookmark (setRate b q) = true := by
  simp [validBookmark, setRate, hf, ht, hq]

/-- Saving either fails, leaving the store as it is, or returns the document with the new
rate and writes rate, trend and instant to the record with its identifier. -/
theorem updateRate_cases (b : Bookmark) (q : ℚ) (now : Nat) (dbOk : Bool) :
    (∃ msg, ∀ s, updateRate s b q now dbOk = .error msg) ∨
    (∀ s, updateRate s b q now dbOk =
      .ok ({ setRate b q with updatedAt := now },
        updateFirst (fun x => x.id = b.id)
          (fun x => { x with currentRate := q, trend := (setRate b q).trend,
                             updatedAt := now }) s)) := by
  simp only [updateRate, saveLoaded]
  by_cases hv : validBookmark (setRate b q) = true
  · by_cases hdb : dbOk = true
    · right
      intro s
      simp [hv, hdb]
      rfl
    · left
      exact ⟨"write failed", fun s => by simp [hv, hdb]⟩
  · left
    exact ⟨"BookmarkedPairs validation failed", fun s => by simp [hv]⟩

/-- A refresh either fails, leaving the store as it is, or returns the document with the
new rate and writes rate, trend and instant to the record with its identifier. -/
theorem refresh_cases (b : Bookmark) (env : BookmarkEnv) :
    (∃ msg, ∀ s, refresh s b env = .error msg) ∨
    (∃ q, ∀ s, refresh s b env =
      .ok ({ setRate b q with updatedAt := env.now },
        updateFirst (fun x => x.id = b.id)
          (fun x => { x with currentRate := q, trend := (setRate b q).trend,
                             updatedAt := env.now }) s)) := by
  cases hc : castRate (resolveRate env.live env.random b.fromCurrency b.toCurrency).1 with
  | none =>
    left
    exact ⟨"BookmarkedPairs validation failed", fun s => by simp only [refresh, hc]⟩
  | some q =>
    rcases updateRate_cases b q env.now env.dbOk with ⟨msg, h⟩ | h
    · left
      exact ⟨msg, fun s => by simp only [refresh, hc, h s]⟩
    · right
      exact ⟨q, fun s => by simp only [refresh, hc, h s]⟩

/-- The entry pushed does not depend on the store. -/
theorem resultEntry_refresh (s : Store) (b : Bookmark) (env : BookmarkEnv) :
    resultEntry b (refresh s b env) = resultEntry b (refresh [] b env) := by
  rcases refresh_cases b env with ⟨msg, h⟩ | ⟨q, h⟩
  · rw [h s, h []]
  · rw [h s, h []]
    rfl

/-- One iteration pushes one entry and counts it when it is flagged as updated. -/
theorem refreshStep_eq (st : LoopState) (b : Bookmark) (env : BookmarkEnv) :
    (refreshStep st b env).results = st.results ++ [resultEntry b (refresh [] b env)] ∧
    (refreshStep st b env).updatedCount =
      st.updatedCount + (if (resultEntry b (refresh [] b env)).updated then 1 else 0) ∧
    (resultEntry b (refresh [] b env)).id = b.id ∧
    (resultEntry b (refresh [] b env)).fromCurrency = b.fromCurrency ∧
    (resultEntry b (refresh [] b env)).toCurrency = b.toCurrency := by
  rw [← resultEntry_refresh st.store b env]
  unfold refreshStep
  rcases refresh_cases b env with ⟨msg, h⟩ | ⟨q, h⟩
  · rw [h st.store]
    simp [resultEntry]
  · rw [h st.store]
    simp [resultEntry, setRate]

/-- The loop appends its entries to `results` and adds the flagged ones to the count. -/
theorem refreshLoop_eq (env : Nat → BookmarkEnv) (k : Nat) (bs : List Bookmark)
    (st : LoopState) :
    (refreshLoop env k bs st).results = st.results ++ loopEntries env k bs ∧
    (refreshLoop env k bs st).updatedCount =
      st.updatedCount + (loopEntries env k bs).countP (fun r => r.updated) := by
  induction bs generalizing k st with
  | nil => simp [refreshLoop, loopEntries]
  | cons b bs ih =>
    obtain ⟨h1, h2, -⟩ := refreshStep_eq st b (env k)
    obtain ⟨i1, i2⟩ := ih (k + 1) (refreshStep st b (env k))
    simp only [refreshLoop, loopEntries]
    rw [i1, i2, h1, h2]
    constructor
    · simp
    · by_cases hu : (resultEntry b (refresh [] b (env k))).updated = true
      · simp [hu, List.countP_cons]
        omega
      · simp [hu, List.countP_cons]

/-- The loop entries match the documents in number, order and identity. -/
theorem loopEntries_keys (env : Nat → BookmarkEnv) (k : Nat) (bs : List Bookmark) :
    (loopEntries env k bs).length = bs.length ∧
    (loopEntries env k bs).map (fun r => (r.id, r.fromCurrency, r.toCurrency)) =
      bs.map (fun b => (b.id, b.fromCurrency, b.toCurrency)) := by
  induction bs generalizing k with
  | nil => simp [loopEntries]
  | cons b bs ih =>
    obtain ⟨-, -, h3, h4, h5⟩ := refreshStep_eq ⟨[], 0, []⟩ b (env k)
    simp [loopEntries, ih (k + 1), h3, h4, h5]

/-- The entry at position `i` is the one of the document at position `i`, refreshed in the
environment of that iteration. -/
theorem loopEntries_get (env : Nat → BookmarkEnv) (k : Nat) (bs : List Bookmark) (i : Nat)
    (b : Bookmark) (h : bs[i]? = some b) :
    (loopEntries env k bs)[i]? = some (resultEntry b (refresh [] b (env (k + i)))) := by
  induction bs generalizing k i with
  | nil => simp at h
  | cons c cs ih =>
    cases i with
    | zero =>
      simp only [List.getElem?_cons_zero, Option.some.injEq] at h
      subst h
      simp [loopEntries]
    | succ j =>
      simp only [List.getElem?_cons_succ] at h
      simp only [loopEntries, List.getElem?_cons_succ]
      rw [ih (k + 1) j h]
      congr 4
      omega

/-- Updating the first match with a map that keeps `g` keeps `g` along the store. -/
theorem updateFirst_map {α : Type} (p : Bookmark → Bool) (f : Bookmark → Bookmark)
    (g : Bookmark → α) (hg : ∀ x, g (f x) = g x) (s : Store) :
    (updateFirst p f s).map g = s.map g := by
  induction s with
  | nil => rfl
  | cons x xs ih =>
    unfold updateFirst
    split_ifs
    · simp [hg]
    · simp [ih]

/-- A refresh keeps the identity of every stored record, in place. -/
theorem refresh_identity (s : Store) (b : Bookmark) (env : BookmarkEnv) (b1 : Bookmark)
    (s1 : Store) (h : refresh s b env = .ok (b1, s1)) :
    s1.map identityOf = s.map identityOf := by
  rcases refresh_cases b env with ⟨msg, hm⟩ | ⟨q, hq⟩
  · rw [hm s] at h
    cases h
  · rw [hq s] at h
    injection h with h
    injection h with h1 h2
    rw [← h2]
    refine updateFirst_map _ _ identityOf ?_ s
    intro x
    rfl

/-- One iteration keeps the identity of every stored record, in place. -/
theorem refreshStep_identity (st : LoopState) (b : Bookmark) (env : BookmarkEnv) :
    (refreshStep st b env).store.map identityOf = st.store.map identityOf := by
  unfold refreshStep
  cases h : refresh st.store b env with
  | error msg => rfl
  | ok r =>
    obtain ⟨b1, s1⟩ := r
    exact refresh_identity _ _ _ _ _ h

/-- The loop keeps the identity of every stored record, in place. -/
theorem refreshLoop_identity (env : Nat → BookmarkEnv) (k : Nat) (bs : List Bookmark)
    (st : LoopState) :
    (refreshLoop env k bs st).store.map identityOf = st.store.map identityOf := by
  induction bs generalizing k st with
  | nil => rfl
  | cons b bs ih =>
    simp only [refreshLoop]
    rw [ih, refreshStep_identity]

/-- The record with identifier `i` after updating the first record with identifier `i`. -/
theorem find_updateFirst_same (i : Nat) (f : Bookmark → Bookmark)
    (hf : ∀ x, (f x).id = x.id) (s : Store) :
    (updateFirst (fun x => x.id = i) f s).find? (fun x => x.id = i) =
      (s.find? (fun x => x.id = i)).map f := by
  induction s with
  | nil => rfl
  | cons x xs ih =>
    unfold updateFirst
    by_cases hx : x.id = i
    · have hfx : (f x).id = i := by rw [hf, hx]
      rw [if_pos (by simpa using hx), List.find?_cons, List.find?_cons]
      simp [hx, hfx]
    · rw [if_neg (by simpa using hx), List.find?_cons, List.find?_cons]
      simp [hx, ih]

/-- Updating the record with another identifier leaves the record with identifier `i`. -/
theorem find_updateFirst_other (i j : Nat) (hij : i ≠ j) (f : Bookmark → Bookmark)
    (hf : ∀ x, (f x).id = x.id) (s : Store) :
    (updateFirst (fun x => x.id = j) f s).find? (fun x => x.id = i) =
      s.find? (fun x => x.id = i) := by
  induction s with
  | nil => rfl
  | cons x xs ih =>
    unfold updateFirst
    by_cases hx : x.id = j
    · have hxi : ¬ x.id = i := fun h => hij (h.symm.trans hx)
      have hfx : ¬ (f x).id = i := by rw [hf]; exact hxi
      rw [if_pos (by simpa using hx), List.find?_cons, List.find?_cons]
      simp [hxi, hfx]
    · rw [if_neg (by simpa using hx), List.find?_cons, List.find?_cons]
      by_cases hxi : x.id = i
      · simp [hxi]
      · simp [hxi, ih]

/-- One iteration on a document with another identifier leaves the record with `i`. -/
theorem refreshStep_find_other (st : LoopState) (b : Bookmark) (env : BookmarkEnv) (i : Nat)
    (hi : i ≠ b.id) :
    (refreshStep st b env).store.find? (fun x => x.id = i) =
      st.store.find? (fun x => x.id = i) := by
  unfold refreshStep
  rcases refresh_cases b env with ⟨msg, hm⟩ | ⟨q, hq⟩
  · rw [hm st.store]
  · rw [hq st.store]
    refine find_updateFirst_other i b.id hi _ ?_ _
    intro x
    rfl

/-- The loop leaves the record with identifier `i` when no document of the loop has it. -/
theorem refreshLoop_find_other (env : Nat → BookmarkEnv) (k : Nat) (bs : List Bookmark)
    (st : LoopState) (i : Nat) (hi : ∀ b ∈ bs, i ≠ b.id) :
    (refreshLoop env k bs st).store.find? (fun x => x.id = i) =
      st.store.find? (fun x => x.id = i) := by
  induction bs generalizing k st with
  | nil => rfl
  | cons b bs ih =>
    simp only [refreshLoop]
    rw [ih _ _ (fun c hc => hi c (List.mem_cons_of_mem _ hc)),
      refreshStep_find_other _ _ _ _ (hi b (List.mem_cons_self _ _))]

/-- After the loop, the record of a document whose refresh succeeds with rate `q` carries
`q`, the trend and the instant of its iteration, when the identifiers are distinct. -/
theorem refreshLoop_find_same (env : Nat → BookmarkEnv) (k : Nat) (bs : List Bookmark)
    (st : LoopState) (j : Nat) (b : Bookmark) (q : ℚ) (hb : bs[j]? = some b)
    (hnd : (bs.map (fun x => x.id)).Nodup)
    (hq : ∀ s, refresh s b (env (k + j)) =
      .ok ({ setRate b q with updatedAt := (env (k + j)).now },
        updateFirst (fun x => x.id = b.id)
          (fun x => { x with currentRate := q, trend := (setRate b q).trend,
                             updatedAt := (env (k + j)).now }) s)) :
    (refreshLoop env k bs st).store.find? (fun x => x.id = b.id) =
      (st.store.find? (fun x => x.id = b.id)).map
        (fun x => { x with currentRate := q, trend := (setRate b q).trend,
                           updatedAt := (env (k + j)).now }) := by
  induction bs generalizing k st j with
  | nil => simp at hb
  | cons c cs ih =>
    simp only [List.map_cons, List.nodup_cons, List.mem_map, not_exists, not_and] at hnd
    cases j with
    | zero =>
      simp only [List.getElem?_cons_zero, Option.some.injEq] at hb
      subst hb
      simp only [refreshLoop]
      rw [refreshLoop_find_other _ _ _ _ _ (fun d hd h => hnd.1 d hd h.symm)]
      simp only [Nat.add_zero] at hq ⊢
      unfold refreshStep
      rw [hq st.store]
      refine find_updateFirst_same c.id _ ?_ _
      intro x
      rfl
    | succ i =>
      simp only [List.getElem?_cons_succ] at hb
      have hmem : b ∈ cs := List.getElem?_mem hb
      have hne : b.id ≠ c.id := fun h => hnd.1 b hmem h
      simp only [refreshLoop]
      have hq1 : ∀ s, refresh s b (env (k + 1 + i)) =
          .ok ({ setRate b q with updatedAt := (env (k + 1 + i)).now },
            updateFirst (fun x => x.id = b.id)
              (fun x => { x with currentRate := q, trend := (setRate b q).trend,
                                 updatedAt := (env (k + 1 + i)).now }) s) := by
        have e : k + 1 + i = k + (i + 1) := by omega
        rw [e]
        exact hq
      rw [ih (k + 1) _ i hb hnd.2 hq1, refreshStep_find_other _ _ _ _ hne]
      have e : k + 1 + i = k + (i + 1) := by omega
      rw [e]

/-- In a store with distinct identifiers, a member is the record found by its identifier. -/
theorem find_of_mem (s : Store) (b : Bookmark) (hb : b ∈ s)
    (hnd : (s.map (fun x => x.id)).Nodup) :
    s.find? (fun x => x.id = b.id) = some b := by
  induction s with
  | nil => simp at hb
  | cons x xs ih =>
    simp only [List.map_cons, List.nodup_cons, List.mem_map, not_exists, not_and] at hnd
    rcases List.mem_cons.1 hb with rfl | hmem
    · simp
    · have hne : ¬ x.id = b.id := fun h => hnd.1 b hmem h.symm
      simp [hne, ih hmem hnd.2]

/-- With the live source down, a valid document and a database that accepts the write, the
refresh succeeds with the mock rate. -/
theorem refresh_mock_ok (b : Bookmark) (env : BookmarkEnv)
    (hlive : ∃ msg, getLiveExchangeRate env.live b.fromCurrency b.toCurrency = .error msg)
    (hf : jsLength b.fromCurrency = 3) (ht : jsLength b.toCurrency = 3)
    (h0 : 0 ≤ env.random) (hdb : env.dbOk = true) (s : Store) :
    refresh s b env =
      .ok ({ setRate b (mockRateSpec env.random b.fromCurrency b.toCurrency) with
             updatedAt := env.now },
        updateFirst (fun x => x.id = b.id)
          (fun x =>
            { x with
              currentRate := mockRateSpec env.random b.fromCurrency b.toCurrency,
              trend := (setRate b (mockRateSpec env.random b.fromCurrency b.toCurrency)).trend,
              updatedAt := env.now }) s) := by
  have hv := validBookmark_setRate b _ hf ht
    (mockRateSpec_pos env.random b.fromCurrency b.toCurrency h0).le
  rw [refresh_of_error s b env hlive]
  rcases updateRate_cases b (mockRateSpec env.random b.fromCurrency b.toCurrency) env.now
    env.dbOk with ⟨msg, h⟩ | h
  · exfalso
    have := h s
    simp [updateRate, saveLoaded, hv, hdb] at this
  · exact h s

/-- When the database refuses the write, the refresh fails. -/
theorem refresh_error_of_db (b : Bookmark) (env : BookmarkEnv) (hdb : env.dbOk = false) :
    ∃ msg, ∀ s, refresh s b env = .error msg := by
  cases hc : castRate (resolveRate env.live env.random b.fromCurrency b.toCurrency).1 with
  | none => exact ⟨"BookmarkedPairs validation failed", fun s => by simp only [refresh, hc]⟩
  | some q =>
    by_cases hv : validBookmark (setRate b q) = true
    · exact ⟨"write failed", fun s => by simp [refresh, hc, updateRate, saveLoaded, hv, hdb]⟩
    · exact ⟨"BookmarkedPairs validation failed",
        fun s => by simp [refresh, hc, updateRate, saveLoaded, hv]⟩

/-- With a live rate that is a number of at least zero, a valid document and a database
that accepts the write, the refresh succeeds with the live rate. -/
theorem refresh_live_ok (b : Bookmark) (env : BookmarkEnv) (d : RateData) (q : ℚ)
    (hlive : getLiveExchangeRate env.live b.fromCurrency b.toCurrency = .ok d)
    (hd : d.rate = .num (.fin q))
    (hf : jsLength b.fromCurrency = 3) (ht : jsLength b.toCurrency = 3)
    (h0 : 0 ≤ q) (hdb : env.dbOk = true) (s : Store) :
    refresh s b env =
      .ok ({ setRate b q with updatedAt := env.now },
        updateFirst (fun x => x.id = b.id)
          (fun x => { x with currentRate := q, trend := (setRate b q).trend,
                             updatedAt := env.now }) s) := by
  have hv := validBookmark_setRate b q hf ht h0
  have hc : castRate (resolveRate env.live env.random b.fromCurrency b.toCurrency).1 =
      some q := by
    simp [resolveRate, hlive, hd, castRate]
  rcases updateRate_cases b q env.now env.dbOk with ⟨msg, h⟩ | h
  · exfalso
    have := h s
    simp [updateRate, saveLoaded, hv, hdb] at this
  · simp only [refresh, hc, h s]

/-- A value of at most `d` decimals, not negative and below `10^21`, prints as itself. -/
theorem toFixed_fixed (d n : Nat) (h : (n : ℚ) / (10 : ℚ) ^ d < (10 : ℚ) ^ 21) :
    JsNum.toFixed d (.fin ((n : ℚ) / (10 : ℚ) ^ d)) = .fin ((n : ℚ) / (10 : ℚ) ^ d) := by
  have hpos : (0 : ℚ) < (10 : ℚ) ^ d := by positivity
  have hq : (0 : ℚ) ≤ (n : ℚ) / (10 : ℚ) ^ d := by positivity
  have hfloor : ⌊(n : ℚ) / (10 : ℚ) ^ d * (10 : ℚ) ^ d + 1 / 2⌋ = (n : ℤ) := by
    rw [div_mul_cancel₀ _ hpos.ne', Int.floor_eq_iff]
    constructor
    · push_cast
      linarith
    · push_cast
      linarith
  simp only [JsNum.toFixed, abs_of_nonneg hq, if_neg (not_le.2 h), hfloor,
    if_neg (not_lt.2 hq)]
  push_cast
  ring_nf

/-- The example run: three results, the second from the mock rate, all counted. -/
theorem updateAll_example :
    (updateAllBookmarkRates exampleStore 1 exampleEnv).body =
      .summary "Updated 3 out of 3 bookmarks" 3 3
        [ { id := 1, fromCurrency := "USD", toCurrency := "EUR", rate := some (.fin 0.95),
            trend := some .up, updated := true, error := none },
          { id := 3, fromCurrency := "USD", toCurrency := "INR", rate := some (.fin 83.25),
            trend := some .up, updated := true, error := none },
          { id := 4, fromCurrency := "GBP", toCurrency := "USD", rate := some (.fin 1.27),
            trend := some .neutral, updated := true, error := none } ] := by
  have hb : exampleStore.filter (fun b => b.userId = 1) =
      [ { id := 1, userId := 1, fromCurrency := "USD", toCurrency := "EUR",
          currentRate := 0.9, trend := .neutral, createdAt := 10, updatedAt := 10 },
        { id := 3, userId := 1, fromCurrency := "USD", toCurrency := "INR",
          currentRate := 80, trend := .neutral, createdAt := 12, updatedAt := 12 },
        { id := 4, userId := 1, fromCurrency := "GBP", toCurrency := "USD",
          currentRate := 1.27, trend := .up, createdAt := 13, updatedAt := 13 } ] := rfl
  have e0 := refresh_live_ok
    { id := 1, userId := 1, fromCurrency := "USD", toCurrency := "EUR",
      currentRate := 0.9, trend := .neutral, createdAt := 10, updatedAt := 10 }
    (exampleEnv 0) ⟨.num (.fin 0.95), "2025-06-01", "exchangerate-api"⟩ 0.95
    (by with_unfolding_all rfl) rfl
    (by decide) (by decide) (by norm_num) rfl []
  have e1 := refresh_mock_ok
    { id := 3, userId := 1, fromCurrency := "USD", toCurrency := "INR",
      currentRate := 80, trend := .neutral, createdAt := 12, updatedAt := 12 }
    (exampleEnv 1) ⟨_, rfl⟩ (by decide) (by decide) (le_refl _) rfl []
  have e2 := refresh_live_ok
    { id := 4, userId := 1, fromCurrency := "GBP", toCurrency := "USD",
      currentRate := 1.27, trend := .up, createdAt := 13, updatedAt := 13 }
    (exampleEnv 2) ⟨.num (.fin 1.27), "2025-06-01", "exchangerate-api"⟩ 1.27
    (by with_unfolding_all rfl) rfl
    (by decide) (by decide) (by norm_num) rfl []
  have hm : mockRateSpec (exampleEnv 1).random "USD" "INR" = 83.25 := rfl
  obtain ⟨hres, hcount⟩ := refreshLoop_eq exampleEnv 0 (exampleStore.filter (fun b => b.userId = 1))
    { store := exampleStore, updatedCount := 0, results := [] }
  unfold updateAllBookmarkRates
  simp only [hres, hcount]
  simp only [hb, loopEntries, e0, e1, e2, resultEntry, hm]
  have f0 : JsNum.toFixed 4 (.fin 0.95) = .fin 0.95 := by
    have := toFixed_fixed 4 9500 (by norm_num)
    norm_num at this ⊢
    exact this
  have f1 : JsNum.toFixed 4 (.fin 83.25) = .fin 83.25 := by
    have := toFixed_fixed 4 832500 (by norm_num)
    norm_num at this ⊢
    exact this
  have f2 : JsNum.toFixed 4 (.fin 1.27) = .fin 1.27 := by
    have := toFixed_fixed 4 12700 (by norm_num)
    norm_num at this ⊢
    exact this
  have hs : "Updated " ++ toString 3 ++ " out of " ++ toString 3 ++ " bookmarks" =
      "Updated 3 out of 3 bookmarks" := by decide
  simp only [setRate, f0, f1, f2]
  norm_num [List.countP_cons, hs]

/-- Deleting the first match leaves a sublist. -/
theorem deleteFirst_sublist (p : Bookmark → Bool) (s : Store) :
    (deleteFirst p s).Sublist s := by
  induction s with
  | nil => exact List.Sublist.slnil
  | cons x xs ih =>
    unfold deleteFirst
    split_ifs
    · exact List.sublist_cons_self x xs
    · exact ih.cons₂ x

/-- Uniqueness of the pairs only depends on the identities in the store. -/
theorem uniquePairs_of_identity (s t : Store) (h : t.map identityOf = s.map identityOf)
    (hs : uniquePairs s) : uniquePairs t := by
  have e : ∀ u : Store, u.map (fun b => (b.userId, b.fromCurrency, b.toCurrency)) =
      (u.map identityOf).map (fun i => (i.2.1, i.2.2.1, i.2.2.2.1)) := by
    intro u
    simp [identityOf, Function.comp_def]
  unfold uniquePairs at hs ⊢
  rw [e, h, ← e]
  exact hs

/-- Handler `updateBookmarkRate` keeps the identity of every stored record, in place. -/
theorem updateBookmarkRate_identity (store : Store) (user : Nat) (id : Option Nat)
    (env : BookmarkEnv) :
    (updateBookmarkRate store user id env).store.map identityOf = store.map identityOf := by
  unfold updateBookmarkRate
  cases id with
  | none => rfl
  | some i =>
    simp only
    cases hfind : findOne (fun b => b.id = i ∧ b.userId = user) store with
    | none => rfl
    | some b =>
      simp only
      cases h : refresh store b env with
      | error msg => rfl
      | ok r =>
        obtain ⟨b1, s1⟩ := r
        exact refresh_identity _ _ _ _ _ h

/-- Handler `updateAllBookmarkRates` keeps the identity of every stored record, in place. -/
theorem updateAllBookmarkRates_identity (store : Store) (user : Nat)
    (env : Nat → BookmarkEnv) :
    (updateAllBookmarkRates store user env).store.map identityOf = store.map identityOf := by
  simp only [updateAllBookmarkRates]
  split_ifs
  · rfl
  · exact refreshLoop_identity env 0 _ _

/-- Handler `addBookmark` leaves the store, or appends one bookmark whose owner and pair no
stored bookmark has. -/
theorem addBookmark_store (store : Store) (user : Nat) (f t : String) (env : BookmarkEnv) :
    (addBookmark store user f t env).store = store ∨
    ∃ b, (addBookmark store user f t env).store = store ++ [b] ∧
      (addBookmark store user f t env).status = 201 ∧
      b.userId = user ∧ b.fromCurrency = toUpperCase (toUpperCase f) ∧
      b.toCurrency = toUpperCase (toUpperCase t) ∧ b.trend = .neutral ∧
      (b.userId, b.fromCurrency, b.toCurrency) ∉
        store.map (fun x => (x.userId, x.fromCurrency, x.toCurrency)) := by
  by_cases h1 : f = "" ∨ t = ""
  · left
    simp only [addBookmark, if_pos h1]
  by_cases h2 : f = t
  · left
    simp only [addBookmark, if_neg h1, if_pos h2]
  by_cases h3 : (findOne (fun b => b.userId = user ∧ b.fromCurrency = toUpperCase f ∧
      b.toCurrency = toUpperCase t) store).isSome = true
  · left
    simp only [addBookmark, if_neg h1, if_neg h2, if_pos h3]
  cases hc : castRate (resolveRate env.live env.random f t).1 with
  | none =>
    left
    simp only [addBookmark, if_neg h1, if_neg h2, if_neg h3, hc]
  | some rate =>
    by_cases h4 : (validBookmark
        { id := env.freshId, userId := user, fromCurrency := toUpperCase (toUpperCase f),
          toCurrency := toUpperCase (toUpperCase t), currentRate := rate, trend := .neutral,
          createdAt := env.now, updatedAt := env.now } &&
        !(store.any (fun b => b.id = env.freshId ∨
          (b.userId = user ∧ b.fromCurrency = toUpperCase (toUpperCase f) ∧
            b.toCurrency = toUpperCase (toUpperCase t)))) && env.dbOk) = true
    · right
      refine ⟨(⟨env.freshId, user, toUpperCase (toUpperCase f), toUpperCase (toUpperCase t),
        rate, .neutral, env.now, env.now⟩ : Bookmark), ?_, ?_, rfl, rfl, rfl, rfl, ?_⟩
      · simp only [addBookmark, if_neg h1, if_neg h2, if_neg h3, hc, if_pos h4]
      · simp only [addBookmark, if_neg h1, if_neg h2, if_neg h3, hc, if_pos h4]
      simp only [Bool.and_eq_true, Bool.not_eq_true', List.any_eq_false] at h4
      intro hmem
      obtain ⟨x, hx, hxe⟩ := List.mem_map.1 hmem
      have := h4.1.2 x hx
      simp only [Prod.mk.injEq] at hxe
      simp [hxe.1, hxe.2.1, hxe.2.2] at this
    · left
      simp only [addBookmark, if_neg h1, if_neg h2, if_neg h3, hc, if_neg h4]

/-- Exact arithmetic rounds nothing. -/
theorem JsNum.rounded_fin (x : JsNum) : JsNum.rounded JsNum.fin x = x := by
  cases x <;> rfl

/-- One unfolding of the loop. -/
theorem mockLoop_step (zone : TimeZone) (rnd : ℚ → JsNum) (random : Nat → ℚ)
    (baseRate : JsVal) (endTime : Int) (k : Nat) (current : Int) (acc : MockSeries)
    (h : current ≤ endTime) :
    mockLoop zone rnd random baseRate endTime k current acc =
      mockLoop zone rnd random baseRate endTime (k + 1) (nextLocalDay zone current)
        { data := acc.data ++ [mockValue rnd random baseRate k],
          labels := acc.labels ++ [toLocaleDateString zone (some current)] } := by
  rw [mockLoop, if_pos h]
  rfl

/-- The loop stops once `current` is past `endTime`. -/
theorem mockLoop_stop (zone : TimeZone) (rnd : ℚ → JsNum) (random : Nat → ℚ)
    (baseRate : JsVal) (endTime : Int) (k : Nat) (current : Int) (acc : MockSeries)
    (h : ¬ current ≤ endTime) :
    mockLoop zone rnd random baseRate endTime k current acc = acc := by
  rw [mockLoop, if_neg h]

/-- The first instant of the loop, when there is one. -/
theorem mockInstants_step (zone : TimeZone) (endTime current : Int) (h : current ≤ endTime) :
    mockInstants zone endTime current =
      current :: mockInstants zone endTime (nextLocalDay zone current) := by
  rw [mockInstants, if_pos h]

/-- No instant once `current` is past `endTime`. -/
theorem mockInstants_stop (zone : TimeZone) (endTime current : Int) (h : ¬ current ≤ endTime) :
    mockInstants zone endTime current = [] := by
  rw [mockInstants, if_neg h]

/-- The next local day is a later instant. -/
theorem nextLocalDay_gt (zone : TimeZone) (t : Int) : t < nextLocalDay zone t := by
  have := zone.advances t
  simp only [nextLocalDay]
  omega

/-- The loop appends one value and one label for each of its instants: the values in the
order of the draws, the labels of the local dates. -/
theorem mockLoop_eq (zone : TimeZone) (rnd : ℚ → JsNum) (random : Nat → ℚ)
    (baseRate : JsVal) (endTime : Int) (n : Nat) :
    ∀ (k : Nat) (current : Int) (acc : MockSeries), (endTime - current + 1).toNat ≤ n →
      mockLoop zone rnd random baseRate endTime k current acc =
        { data := acc.data ++ (List.range (mockInstants zone endTime current).length).map
            (fun i => mockValue rnd random baseRate (k + i)),
          labels := acc.labels ++ (mockInstants zone endTime current).map
            (fun t => toLocaleDateString zone (some t)) } := by
  induction n with
  | zero =>
    intro k current acc h
    have hc : ¬ current ≤ endTime := by omega
    rw [mockLoop_stop _ _ _ _ _ _ _ _ hc, mockInstants_stop _ _ _ hc]
    simp
  | succ n ih =>
    intro k current acc h
    by_cases hc : current ≤ endTime
    · have hgt := nextLocalDay_gt zone current
      rw [mockLoop_step _ _ _ _ _ _ _ _ hc, mockInstants_step _ _ _ hc,
        ih (k + 1) (nextLocalDay zone current) _ (by omega)]
      simp only [List.length_cons, List.range_succ_eq_map, List.map_cons, List.map_map,
        List.append_assoc, List.singleton_append, MockSeries.mk.injEq, Nat.add_zero,
        and_true]
      congr 2
      apply List.map_congr_left
      intro i _
      simp only [Function.comp]
      congr 1
      omega
    · rw [mockLoop_stop _ _ _ _ _ _ _ _ hc, mockInstants_stop _ _ _ hc]
      simp

/-- The count of 24-hour steps one day later. -/
theorem mockCount_succ (current endTime : Int) (h : current ≤ endTime) :
    mockCount current endTime = mockCount (current + msPerDay) endTime + 1 := by
  unfold mockCount
  rw [if_pos h]
  by_cases h2 : current + msPerDay ≤ endTime
  · rw [if_pos h2]
    simp only [msPerDay] at h2 ⊢
    omega
  · rw [if_neg h2]
    simp only [msPerDay] at h2 ⊢
    omega

/-- At a constant offset from UTC the instants of the loop are 24 hours apart, one for each
day of the range. -/
theorem mockInstants_fixed (offset : Int) (endTime : Int) (n : Nat) :
    ∀ current : Int, mockCount current endTime = n →
      mockInstants (fixedZone offset) endTime current =
        (List.range n).map (fun (i : Nat) => current + (i : Int) * msPerDay) := by
  induction n with
  | zero =>
    intro current h
    have hc : ¬ current ≤ endTime := by
      intro hle
      unfold mockCount at h
      rw [if_pos hle] at h
      omega
    rw [mockInstants_stop _ _ _ hc]
    rfl
  | succ n ih =>
    intro current h
    have hc : current ≤ endTime := by
      by_contra hle
      unfold mockCount at h
      rw [if_neg hle] at h
      omega
    have hn : mockCount (current + msPerDay) endTime = n := by
      have := mockCount_succ current endTime hc
      omega
    have hnext : nextLocalDay (fixedZone offset) current = current + msPerDay := by
      simp only [nextLocalDay, fixedZone]
      omega
    rw [mockInstants_step _ _ _ hc, hnext, ih _ hn]
    simp only [List.range_succ_eq_map, List.map_cons, List.map_map, Nat.cast_zero, zero_mul,
      add_zero, List.cons.injEq, true_and]
    apply List.map_congr_left
    intro i _
    simp only [Function.comp]
    push_cast
    ring

/-- In exact arithmetic the source expression for the base rate computes the reference
definition. -/
theorem baseRateOf_eq (f t : String) :
    baseRateOf JsNum.fin f t = .num (.fin (baseRateSpec f t)) := by
  have hb : baseRates JsNum.fin = mockRates := rfl
  unfold baseRateOf baseRateSpec
  simp only [hb, getProperty_mockRates, JsNum.rounded_fin]
  cases h1 : mockTable.lookup (f, t) with
  | some v =>
    have := mockTable_ne_zero _ _ h1
    simp [this]
  | none =>
    cases h2 : mockTable.lookup (t, f) with
    | some v =>
      have := mockTable_ne_zero _ _ h2
      simp [JsVal.truthy, JsNum.truthy, this, JsNum.div_fin]
    | none =>
      simp [JsVal.truthy]
      norm_num

/-- The base rate is above zero. -/
theorem baseRateSpec_pos (f t : String) : 0 < baseRateSpec f t := by
  unfold baseRateSpec
  cases h1 : mockTable.lookup (f, t) with
  | some v => exact mockTable_pos _ _ h1
  | none =>
    cases h2 : mockTable.lookup (t, f) with
    | some v =>
      have := mockTable_pos _ _ h2
      simp only
      positivity
    | none =>
      simp only
      norm_num

/-- The value pushed for a finite base rate, in exact arithmetic. -/
theorem mockValue_fin (random : Nat → ℚ) (b : ℚ) (k : Nat) :
    mockValue JsNum.fin random (.num (.fin b)) k =
      .fin (b * (1 + (random k - 0.5) * 0.1)) := by
  simp [mockValue, JsNum.rounded]

/-- The series of `generateMockHistoricalData` in exact arithmetic: one value and one label
for each instant of the loop. -/
theorem generateMockHistoricalData_series (zone : TimeZone) (random : Nat → ℚ)
    (f t : String) (startDate endDate : Int) :
    (generateMockHistoricalData zone JsNum.fin random f t startDate endDate).data =
      (List.range (mockInstants zone endDate startDate).length).map
        (fun k => JsNum.fin (baseRateSpec f t * (1 + (random k - 0.5) * 0.1))) ∧
    (generateMockHistoricalData zone JsNum.fin random f t startDate endDate).labels =
      (mockInstants zone endDate startDate).map
        (fun i => toLocaleDateString zone (some i)) := by
  unfold generateMockHistoricalData
  simp only [mockLoop_eq zone _ random _ endDate _ 0 startDate _ (le_refl _), baseRateOf_eq,
    mockValue_fin, List.nil_append, Nat.zero_add, and_self]

/-- The series of `generateMockHistoricalData` at a constant offset from UTC, in exact
arithmetic: one value and one label for each day of the range. -/
theorem generateMockHistoricalData_fixed (offset : Int) (random : Nat → ℚ) (f t : String)
    (startDate endDate : Int) :
    (generateMockHistoricalData (fixedZone offset) JsNum.fin random f t startDate
        endDate).data =
      (List.range (mockCount startDate endDate)).map
        (fun k => JsNum.fin (baseRateSpec f t * (1 + (random k - 0.5) * 0.1))) ∧
    (generateMockHistoricalData (fixedZone offset) JsNum.fin random f t startDate
        endDate).labels =
      (List.range (mockCount startDate endDate)).map
        (fun (i : Nat) =>
          toLocaleDateString (fixedZone offset) (some (startDate + (i : Int) * msPerDay))) := by
  obtain ⟨h1, h2⟩ := generateMockHistoricalData_series (fixedZone offset) random f t
    startDate endDate
  rw [h1, h2, mockInstants_fixed offset endDate _ startDate rfl]
  simp [List.map_map, Function.comp]

/-- Ordered insertion depends on the relation only through the elements of the list. -/
theorem orderedInsert_congr {α : Type} (r s : α → α → Prop) [DecidableRel r] [DecidableRel s]
    (a : α) (l : List α) (h : ∀ b ∈ l, (r a b ↔ s a b)) :
    l.orderedInsert r a = l.orderedInsert s a := by
  induction l with
  | nil => rfl
  | cons b l ih =>
    have hb := h b (List.mem_cons_self b l)
    have hl := ih (fun c hc => h c (List.mem_cons_of_mem b hc))
    by_cases hr : r a b
    · simp [List.orderedInsert, hr, hb.1 hr]
    · have hs : ¬ s a b := fun hs => hr (hb.2 hs)
      simp [List.orderedInsert, hr, hs, hl]

/-- Insertion sort depends on the relation only through the elements of the list. -/
theorem insertionSort_congr {α : Type} (r s : α → α → Prop) [DecidableRel r] [DecidableRel s]
    (l : List α) (h : ∀ a ∈ l, ∀ b ∈ l, (r a b ↔ s a b)) :
    l.insertionSort r = l.insertionSort s := by
  induction l with
  | nil => rfl
  | cons a l ih =>
    have hl := ih (fun x hx y hy => h x (List.mem_cons_of_mem a hx) y (List.mem_cons_of_mem a hy))
    simp only [List.insertionSort]
    rw [hl]
    apply orderedInsert_congr
    intro b hb
    have hb2 : b ∈ l := (List.perm_insertionSort s l).subset hb
    exact h a (List.mem_cons_self a l) b (List.mem_cons_of_mem a hb2)

/-- On two points with valid dates the order of `sort` is the order of the time values. -/
theorem notAfter_iff (dateParse : String → Option Int) (a b : HistoricalPoint) (ta tb : Int)
    (ha : dateParse a.date = some ta) (hb : dateParse b.date = some tb) :
    notAfter dateParse a b ↔ ta ≤ tb := by
  simp [notAfter, compareByDate, ha, hb, JsNum.lt]

/-- Sorting points whose dates are all valid puts their time values in ascending order. -/
theorem insertionSort_notAfter_sorted (dateParse : String → Option Int)
    (l : List HistoricalPoint) (hv : ∀ p ∈ l, (dateParse p.date).isSome = true) :
    (l.insertionSort (notAfter dateParse)).Pairwise
      (fun a b => timeOf dateParse a ≤ timeOf dateParse b) := by
  have hc : l.insertionSort (notAfter dateParse) =
      l.insertionSort (fun a b => timeOf dateParse a ≤ timeOf dateParse b) := by
    apply insertionSort_congr
    intro a ha b hb
    obtain ⟨ta, hta⟩ := Option.isSome_iff_exists.1 (hv a ha)
    obtain ⟨tb, htb⟩ := Option.isSome_iff_exists.1 (hv b hb)
    rw [notAfter_iff dateParse a b ta tb hta htb]
    simp [timeOf, hta, htb]
  rw [hc]
  haveI : IsTotal HistoricalPoint (fun a b => timeOf dateParse a ≤ timeOf dateParse b) :=
    ⟨fun a b => le_total _ _⟩
  haveI : IsTrans HistoricalPoint (fun a b => timeOf dateParse a ≤ timeOf dateParse b) :=
    ⟨fun a b c hab hbc => le_trans hab hbc⟩
  exact List.sorted_insertionSort _ l

/-- The series of `getHistoricalExchangeRates`, when the reply carries a rates object. -/
theorem getHistoricalExchangeRates_ok (dateParse : String → Option Int)
    (entries : List (String × List (String × JsVal))) (f t s e : String) :
    getHistoricalExchangeRates dateParse (some { rates := some entries }) f t s e =
      .ok { fromCurrency := f, toCurrency := t,
            data := (entries.map (historicalPoint t)).insertionSort (notAfter dateParse),
            source := "frankfurter" } := rfl

/-- The rounded-up day count is at most 365 exactly when the span is at most 365 days. -/
theorem ceilDiv_le_iff (x : Int) : ceilDiv x msPerDay ≤ 365 ↔ x ≤ 365 * msPerDay := by
  unfold ceilDiv msPerDay
  omega

/-- The count of iterations between two midnights is the number of days, ends included. -/
theorem mockCount_days (s e : Int) (h : s ≤ e) :
    mockCount (s * msPerDay) (e * msPerDay) = (e - s).toNat + 1 := by
  unfold mockCount
  have hle : s * msPerDay ≤ e * msPerDay := by
    simp only [msPerDay]
    omega
  rw [if_pos hle]
  simp only [msPerDay]
  omega

/-- The value `toFixed` denotes when the scaled magnitude rounds to the integer `n`. -/
theorem toFixed_of_floor (d : Nat) (q : ℚ) (n : ℤ) (h0 : 0 ≤ q) (hlt : q < (10 : ℚ) ^ 21)
    (h1 : (n : ℚ) ≤ q * (10 : ℚ) ^ d + 1 / 2) (h2 : q * (10 : ℚ) ^ d + 1 / 2 < (n : ℚ) + 1) :
    JsNum.toFixed d (.fin q) = .fin ((n : ℚ) / (10 : ℚ) ^ d) := by
  have hfloor : ⌊q * (10 : ℚ) ^ d + 1 / 2⌋ = n := by
    rw [Int.floor_eq_iff]
    exact ⟨h1, h2⟩
  simp only [JsNum.toFixed, abs_of_nonneg h0, if_neg (not_le.2 hlt), hfloor,
    if_neg (not_lt.2 h0)]
  ring_nf

/-- Rounding by `toFixed` moves a finite value by at most half a unit of the last digit. -/
theorem toFixed_close (d : Nat) (q : ℚ) :
    ∃ v : ℚ, JsNum.toFixed d (.fin q) = .fin v ∧ abs (v - q) ≤ 1 / (2 * (10 : ℚ) ^ d) := by
  have hpos : (0 : ℚ) < (10 : ℚ) ^ d := by positivity
  by_cases hbig : (10 : ℚ) ^ 21 ≤ abs q
  · refine ⟨q, by simp only [JsNum.toFixed, if_pos hbig], ?_⟩
    rw [sub_self, abs_zero]
    positivity
  · have hfl := Int.floor_le (abs q * (10 : ℚ) ^ d + 1 / 2)
    have hfu := Int.lt_floor_add_one (abs q * (10 : ℚ) ^ d + 1 / 2)
    generalize hn : (⌊abs q * (10 : ℚ) ^ d + 1 / 2⌋ : ℤ) = n at hfl hfu
    have hdiff : (n : ℚ) / (10 : ℚ) ^ d - abs q = ((n : ℚ) - abs q * (10 : ℚ) ^ d) / (10 : ℚ) ^ d := by
      field_simp
      ring
    have key : abs ((n : ℚ) / (10 : ℚ) ^ d - abs q) ≤ 1 / (2 * (10 : ℚ) ^ d) := by
      rw [hdiff, abs_div, abs_of_pos hpos, div_le_div_iff₀ hpos (by positivity)]
      have h3 : abs ((n : ℚ) - abs q * (10 : ℚ) ^ d) ≤ 1 / 2 := by
        rw [abs_le]
        constructor <;> linarith
      calc abs ((n : ℚ) - abs q * (10 : ℚ) ^ d) * (2 * (10 : ℚ) ^ d)
          ≤ 1 / 2 * (2 * (10 : ℚ) ^ d) := by
            apply mul_le_mul_of_nonneg_right h3
            positivity
        _ = 1 * (10 : ℚ) ^ d := by ring
    by_cases hneg : q < 0
    · refine ⟨-1 * (n : ℚ) / (10 : ℚ) ^ d, ?_, ?_⟩
      · simp only [JsNum.toFixed, if_neg hbig, hn, if_pos hneg]
      · have hq : abs q = -q := abs_of_neg hneg
        have e : -1 * (n : ℚ) / (10 : ℚ) ^ d - q = -((n : ℚ) / (10 : ℚ) ^ d - abs q) := by
          rw [hq]
          ring
        rw [e, abs_neg]
        exact key
    · refine ⟨1 * (n : ℚ) / (10 : ℚ) ^ d, ?_, ?_⟩
      · simp only [JsNum.toFixed, if_neg hbig, hn, if_neg hneg]
      · have hq : abs q = q := abs_of_nonneg (not_lt.1 hneg)
        have e : 1 * (n : ℚ) / (10 : ℚ) ^ d - q = (n : ℚ) / (10 : ℚ) ^ d - abs q := by
          rw [hq]
          ring
        rw [e]
        exact key

/-- The calculation on a finite amount and rate when the fee percentage is the number `p`. -/
theorem calculate_of_percentage (a r p : ℚ) (feeType : String)
    (hp : (calculate (.num (.fin a)) (.num (.fin r)) feeType).feePercentage = .num (.fin p)) :
    calculate (.num (.fin a)) (.num (.fin r)) feeType =
      { convertedAmount := .fin (a * r), feePercentage := .num (.fin p),
        feeAmount := .fin (a * r * p / 100), finalAmount := .fin (a * r - a * r * p / 100) } := by
  simp only [calculate] at hp
  simp only [calculate, hp, parseFloat_num, toNumber_num, JsNum.mul_fin, JsNum.div_hundred,
    JsNum.sub_fin]

/-- What `convertCurrency` stores, when it stores: the entry built from the computed
values, unrounded. -/
theorem convertCurrency_saved_eq (req : ConvertRequest) (env : ConvertEnv) (e : HistoryEntry)
    (he : (convertCurrency req env).saved = some e) :
    e.amount = parseFloat req.amount ∧
    e.rate = (resolveRate env.live env.random req.fromCurrency req.toCurrency).1 ∧
    e.feeType = req.feeType.getD "none" ∧
    e.convertedAmount = (calculate req.amount
      (resolveRate env.live env.random req.fromCurrency req.toCurrency).1
      (req.feeType.getD "none")).convertedAmount ∧
    e.feeAmount = (calculate req.amount
      (resolveRate env.live env.random req.fromCurrency req.toCurrency).1
      (req.feeType.getD "none")).feeAmount ∧
    e.finalAmount = (calculate req.amount
      (resolveRate env.live env.random req.fromCurrency req.toCurrency).1
      (req.feeType.getD "none")).finalAmount ∧
    req.user = some e.userId := by
  by_cases h1 : req.fromCurrency = "" ∨ req.toCurrency = "" ∨ (!req.amount.truthy) = true
  · rw [(convertCurrency_rejected_saved req env (Or.inl h1)).2.2] at he
    cases he
  · by_cases h2 : JsNum.le (toNumber req.amount) (.fin 0) = true
    · rw [(convertCurrency_rejected_saved req env (Or.inr h2)).2.2] at he
      cases he
    · rw [convertCurrency_accepted req env h1 h2] at he
      cases hu : req.user with
      | none => rw [hu] at he; cases he
      | some u =>
        rw [hu] at he
        simp only at he
        split_ifs at he <;> cases he <;> simp

/-- The first page of the history of a user with a single record. -/
theorem getHistory_single (r : HistoryRecord) (sortDocs : List HistoryRecord → List HistoryRecord)
    (hsort : ∀ l, (sortDocs l).Perm l) (now : Int) :
    getHistory [r] r.entry.userId sortDocs 1 20 now true =
      { status := 200,
        body := .page [formatHistoryItem now r]
          { currentPage := 1, totalPages := .fin 1, totalCount := 1, hasMore := false } } := by
  have hs : sortDocs [r] = [r] := List.perm_singleton.1 (hsort [r])
  simp [getHistory, hs, ceilQuotient]

/-- The response of `convertCurrency` does not depend on whether the database accepts the
history write. -/
theorem convertCurrency_response_dbOk (req : ConvertRequest) (live : Option LatestResponse)
    (random : ℚ) (dbOk dbOk2 : Bool) :
    (convertCurrency req { live := live, random := random, dbOk := dbOk }).status =
      (convertCurrency req { live := live, random := random, dbOk := dbOk2 }).status ∧
    (convertCurrency req { live := live, random := random, dbOk := dbOk }).body =
      (convertCurrency req { live := live, random := random, dbOk := dbOk2 }).body := by
  by_cases h1 : req.fromCurrency = "" ∨ req.toCurrency = "" ∨ (!req.amount.truthy) = true
  · simp only [convertCurrency, if_pos h1, and_self]
  · by_cases h2 : JsNum.le (toNumber req.amount) (.fin 0) = true
    · simp only [convertCurrency, if_neg h1, if_pos h2, and_self]
    · rw [convertCurrency_accepted _ _ h1 h2, convertCurrency_accepted _ _ h1 h2]
      exact ⟨rfl, rfl⟩

/-- The final error of `getLiveExchangeRate` is the same for every error of its `try`
block. -/
theorem getLiveExchangeRate_of_try (reply : Option LatestResponse) (f t : String) :
    getLiveExchangeRate reply f t =
      match getLiveExchangeRateTry reply f t with
      | .ok rateData => .ok rateData
      | .error _ => .error "Failed to fetch live exchange rate" := by
  unfold getLiveExchangeRate getLiveExchangeRateTry
  cases reply with
  | none => rfl
  | some response =>
    simp only
    cases response.rates with
    | none => rfl
    | some rates =>
      simp only
      split_ifs <;> rfl

/-- The response of `getLiveRate` is tagged `mock` exactly when the live source failed. -/
theorem getLiveRate_source (live : Option LatestResponse) (random : ℚ) (now f t : String) :
    (∃ r, (getLiveRate live random now f t).body = .result r ∧ r.source = "mock") ↔
      (f ≠ "" ∧ t ≠ "" ∧ ∃ msg, getLiveExchangeRate live f t = .error msg) := by
  unfold getLiveRate
  by_cases h1 : f = "" ∨ t = ""
  · rw [if_pos h1]
    constructor
    · rintro ⟨r, hr, -⟩
      cases hr
    · rintro ⟨hf, ht, -⟩
      rcases h1 with h | h
      · exact absurd h hf
      · exact absurd h ht
  · rw [if_neg h1]
    have hft : f ≠ "" ∧ t ≠ "" := by
      constructor
      · exact fun h => h1 (Or.inl h)
      · exact fun h => h1 (Or.inr h)
    cases hlive : getLiveExchangeRate live f t with
    | error msg =>
      simp only
      constructor
      · intro _
        exact ⟨hft.1, hft.2, msg, rfl⟩
      · intro _
        exact ⟨_, rfl, rfl⟩
    | ok d =>
      simp only
      have hsrc : d.source = "exchangerate-api" := by
        unfold getLiveExchangeRate at hlive
        cases live with
        | none => cases hlive
        | some response =>
          simp only at hlive
          cases hr : response.rates with
          | none => rw [hr] at hlive; cases hlive
          | some rates =>
            rw [hr] at hlive
            simp only at hlive
            split_ifs at hlive
            cases hlive
            rfl
      constructor
      · rintro ⟨r, hr, hm⟩
        cases hr
        simp only at hm
        rw [hsrc] at hm
        exact absurd hm (by decide)
      · rintro ⟨-, -, msg, hmsg⟩
        cases hmsg

/-- Deleting the first match erases the matched document, when there is one. -/
theorem deleteFirst_eq_erase (p : Bookmark → Bool) (s : Store) (b : Bookmark)
    (h : s.find? p = some b) : deleteFirst p s = s.erase b := by
  induction s with
  | nil => simp at h
  | cons x xs ih =>
    by_cases hx : p x = true
    · have hb : x = b := by simpa [List.find?, hx] using h
      subst hb
      simp [deleteFirst, hx]
    · have hxb : x ≠ b := by
        intro hxb
        have hpb : p b = true := List.find?_some h
        rw [hxb] at hx
        exact hx hpb
      have h2 : xs.find? p = some b := by simpa [List.find?, hx] using h
      simp [deleteFirst, hx, ih h2, List.erase_cons_tail, hxb]

/-- Deleting the first match leaves the documents outside the filter alone. -/
theorem deleteFirst_filter (p q : Bookmark → Bool) (s : Store)
    (h : ∀ x, p x = true → q x = false) :
    (deleteFirst p s).filter q = s.filter q := by
  induction s with
  | nil => rfl
  | cons x xs ih =>
    by_cases hx : p x = true
    · simp [deleteFirst, hx, h x hx]
    · simp [deleteFirst, hx, List.filter_cons, ih]

/-- The body of the response of `updateAllBookmarkRates`, when the owner has bookmarks. -/
theorem updateAllBookmarkRates_body (store : Store) (user : Nat) (env : Nat → BookmarkEnv)
    (hne : store.filter (fun b => b.userId = user) ≠ []) :
    (updateAllBookmarkRates store user env).body =
      .summary
        ("Updated " ++
          toString ((loopEntries env 0 (store.filter (fun b => b.userId = user))).countP
            (fun r => r.updated)) ++ " out of " ++
          toString (store.filter (fun b => b.userId = user)).length ++ " bookmarks")
        ((loopEntries env 0 (store.filter (fun b => b.userId = user))).countP
          (fun r => r.updated))
        (store.filter (fun b => b.userId = user)).length
        (loopEntries env 0 (store.filter (fun b => b.userId = user))) := by
  have hlen : ¬ (store.filter (fun b => b.userId = user)).length = 0 := by
    simpa [List.length_eq_zero] using hne
  obtain ⟨hres, hcount⟩ := refreshLoop_eq env 0 (store.filter (fun b => b.userId = user))
    { store := store, updatedCount := 0, results := [] }
  simp only [updateAllBookmarkRates, if_neg hlen, hres, hcount]
  simp

/-- The entry of a refresh: flagged as updated exactly when the rate obtained is a number,
the document passes validation and the write is accepted; the rate and the trend of the
entry are then those of `setRate`. -/
theorem resultEntry_updated (b : Bookmark) (env : BookmarkEnv) :
    ((resultEntry b (refresh [] b env)).updated = true ↔
      ∃ q, castRate (resolveRate env.live env.random b.fromCurrency b.toCurrency).1 = some q ∧
        validBookmark (setRate b q) = true ∧ env.dbOk = true) ∧
    ∀ q, castRate (resolveRate env.live env.random b.fromCurrency b.toCurrency).1 = some q →
      validBookmark (setRate b q) = true → env.dbOk = true →
      resultEntry b (refresh [] b env) =
        { id := b.id, fromCurrency := b.fromCurrency, toCurrency := b.toCurrency,
          rate := some (JsNum.toFixed 4 (.fin q)), trend := some (setRate b q).trend,
          updated := true, error := none } := by
  cases hc : castRate (resolveRate env.live env.random b.fromCurrency b.toCurrency).1 with
  | none => simp [refresh, hc, resultEntry]
  | some q =>
    by_cases hv : validBookmark (setRate b q) = true
    · by_cases hdb : env.dbOk = true
      · rcases updateRate_cases b q env.now env.dbOk with ⟨msg, h⟩ | h
        · exfalso
          have := h []
          simp [updateRate, saveLoaded, hv, hdb] at this
        · have hr : refresh [] b env = .ok ({ setRate b q with updatedAt := env.now },
              updateFirst (fun x => x.id = b.id)
                (fun x => { x with currentRate := q, trend := (setRate b q).trend,
                                   updatedAt := env.now }) []) := by
            simp only [refresh, hc, h []]
          rw [hr]
          refine ⟨⟨fun _ => ⟨q, rfl, hv, hdb⟩, fun _ => rfl⟩, ?_⟩
          intro q2 hq2 _ _
          cases hq2
          rfl
      · simp [refresh, hc, updateRate, saveLoaded, hv, hdb, resultEntry]
    · simp [refresh, hc, updateRate, saveLoaded, hv, resultEntry]

/-- The percentage of a fee type that is neither listed nor a name inherited from
`Object.prototype` is 0. -/
theorem feePercentage_unlisted (amount rate : JsVal) (feeType : String)
    (h1 : feeOptions.lookup feeType = none) (h2 : feeType ∉ objectPrototypeKeys) :
    (calculate amount rate feeType).feePercentage = .num (.fin 0) := by
  have hne : feeType ≠ "__proto__" := by
    intro h
    apply h2
    rw [h]
    decide
  simp [calculate, getProperty, h1, h2, hne, JsVal.truthy]

/-- With an amount and a rate above zero and a percentage from 0 to 100, the fee lies
between 0 and the converted amount and the final amount between 0 and the converted
amount, the final amount above 0 when the percentage is below 100. -/
theorem calculate_bounds (a r p : ℚ) (feeType : String) (ha : 0 < a) (hr : 0 < r)
    (hp : (calculate (.num (.fin a)) (.num (.fin r)) feeType).feePercentage = .num (.fin p))
    (h0 : 0 ≤ p) (h100 : p < 100) :
    ∃ c f g : ℚ,
      (calculate (.num (.fin a)) (.num (.fin r)) feeType).convertedAmount = .fin c ∧
      (calculate (.num (.fin a)) (.num (.fin r)) feeType).feeAmount = .fin f ∧
      (calculate (.num (.fin a)) (.num (.fin r)) feeType).finalAmount = .fin g ∧
      0 < c ∧ 0 ≤ f ∧ f ≤ c ∧ 0 < g ∧ g ≤ c ∧
      numberMinZero (.num (.fin a)) = true ∧ numberMinZero (.num (.fin r)) = true ∧
      numberMinZero (.num (.fin c)) = true ∧ numberMinZero (.num (.fin f)) = true ∧
      numberMinZero (.num (.fin g)) = true := by
  have hc : 0 < a * r := mul_pos ha hr
  have hf : 0 ≤ a * r * p / 100 := by positivity
  have hfc : a * r * p / 100 ≤ a * r := by
    rw [div_le_iff₀ (by norm_num)]
    nlinarith
  have hg : 0 < a * r - a * r * p / 100 := by
    have : a * r * p / 100 < a * r := by
      rw [div_lt_iff₀ (by norm_num)]
      nlinarith
    linarith
  rw [calculate_of_percentage a r p feeType hp]
  refine ⟨a * r, a * r * p / 100, a * r - a * r * p / 100, rfl, rfl, rfl, hc, hf, hfc, hg,
    by linarith, ?_, ?_, ?_, ?_, ?_⟩ <;> simp [numberMinZero_fin] <;> linarith

/-- Folding `Math.max` over finite values from a finite start stays finite and is the
greatest of them. -/
theorem foldl_max_fin (qs : List ℚ) (a : ℚ) :
    ∃ m : ℚ, (qs.map JsNum.fin).foldl JsNum.max (.fin a) = .fin m ∧ (m = a ∨ m ∈ qs) ∧
      a ≤ m ∧ ∀ q ∈ qs, q ≤ m := by
  induction qs generalizing a with
  | nil => exact ⟨a, rfl, Or.inl rfl, le_refl a, fun q hq => by simp at hq⟩
  | cons x xs ih =>
    by_cases hlt : a < x
    · obtain ⟨m, h1, h2, h3, h4⟩ := ih x
      refine ⟨m, ?_, ?_, ?_, ?_⟩
      · simp only [List.map_cons, List.foldl_cons, JsNum.max, JsNum.lt, hlt, decide_True,
          if_true]
        exact h1
      · rcases h2 with h2 | h2
        · exact Or.inr (by simp [h2])
        · exact Or.inr (List.mem_cons_of_mem x h2)
      · linarith
      · intro q hq
        rcases List.mem_cons.1 hq with rfl | hq
        · exact h3
        · exact h4 q hq
    · obtain ⟨m, h1, h2, h3, h4⟩ := ih a
      refine ⟨m, ?_, ?_, h3, ?_⟩
      · simp only [List.map_cons, List.foldl_cons, JsNum.max, JsNum.lt, hlt, decide_False]
        exact h1
      · rcases h2 with h2 | h2
        · exact Or.inl h2
        · exact Or.inr (List.mem_cons_of_mem x h2)
      · intro q hq
        rcases List.mem_cons.1 hq with rfl | hq
        · linarith
        · exact h4 q hq

/-- Folding `Math.min` over finite values from a finite start stays finite and is the
least of them. -/
theorem foldl_min_fin (qs : List ℚ) (a : ℚ) :
    ∃ m : ℚ, (qs.map JsNum.fin).foldl JsNum.min (.fin a) = .fin m ∧ (m = a ∨ m ∈ qs) ∧
      m ≤ a ∧ ∀ q ∈ qs, m ≤ q := by
  induction qs generalizing a with
  | nil => exact ⟨a, rfl, Or.inl rfl, le_refl a, fun q hq => by simp at hq⟩
  | cons x xs ih =>
    by_cases hlt : x < a
    · obtain ⟨m, h1, h2, h3, h4⟩ := ih x
      refine ⟨m, ?_, ?_, ?_, ?_⟩
      · simp only [List.map_cons, List.foldl_cons, JsNum.min, JsNum.lt, hlt, decide_True,
          if_true]
        exact h1
      · rcases h2 with h2 | h2
        · exact Or.inr (by simp [h2])
        · exact Or.inr (List.mem_cons_of_mem x h2)
      · linarith
      · intro q hq
        rcases List.mem_cons.1 hq with rfl | hq
        · exact h3
        · exact h4 q hq
    · obtain ⟨m, h1, h2, h3, h4⟩ := ih a
      refine ⟨m, ?_, ?_, h3, ?_⟩
      · simp only [List.map_cons, List.foldl_cons, JsNum.min, JsNum.lt, hlt, decide_False]
        exact h1
      · rcases h2 with h2 | h2
        · exact Or.inl h2
        · exact Or.inr (List.mem_cons_of_mem x h2)
      · intro q hq
        rcases List.mem_cons.1 hq with rfl | hq
        · linarith
        · exact h4 q hq

/-- Folding `+` over finite values in exact arithmetic gives their sum. -/
theorem foldl_add_fin (qs : List ℚ) (a : ℚ) :
    (qs.map JsNum.fin).foldl (fun x y => JsNum.rounded JsNum.fin (JsNum.add x y)) (.fin a) =
      .fin (a + qs.sum) := by
  have hf : (fun x y => JsNum.rounded JsNum.fin (JsNum.add x y)) = JsNum.add := by
    funext x y
    exact JsNum.rounded_fin _
  rw [hf]
  induction qs generalizing a with
  | nil => simp
  | cons x xs ih =>
    simp only [List.map_cons, List.foldl_cons, JsNum.add_fin, ih, List.sum_cons]
    congr 1
    ring

/-- The extremes of a series of finite values that is not empty, under every rounding: the
highest and the lowest are members of the series and bound it, `dataPoints` is its
length. -/
theorem seriesStats_extremes (rnd : ℚ → JsNum) (qs : List ℚ) (hne : qs ≠ []) :
    ∃ hi lo : ℚ,
      (seriesStats rnd (qs.map JsNum.fin)).highest = .fin hi ∧
      (seriesStats rnd (qs.map JsNum.fin)).lowest = .fin lo ∧
      (seriesStats rnd (qs.map JsNum.fin)).dataPoints = qs.length ∧
      hi ∈ qs ∧ lo ∈ qs ∧ (∀ q ∈ qs, q ≤ hi) ∧ (∀ q ∈ qs, lo ≤ q) := by
  obtain ⟨x, xs, rfl⟩ := List.exists_cons_of_ne_nil hne
  obtain ⟨hi, a1, a2, a3, a4⟩ := foldl_max_fin xs x
  obtain ⟨lo, b1, b2, b3, b4⟩ := foldl_min_fin xs x
  have hhi : ∀ q ∈ x :: xs, q ≤ hi := by
    intro q hq
    rcases List.mem_cons.1 hq with rfl | hq
    · exact a3
    · exact a4 q hq
  have hlo : ∀ q ∈ x :: xs, lo ≤ q := by
    intro q hq
    rcases List.mem_cons.1 hq with rfl | hq
    · exact b3
    · exact b4 q hq
  refine ⟨hi, lo, ?_, ?_, ?_, ?_, ?_, hhi, hlo⟩
  · simp only [seriesStats, mathMax, List.map_cons, List.foldl_cons]
    exact a1
  · simp only [seriesStats, mathMin, List.map_cons, List.foldl_cons]
    exact b1
  · simp [seriesStats]
  · rcases a2 with h | h
    · simp [h]
    · exact List.mem_cons_of_mem x h
  · rcases b2 with h | h
    · simp [h]
    · exact List.mem_cons_of_mem x h

/-- The average of a series of finite values that is not empty, in exact arithmetic: the
sum over the length, between every lower and every upper bound of the series. -/
theorem seriesStats_average (qs : List ℚ) (hne : qs ≠ []) (hi lo : ℚ)
    (hhi : ∀ q ∈ qs, q ≤ hi) (hlo : ∀ q ∈ qs, lo ≤ q) :
    (seriesStats JsNum.fin (qs.map JsNum.fin)).average = .fin (qs.sum / qs.length) ∧
    lo ≤ qs.sum / qs.length ∧ qs.sum / qs.length ≤ hi := by
  have hlen : (0 : ℚ) < (qs.length : ℚ) := by
    have := List.length_pos.2 hne
    exact_mod_cast this
  have hsum_hi : qs.sum ≤ (qs.length : ℚ) * hi := by
    have := List.sum_le_card_nsmul qs hi hhi
    simpa [nsmul_eq_mul] using this
  have hsum_lo : (qs.length : ℚ) * lo ≤ qs.sum := by
    have := List.card_nsmul_le_sum qs lo hlo
    simpa [nsmul_eq_mul] using this
  refine ⟨?_, ?_, ?_⟩
  · simp only [seriesStats, foldl_add_fin, zero_add, List.length_map]
    rw [JsNum.rounded_fin]
    exact JsNum.div_fin _ _ (ne_of_gt hlen)
  · rw [le_div_iff₀ hlen]
    linarith
  · rw [div_le_iff₀ hlen]
    linarith

/-- A digit is determined by its value. -/
theorem digit_eq_of_value (c d : Char) (hc : c.isDigit = true) (hd : d.isDigit = true)
    (h : c.toNat - 48 = d.toNat - 48) : c = d := by
  have hc2 : 48 ≤ c.toNat ∧ c.toNat ≤ 57 := by
    simpa [Char.isDigit, Char.toNat, UInt32.le_def, Fin.le_def] using hc
  have hd2 : 48 ≤ d.toNat ∧ d.toNat ≤ 57 := by
    simpa [Char.isDigit, Char.toNat, UInt32.le_def, Fin.le_def] using hd
  have : c.toNat = d.toNat := by omega
  apply Char.ext
  apply UInt32.ext
  exact this

/-- The value of a digit is below ten. -/
theorem digit_value_lt (c : Char) (hc : c.isDigit = true) : c.toNat - 48 < 10 := by
  have hc2 : 48 ≤ c.toNat ∧ c.toNat ≤ 57 := by
    simpa [Char.isDigit, Char.toNat, UInt32.le_def, Fin.le_def] using hc
  omega

/-- Day of the year, from 0, of a calendar date lies within the year. -/
theorem dayOfYear_lt (y m d : Nat) (hm1 : 1 ≤ m) (hm2 : m ≤ 12) (hd1 : 1 ≤ d)
    (hd2 : d ≤ daysInMonth y m) :
    daysBeforeMonth y m + d ≤ (if isLeapYear y then 366 else 365) := by
  cases hl : isLeapYear y <;> interval_cases m <;>
    simp [daysBeforeMonth, daysInMonth, hl] at hd2 ⊢ <;> omega

/-- Within a year, a later month starts after every day of an earlier month. -/
theorem daysBeforeMonth_lt (y m m2 d : Nat) (hm1 : 1 ≤ m) (hlt : m < m2) (hm2 : m2 ≤ 12)
    (hd2 : d ≤ daysInMonth y m) :
    daysBeforeMonth y m + d ≤ daysBeforeMonth y m2 := by
  cases hl : isLeapYear y <;> interval_cases m2 <;> interval_cases m <;>
    simp [daysBeforeMonth, daysInMonth, hl] at hd2 ⊢ <;> omega

/-- The first day of a later year comes after every day of an earlier year. -/
theorem daysBeforeYear_lt (y y2 : Nat) (hlt : y < y2) :
    daysBeforeYear y + (if isLeapYear y then 366 else 365) ≤ daysBeforeYear y2 := by
  have hstep : ∀ z, daysBeforeYear (z + 1) =
      daysBeforeYear z + (if isLeapYear z then 366 else 365) := by
    intro z
    have e4 : (z + 1 + 3) / 4 = (z + 3) / 4 + (if z % 4 = 0 then 1 else 0) := by
      split_ifs <;> omega
    have e100 : (z + 1 + 99) / 100 = (z + 99) / 100 + (if z % 100 = 0 then 1 else 0) := by
      split_ifs <;> omega
    have e400 : (z + 1 + 399) / 400 = (z + 399) / 400 + (if z % 400 = 0 then 1 else 0) := by
      split_ifs <;> omega
    have hsub : (z + 99) / 100 ≤ 365 * z + (z + 3) / 4 := by omega
    have h1 : z % 100 = 0 → z % 4 = 0 := by omega
    have h2 : z % 400 = 0 → z % 100 = 0 := by omega
    have hleap : isLeapYear z = true ↔ ((z % 4 = 0 ∧ ¬ z % 100 = 0) ∨ z % 400 = 0) := by
      simp [isLeapYear]
    unfold daysBeforeYear
    rw [e4, e100, e400]
    generalize (z + 3) / 4 = a at *
    generalize (z + 99) / 100 = b at *
    generalize (z + 399) / 400 = c at *
    by_cases c4 : z % 4 = 0 <;> by_cases c100 : z % 100 = 0 <;> by_cases c400 : z % 400 = 0 <;>
      simp only [c4, c100, c400, if_true, if_false, true_and, false_and, not_true_eq_false,
        not_false_eq_true, or_false, false_or, or_true, and_true, and_false, forall_true_left,
        imp_false, true_implies, false_implies] at h1 h2 hleap ⊢ <;>
      first
        | (rw [if_pos (hleap.2 trivial)]
           generalize z % 4 = r4 at *
           generalize z % 100 = r100 at *
           generalize z % 400 = r400 at *
           omega)
        | (rw [if_neg (fun h => (hleap.1 h))]
           generalize z % 4 = r4 at *
           generalize z % 100 = r100 at *
           generalize z % 400 = r400 at *
           omega)
  have hmono : ∀ n z, daysBeforeYear z ≤ daysBeforeYear (z + n) := by
    intro n
    induction n with
    | zero => intro z; exact le_refl _
    | succ n ih =>
      intro z
      have := ih z
      have h2 := hstep (z + n)
      have : z + (n + 1) = z + n + 1 := by omega
      rw [this, h2]
      omega
  obtain ⟨n, rfl⟩ : ∃ n, y2 = y + 1 + n := ⟨y2 - y - 1, by omega⟩
  rw [← hstep y]
  exact hmono n (y + 1)

/-- Distinct calendar dates have distinct day numbers. -/
theorem dayNumber_injective (y m d y2 m2 d2 : Nat)
    (hm1 : 1 ≤ m) (hm2 : m ≤ 12) (hd1 : 1 ≤ d) (hd2 : d ≤ daysInMonth y m)
    (km1 : 1 ≤ m2) (km2 : m2 ≤ 12) (kd1 : 1 ≤ d2) (kd2 : d2 ≤ daysInMonth y2 m2)
    (h : dayNumber y m d = dayNumber y2 m2 d2) : y = y2 ∧ m = m2 ∧ d = d2 := by
  have h1 := dayOfYear_lt y m d hm1 hm2 hd1 hd2
  have h2 := dayOfYear_lt y2 m2 d2 km1 km2 kd1 kd2
  simp only [dayNumber] at h
  have hy : y = y2 := by
    rcases Nat.lt_trichotomy y y2 with hlt | heq | hgt
    · have := daysBeforeYear_lt y y2 hlt
      omega
    · exact heq
    · have := daysBeforeYear_lt y2 y hgt
      omega
  subst hy
  have hm : m = m2 := by
    rcases Nat.lt_trichotomy m m2 with hlt | heq | hgt
    · have := daysBeforeMonth_lt y m m2 d hm1 hlt km2 hd2
      omega
    · exact heq
    · have := daysBeforeMonth_lt y m2 m d2 km1 hgt hm2 kd2
      omega
  subst hm
  exact ⟨rfl, rfl, by omega⟩

/-- A string of four digits is determined by its value. -/
theorem decimalValue_four (a b c d a2 b2 c2 d2 : Char)
    (h : (digitsNat [a, b, c, d]).isSome = true)
    (he : digitsNat [a, b, c, d] = digitsNat [a2, b2, c2, d2]) :
    a = a2 ∧ b = b2 ∧ c = c2 ∧ d = d2 := by
  simp only [digitsNat] at h he
  split_ifs at h he with g1 g2
  · simp only [List.all_cons, List.all_nil, Bool.and_true, Bool.and_eq_true] at g1 g2
    simp only [decimalValue, List.foldl_cons, List.foldl_nil, Option.some.injEq] at he
    have := digit_value_lt a g1.1
    have := digit_value_lt b g1.2.1
    have := digit_value_lt c g1.2.2.1
    have := digit_value_lt d g1.2.2.2
    have := digit_value_lt a2 g2.1
    have := digit_value_lt b2 g2.2.1
    have := digit_value_lt c2 g2.2.2.1
    have := digit_value_lt d2 g2.2.2.2
    exact ⟨digit_eq_of_value a a2 g1.1 g2.1 (by omega),
      digit_eq_of_value b b2 g1.2.1 g2.2.1 (by omega),
      digit_eq_of_value c c2 g1.2.2.1 g2.2.2.1 (by omega),
      digit_eq_of_value d d2 g1.2.2.2 g2.2.2.2 (by omega)⟩
  all_goals simp at h he

/-- A string of two digits is determined by its value. -/
theorem decimalValue_two (a b a2 b2 : Char)
    (h : (digitsNat [a, b]).isSome = true)
    (he : digitsNat [a, b] = digitsNat [a2, b2]) :
    a = a2 ∧ b = b2 := by
  simp only [digitsNat] at h he
  split_ifs at h he with g1 g2
  · simp only [List.all_cons, List.all_nil, Bool.and_true, Bool.and_eq_true] at g1 g2
    simp only [decimalValue, List.foldl_cons, List.foldl_nil, Option.some.injEq] at he
    have := digit_value_lt a g1.1
    have := digit_value_lt b g1.2
    have := digit_value_lt a2 g2.1
    have := digit_value_lt b2 g2.2
    exact ⟨digit_eq_of_value a a2 g1.1 g2.1 (by omega),
      digit_eq_of_value b b2 g1.2 g2.2 (by omega)⟩
  all_goals simp at h he

/-- The calendar date a date-only ISO string denotes determines the string: two strings
with the same time value are equal. -/
theorem parseIsoDate_injective (a b : String) (t : Int) (ha : parseIsoDate a = some t)
    (hb : parseIsoDate b = some t) : a = b := by
  unfold parseIsoDate at ha hb
  split at ha
  · rename_i y1 y2 y3 y4 m1 m2 d1 d2 hda
    split at hb
    · rename_i z1 z2 z3 z4 n1 n2 e1 e2 hdb
      split at ha
      · rename_i y m d hy hm hd
        split at hb
        · rename_i y' m' d' hy' hm' hd'
          split_ifs at ha hb with va vb
          simp only [Option.some.injEq] at ha hb
          have hday : dayNumber y m d = dayNumber y' m' d' := by
            have : dayNumber y m d * msPerDay = dayNumber y' m' d' * msPerDay := by
              rw [ha, hb]
            simp only [msPerDay] at this
            omega
          obtain ⟨e1, e2, e3⟩ := dayNumber_injective y m d y' m' d' va.1 va.2.1 va.2.2.1
            va.2.2.2 vb.1 vb.2.1 vb.2.2.1 vb.2.2.2 hday
          subst e1 e2 e3
          obtain ⟨q1, q2, q3, q4⟩ := decimalValue_four y1 y2 y3 y4 z1 z2 z3 z4
            (by rw [hy]; rfl) (by rw [hy, hy'])
          obtain ⟨q5, q6⟩ := decimalValue_two m1 m2 n1 n2 (by rw [hm]; rfl) (by rw [hm, hm'])
          obtain ⟨q7, q8⟩ := decimalValue_two d1 d2 e1 e2 (by rw [hd]; rfl) (by rw [hd, hd'])
          apply String.ext
          rw [hda, hdb, q1, q2, q3, q4, q5, q6, q7, q8]
        · cases hb
      · cases ha
    · cases hb
  · cases ha

/-- Valid date-only ISO strings that differ denote different dates. -/
theorem parseIsoDate_distinct (keys : List String)
    (hvalid : ∀ k ∈ keys, (parseIsoDate k).isSome = true) :
    ∀ a ∈ keys, ∀ b ∈ keys, parseIsoDate a = parseIsoDate b → a = b := by
  intro a ha b _ hab
  obtain ⟨t, ht⟩ := Option.isSome_iff_exists.1 (hvalid a ha)
  exact parseIsoDate_injective a b t ht (by rw [← hab, ht])

/-- The instants of the loop on a New York server for the range 1 to 5 November 2024,
given as UTC midnights: four, the last one on 4 November at 01:00 UTC, because the local
day of 3 November has 25 hours. -/
theorem mockInstants_newYork_november :
    mockInstants newYork (20032 * msPerDay) (20028 * msPerDay) =
      [1730419200000, 1730505600000, 1730592000000, 1730682000000] := by
  have e0 : (20028 : Int) * msPerDay = 1730419200000 := by decide
  have e1 : (20032 : Int) * msPerDay = 1730764800000 := by decide
  have n0 : nextLocalDay newYork 1730419200000 = 1730505600000 := by decide
  have n1 : nextLocalDay newYork 1730505600000 = 1730592000000 := by decide
  have n2 : nextLocalDay newYork 1730592000000 = 1730682000000 := by decide
  have n3 : nextLocalDay newYork 1730682000000 = 1730768400000 := by decide
  rw [e0, e1, mockInstants_step _ _ _ (by decide), n0, mockInstants_step _ _ _ (by decide), n1,
    mockInstants_step _ _ _ (by decide), n2, mockInstants_step _ _ _ (by decide), n3,
    mockInstants_stop _ _ _ (by decide)]

/-- The instants of the loop on a New York server for the range 1 to 5 June 2025: five, 24
hours apart. -/
theorem mockInstants_newYork_june :
    mockInstants newYork (20244 * msPerDay) (20240 * msPerDay) =
      [1748736000000, 1748822400000, 1748908800000, 1748995200000, 1749081600000] := by
  have e0 : (20240 : Int) * msPerDay = 1748736000000 := by decide
  have e1 : (20244 : Int) * msPerDay = 1749081600000 := by decide
  have n0 : nextLocalDay newYork 1748736000000 = 1748822400000 := by decide
  have n1 : nextLocalDay newYork 1748822400000 = 1748908800000 := by decide
  have n2 : nextLocalDay newYork 1748908800000 = 1748995200000 := by decide
  have n3 : nextLocalDay newYork 1748995200000 = 1749081600000 := by decide
  have n4 : nextLocalDay newYork 1749081600000 = 1749168000000 := by decide
  rw [e0, e1, mockInstants_step _ _ _ (by decide), n0, mockInstants_step _ _ _ (by decide), n1,
    mockInstants_step _ _ _ (by decide), n2, mockInstants_step _ _ _ (by decide), n3,
    mockInstants_step _ _ _ (by decide), n4, mockInstants_stop _ _ _ (by decide)]

/-- The series of `generateMockHistoricalData` under every rounding: as many values as the
loop has instants, and the labels of their local dates. -/
theorem generateMockHistoricalData_shape (zone : TimeZone) (rnd : ℚ → JsNum)
    (random : Nat → ℚ) (f t : String) (startDate endDate : Int) :
    (generateMockHistoricalData zone rnd random f t startDate endDate).data.length =
      (mockInstants zone endDate startDate).length ∧
    (generateMockHistoricalData zone rnd random f t startDate endDate).stats.dataPoints =
      (mockInstants zone endDate startDate).length ∧
    (generateMockHistoricalData zone rnd random f t startDate endDate).labels =
      (mockInstants zone endDate startDate).map
        (fun i => toLocaleDateString zone (some i)) := by
  unfold generateMockHistoricalData
  simp only [mockLoop_eq zone rnd random _ endDate _ 0 startDate _ (le_refl _), seriesStats,
    List.nil_append, List.length_map, List.length_range, and_self]

/-- The response of `getHistoricalData` on the mock path: status 200, source `mock`, and
the series, labels and statistics of `generateMockHistoricalData`. -/
theorem getHistoricalData_mock (zone : TimeZone) (rnd : ℚ → JsNum)
    (dateParse : String → Option Int) (reply : Option HistoricalResponse) (random : Nat → ℚ)
    (f t sd ed : String) (start stop : Int)
    (hf : f ≠ "") (ht : t ≠ "") (hsd : sd ≠ "") (hed : ed ≠ "")
    (hstart : dateParse sd = some start) (hstop : dateParse ed = some stop)
    (hle : start ≤ stop) (hrange : stop - start ≤ 365 * msPerDay)
    (hfail : ∃ msg, getHistoricalExchangeRates dateParse reply f t sd ed = .error msg) :
    ∃ r : HistoricalResult,
      getHistoricalData zone rnd dateParse reply random f t sd ed =
        { status := 200, body := .result r } ∧
      r.source = "mock" ∧
      r.labels = (generateMockHistoricalData zone rnd random f t start stop).labels ∧
      r.data = (generateMockHistoricalData zone rnd random f t start stop).data ∧
      r.stats = (generateMockHistoricalData zone rnd random f t start stop).stats := by
  obtain ⟨msg, hmsg⟩ := hfail
  have hparams : ¬ (f = "" ∨ t = "" ∨ sd = "" ∨ ed = "") := by
    simp [hf, ht, hsd, hed]
  have hgt : ¬ start > stop := by omega
  have hdays : ¬ ceilDiv (stop - start) msPerDay > 365 := by
    have := (ceilDiv_le_iff (stop - start)).2 hrange
    omega
  refine ⟨
    { fromCurrency := toUpperCase f, toCurrency := toUpperCase t, startDate := sd,
      endDate := ed,
      labels := (generateMockHistoricalData zone rnd random f t start stop).labels,
      datasetLabel := (generateMockHistoricalData zone rnd random f t start stop).datasetLabel,
      data := (generateMockHistoricalData zone rnd random f t start stop).data,
      stats := (generateMockHistoricalData zone rnd random f t start stop).stats,
      source := "mock", warning := some "Using mock data due to API unavailability" },
    ?_, rfl, rfl, rfl, rfl⟩
  simp only [getHistoricalData, if_neg hparams, hstart, hstop, if_neg hgt, if_neg hdays, hmsg]

/-- At a constant offset from UTC, under every rounding, the series for the days `s ≤ e`
(day numbers, the `Date` arguments being their UTC midnights) has `e - s + 1` values and
as many labels, label `i` being the local date of the UTC midnight of day `s + i`. -/
theorem generateMockHistoricalData_days (offset : Int) (rnd : ℚ → JsNum) (random : Nat → ℚ)
    (f t : String) (s e : Int) (h : s ≤ e) :
    (generateMockHistoricalData (fixedZone offset) rnd random f t (s * msPerDay)
        (e * msPerDay)).data.length = (e - s).toNat + 1 ∧
    (generateMockHistoricalData (fixedZone offset) rnd random f t (s * msPerDay)
        (e * msPerDay)).labels =
      (List.range ((e - s).toNat + 1)).map
        (fun (i : Nat) =>
          toLocaleDateString (fixedZone offset) (some ((s + (i : Int)) * msPerDay))) := by
  obtain ⟨h1, -, h3⟩ := generateMockHistoricalData_shape (fixedZone offset) rnd random f t
    (s * msPerDay) (e * msPerDay)
  have hc := mockCount_days s e h
  rw [mockInstants_fixed offset _ _ _ hc] at h1 h3
  refine ⟨by simpa using h1, ?_⟩
  rw [h3, List.map_map]
  apply List.map_congr_left
  intro i _
  simp only [Function.comp]
  congr 2
  ring

/-- The nearest integer, away from a tie. -/
theorem roundHalfEven_eq (x : ℚ) (n : ℤ) (h1 : (n : ℚ) - 1 / 2 < x)
    (h2 : x < (n : ℚ) + 1 / 2) : roundHalfEven x = n := by
  unfold roundHalfEven
  by_cases hx : (n : ℚ) ≤ x
  · have hf : ⌊x⌋ = n := Int.floor_eq_iff.2 ⟨hx, by linarith⟩
    rw [hf, if_pos (by linarith)]
  · have hf : ⌊x⌋ = n - 1 := by
      apply Int.floor_eq_iff.2
      push_cast
      constructor <;> linarith
    rw [hf]
    push_cast
    rw [if_neg (by linarith), if_pos (by linarith)]
    ring

/-- Rounding to the nearest integer does not pass an integer bound. -/
theorem roundHalfEven_le (x : ℚ) (n : ℤ) (h : x ≤ (n : ℚ)) : roundHalfEven x ≤ n := by
  have hf : ⌊x⌋ ≤ n := Int.floor_le_iff.2 (by linarith)
  have hfx : (⌊x⌋ : ℚ) ≤ x := Int.floor_le x
  unfold roundHalfEven
  by_cases hlt : ⌊x⌋ < n
  · split_ifs <;> omega
  · have heq : ⌊x⌋ = n := by omega
    have hx : x = (n : ℚ) := by
      rw [heq] at hfx
      linarith
    rw [if_pos (by rw [heq, hx]; norm_num)]
    exact hf

/-- Rounding to the nearest integer does not pass an integer bound from below. -/
theorem le_roundHalfEven (x : ℚ) (n : ℤ) (h : (n : ℚ) ≤ x) : n ≤ roundHalfEven x := by
  have hf : n ≤ ⌊x⌋ := Int.le_floor.2 h
  unfold roundHalfEven
  split_ifs <;> omega

/-- The double nearest to a value above zero in the normal range: with `2 ^ e ≤ q <
2 ^ (e + 1)` and `n` the integer nearest to `q / 2 ^ (e - 52)`, away from a tie, it is
`n * 2 ^ (e - 52)`. -/
theorem binary64_eq (q v : ℚ) (e n : ℤ) (hq : 0 < q) (he : -1022 ≤ e) (he2 : e ≤ 1022)
    (hlo : (2 : ℚ) ^ e ≤ q) (hhi : q < (2 : ℚ) ^ (e + 1))
    (hn1 : (n : ℚ) - 1 / 2 < q / (2 : ℚ) ^ (e - 52))
    (hn2 : q / (2 : ℚ) ^ (e - 52) < (n : ℚ) + 1 / 2)
    (hv : v = (n : ℚ) * (2 : ℚ) ^ (e - 52)) :
    binary64 q = .fin v := by
  have hlog : Int.log 2 |q| = e := by
    rw [abs_of_pos hq]
    apply le_antisymm
    · have := (@Int.lt_zpow_iff_log_lt ℚ _ _ 2 (by norm_num) (e + 1) q hq).1
        (by exact_mod_cast hhi)
      omega
    · exact (@Int.zpow_le_iff_le_log ℚ _ _ 2 (by norm_num) e q hq).1 (by exact_mod_cast hlo)
  have hmax : max e (-1022) = e := max_eq_left he
  have hr := roundHalfEven_eq _ n hn1 hn2
  have hulp : (0 : ℚ) < (2 : ℚ) ^ (e - 52) := by positivity
  have hn0 : 0 ≤ n := by
    have : (0 : ℚ) < q / (2 : ℚ) ^ (e - 52) := by positivity
    have : (-1 : ℚ) < (n : ℚ) := by linarith
    have : (-1 : ℤ) < n := by exact_mod_cast this
    omega
  have hpos : (0 : ℚ) ≤ (n : ℚ) * (2 : ℚ) ^ (e - 52) := by
    have : (0 : ℚ) ≤ (n : ℚ) := by exact_mod_cast hn0
    positivity
  have hsplit : (2 : ℚ) ^ (e + 1) = (2 : ℚ) ^ (53 : ℤ) * (2 : ℚ) ^ (e - 52) := by
    rw [← zpow_add₀ (by norm_num : (2 : ℚ) ≠ 0)]
    congr 1
    ring
  have hn53 : (n : ℚ) ≤ (2 : ℚ) ^ (53 : ℤ) := by
    have h1 : q / (2 : ℚ) ^ (e - 52) < (2 : ℚ) ^ (53 : ℤ) := by
      rw [div_lt_iff₀ hulp, ← hsplit]
      exact hhi
    have h2 : (n : ℚ) < (2 : ℚ) ^ (53 : ℤ) + 1 := by linarith
    have h3 : (n : ℚ) < ((2 ^ 53 + 1 : ℤ) : ℚ) := by
      push_cast
      norm_num at h2 ⊢
      exact h2
    have h4 : n < 2 ^ 53 + 1 := by exact_mod_cast h3
    have h5 : n ≤ 2 ^ 53 := by omega
    have h6 : (n : ℚ) ≤ ((2 ^ 53 : ℤ) : ℚ) := by exact_mod_cast h5
    norm_num at h6 ⊢
    exact h6
  have hfin : (n : ℚ) * (2 : ℚ) ^ (e - 52) < (2 : ℚ) ^ (1024 : ℤ) := by
    calc (n : ℚ) * (2 : ℚ) ^ (e - 52) ≤ (2 : ℚ) ^ (53 : ℤ) * (2 : ℚ) ^ (e - 52) :=
          mul_le_mul_of_nonneg_right hn53 hulp.le
      _ = (2 : ℚ) ^ (e + 1) := hsplit.symm
      _ ≤ (2 : ℚ) ^ (1023 : ℤ) := zpow_le_zpow_right₀ (by norm_num) (by omega)
      _ < (2 : ℚ) ^ (1024 : ℤ) := zpow_lt_zpow_right₀ (by norm_num) (by norm_num)
  rw [hv]
  simp only [binary64, if_neg (ne_of_gt hq), hlog, hmax, hr, abs_of_nonneg hpos,
    if_neg (not_le.2 hfin)]

/-- Rounding to a double keeps a magnitude within a power of two of the normal range, and
the result is finite. -/
theorem binary64_bounded (q : ℚ) (k : ℤ) (hk1 : -1022 ≤ k) (hk2 : k ≤ 1023)
    (h : |q| ≤ (2 : ℚ) ^ k) : ∃ r : ℚ, binary64 q = .fin r ∧ |r| ≤ (2 : ℚ) ^ k := by
  by_cases hq : q = 0
  · refine ⟨0, by simp [binary64, hq], ?_⟩
    rw [abs_zero]
    positivity
  · have habs : 0 < |q| := abs_pos.2 hq
    have hlog : Int.log 2 |q| ≤ k := by
      have h1 := @Int.log_mono_right ℚ _ _ 2 |q| ((2 : ℚ) ^ k) habs h
      have h2 : Int.log 2 ((2 : ℚ) ^ k) = k := by
        have := @Int.log_zpow ℚ _ _ 2 (by norm_num) k
        exact_mod_cast this
      omega
    obtain ⟨e, hdef⟩ : ∃ e, e = max (Int.log 2 |q|) (-1022) := ⟨_, rfl⟩
    have he : e ≤ k := by
      rw [hdef]
      exact max_le hlog hk1
    have hulp : (0 : ℚ) < (2 : ℚ) ^ (e - 52) := by positivity
    obtain ⟨m, hm⟩ : ∃ m : ℕ, k - e + 52 = (m : ℤ) := ⟨(k - e + 52).toNat, by omega⟩
    have hN : (2 : ℚ) ^ k = (((2 : ℤ) ^ m : ℤ) : ℚ) * (2 : ℚ) ^ (e - 52) := by
      push_cast
      rw [← zpow_natCast, ← hm, ← zpow_add₀ (by norm_num : (2 : ℚ) ≠ 0)]
      congr 1
      ring
    have hx1 : q / (2 : ℚ) ^ (e - 52) ≤ (((2 : ℤ) ^ m : ℤ) : ℚ) := by
      rw [div_le_iff₀ hulp, ← hN]
      exact le_trans (le_abs_self q) h
    have hx2 : ((-(2 : ℤ) ^ m : ℤ) : ℚ) ≤ q / (2 : ℚ) ^ (e - 52) := by
      rw [le_div_iff₀ hulp]
      have : -((2 : ℚ) ^ k) ≤ q := by
        have := neg_abs_le q
        linarith
      push_cast at hN ⊢
      linarith
    have hr1 := roundHalfEven_le _ _ hx1
    have hr2 := le_roundHalfEven _ _ hx2
    have habsr : |((roundHalfEven (q / (2 : ℚ) ^ (e - 52)) : ℤ) : ℚ)| ≤
        (((2 : ℤ) ^ m : ℤ) : ℚ) := by
      rw [abs_le]
      constructor
      · have : ((-(2 : ℤ) ^ m : ℤ) : ℚ) ≤
            (roundHalfEven (q / (2 : ℚ) ^ (e - 52)) : ℚ) := by
          exact_mod_cast hr2
        push_cast at this ⊢
        linarith
      · exact_mod_cast hr1
    have hbound : |(roundHalfEven (q / (2 : ℚ) ^ (e - 52)) : ℚ) * (2 : ℚ) ^ (e - 52)| ≤
        (2 : ℚ) ^ k := by
      rw [abs_mul, abs_of_pos hulp, hN]
      exact mul_le_mul_of_nonneg_right habsr hulp.le
    have hfin : ¬ (2 : ℚ) ^ (1024 : ℤ) ≤
        |(roundHalfEven (q / (2 : ℚ) ^ (e - 52)) : ℚ) * (2 : ℚ) ^ (e - 52)| := by
      intro hcon
      have h1 : (2 : ℚ) ^ k ≤ (2 : ℚ) ^ (1023 : ℤ) :=
        zpow_le_zpow_right₀ (by norm_num) hk2
      have h2 : (2 : ℚ) ^ (1023 : ℤ) < (2 : ℚ) ^ (1024 : ℤ) :=
        zpow_lt_zpow_right₀ (by norm_num) (by norm_num)
      linarith
    refine ⟨(roundHalfEven (q / (2 : ℚ) ^ (e - 52)) : ℚ) * (2 : ℚ) ^ (e - 52), ?_, hbound⟩
    simp only [binary64, if_neg hq, ← hdef, if_neg hfin]

/-- The series of `generateMockHistoricalData` is the one the loop builds. -/
theorem generateMockHistoricalData_data (zone : TimeZone) (rnd : ℚ → JsNum)
    (random : Nat → ℚ) (f t : String) (startDate endDate : Int) :
    (generateMockHistoricalData zone rnd random f t startDate endDate).data =
      (mockLoop zone rnd random (baseRateOf rnd f t) endDate 0 startDate
        { data := [], labels := [] }).data :=
  rfl

/-- When every draw gives the same value, the series repeats it once for each instant. -/
theorem mockLoop_constant (zone : TimeZone) (rnd : ℚ → JsNum) (random : Nat → ℚ)
    (b : JsVal) (endTime current : Int) (v : JsNum)
    (hval : ∀ k, mockValue rnd random b k = v) :
    (mockLoop zone rnd random b endTime 0 current { data := [], labels := [] }).data =
      List.replicate (mockInstants zone endTime current).length v := by
  rw [mockLoop_eq zone rnd _ _ _ _ 0 _ _ (le_refl _)]
  simp only [hval, List.nil_append]
  exact List.map_const' _ _ |>.trans (by simp)

/-- The statistics of `generateMockHistoricalData` are those of its series. -/
theorem generateMockHistoricalData_stats (zone : TimeZone) (rnd : ℚ → JsNum)
    (random : Nat → ℚ) (f t : String) (startDate endDate : Int) :
    (generateMockHistoricalData zone rnd random f t startDate endDate).stats =
      seriesStats rnd (generateMockHistoricalData zone rnd random f t startDate endDate).data :=
  rfl

/-- The mock series and its statistics in double arithmetic for USD to EUR over five days
on a UTC server, every draw one half: five times the double of 0.92, and an average one
unit in the last place above it. -/
theorem mock_usd_eur_binary64 :
    (generateMockHistoricalData utc binary64 (fun _ => 1 / 2) "USD" "EUR" (20240 * msPerDay)
        (20244 * msPerDay)).data =
      List.replicate 5 (JsNum.fin (8286623314361713 / 2 ^ 53 : ℚ)) ∧
    (generateMockHistoricalData utc binary64 (fun _ => 1 / 2) "USD" "EUR" (20240 * msPerDay)
        (20244 * msPerDay)).stats =
      { highest := .fin (8286623314361713 / 2 ^ 53 : ℚ),
        lowest := .fin (8286623314361713 / 2 ^ 53 : ℚ),
        average := .fin (4143311657180857 / 2 ^ 52 : ℚ),
        dataPoints := 5 } := by
  have b092 : binary64 (0.92 : ℚ) =
      .fin (8286623314361713 / 2 ^ 53 : ℚ) :=
    binary64_eq _ _ (-1) 8286623314361713
      (by norm_num) (by norm_num) (by norm_num) (by norm_num)
      (by norm_num) (by norm_num) (by norm_num) (by norm_num)
  have b01 : binary64 (0.1 : ℚ) =
      .fin (3602879701896397 / 2 ^ 55 : ℚ) :=
    binary64_eq _ _ (-4) 7205759403792794
      (by norm_num) (by norm_num) (by norm_num) (by norm_num)
      (by norm_num) (by norm_num) (by norm_num) (by norm_num)
  have v0 : binary64 ((1 / 2 : ℚ) - 0.5) = .fin 0 := by norm_num [binary64]
  have v1 : binary64 (0 * (3602879701896397 / 2 ^ 55 : ℚ)) = .fin 0 := by
    norm_num [binary64]
  have v2 : binary64 ((1 : ℚ) + 0) =
      .fin (1 : ℚ) :=
    binary64_eq _ _ (0) 4503599627370496
      (by norm_num) (by norm_num) (by norm_num) (by norm_num)
      (by norm_num) (by norm_num) (by norm_num) (by norm_num)
  have v3 : binary64 ((8286623314361713 / 2 ^ 53 : ℚ) * 1) =
      .fin (8286623314361713 / 2 ^ 53 : ℚ) :=
    binary64_eq _ _ (-1) 8286623314361713
      (by norm_num) (by norm_num) (by norm_num) (by norm_num)
      (by norm_num) (by norm_num) (by norm_num) (by norm_num)
  have s1 : binary64 (0 + (8286623314361713 / 2 ^ 53 : ℚ)) =
      .fin (8286623314361713 / 2 ^ 53 : ℚ) :=
    binary64_eq _ _ (-1) 8286623314361713
      (by norm_num) (by norm_num) (by norm_num) (by norm_num)
      (by norm_num) (by norm_num) (by norm_num) (by norm_num)
  have s2 : binary64 ((8286623314361713 / 2 ^ 53 : ℚ) +
      (8286623314361713 / 2 ^ 53 : ℚ)) =
      .fin (8286623314361713 / 2 ^ 52 : ℚ) :=
    binary64_eq _ _ (0) 8286623314361713
      (by norm_num) (by norm_num) (by norm_num) (by norm_num)
      (by norm_num) (by norm_num) (by norm_num) (by norm_num)
  have s3 : binary64 ((8286623314361713 / 2 ^ 52 : ℚ) +
      (8286623314361713 / 2 ^ 53 : ℚ)) =
      .fin (6214967485771285 / 2 ^ 51 : ℚ) :=
    binary64_eq _ _ (1) 6214967485771285
      (by norm_num) (by norm_num) (by norm_num) (by norm_num)
      (by norm_num) (by norm_num) (by norm_num) (by norm_num)
  have s4 : binary64 ((6214967485771285 / 2 ^ 51 : ℚ) +
      (8286623314361713 / 2 ^ 53 : ℚ)) =
      .fin (8286623314361713 / 2 ^ 51 : ℚ) :=
    binary64_eq _ _ (1) 8286623314361713
      (by norm_num) (by norm_num) (by norm_num) (by norm_num)
      (by norm_num) (by norm_num) (by norm_num) (by norm_num)
  have s5 : binary64 ((8286623314361713 / 2 ^ 51 : ℚ) +
      (8286623314361713 / 2 ^ 53 : ℚ)) =
      .fin (5179139571476071 / 2 ^ 50 : ℚ) :=
    binary64_eq _ _ (2) 5179139571476071
      (by norm_num) (by norm_num) (by norm_num) (by norm_num)
      (by norm_num) (by norm_num) (by norm_num) (by norm_num)
  have av : binary64 (5179139571476071 / 5629499534213120 : ℚ) =
      .fin (4143311657180857 / 2 ^ 52 : ℚ) :=
    binary64_eq _ _ (-1) 8286623314361714
      (by norm_num) (by norm_num) (by norm_num) (by norm_num)
      (by norm_num) (by norm_num) (by norm_num) (by norm_num)
  have hbase : baseRateOf binary64 "USD" "EUR" =
      .num (.fin (8286623314361713 / 2 ^ 53 : ℚ)) := by
    have hk : "USD" ++ "-" ++ "EUR" = "USD-EUR" := by decide
    have hg : getProperty (baseRates binary64) "USD-EUR" = .num (binary64 0.92) := by
      simp [getProperty, baseRates, List.lookup]
    simp only [baseRateOf, hk, hg, b092]
    norm_num [JsVal.truthy, JsNum.truthy]
  have hval : ∀ k, mockValue binary64 (fun _ => 1 / 2)
      (.num (.fin (8286623314361713 / 2 ^ 53 : ℚ))) k =
      .fin (8286623314361713 / 2 ^ 53 : ℚ) := by
    intro k
    simp only [mockValue, JsNum.rounded, JsNum.sub_fin, v0, b01, JsNum.mul_fin, v1,
      JsNum.add_fin, v2, toNumber_num, v3]
  have hdata : (generateMockHistoricalData utc binary64 (fun _ => 1 / 2) "USD" "EUR"
      (20240 * msPerDay) (20244 * msPerDay)).data =
      List.replicate 5 (JsNum.fin (8286623314361713 / 2 ^ 53 : ℚ)) := by
    rw [generateMockHistoricalData_data, hbase, mockLoop_constant _ _ _ _ _ _ _ hval,
      show utc = fixedZone 0 from rfl,
      mockInstants_fixed 0 (20244 * msPerDay) 5 (20240 * msPerDay) (by decide)]
    rfl
  refine ⟨hdata, ?_⟩
  have hstats := generateMockHistoricalData_stats utc binary64 (fun _ => 1 / 2) "USD" "EUR"
    (20240 * msPerDay) (20244 * msPerDay)
  rw [hstats, hdata]
  have hlt : ¬ (8286623314361713 / 2 ^ 53 : ℚ) < (8286623314361713 / 2 ^ 53 : ℚ) :=
    lt_irrefl _
  simp only [seriesStats, mathMax, mathMin, List.replicate, List.foldl, JsNum.max, JsNum.min,
    JsNum.lt, hlt, decide_False, JsNum.rounded, JsNum.add_fin, s1, s2, s3, s4, s5,
    List.length_cons, List.length_nil]
  norm_num [JsNum.div, JsNum.rounded, av]

/-- Reading the base table at the key of a pair is a lookup of the pair, the entry
rounded. -/
theorem getProperty_baseRates (rnd : ℚ → JsNum) (f t : String) :
    getProperty (baseRates rnd) (f ++ "-" ++ t) =
      match mockTable.lookup (f, t) with
      | some v => .num (rnd v)
      | none => .undefined := by
  have hk := key_not_inherited f t
  have e1 := key_eq_iff "USD" "INR" (by decide) (by decide) f t
  have e2 := key_eq_iff "USD" "EUR" (by decide) (by decide) f t
  have e3 := key_eq_iff "USD" "GBP" (by decide) (by decide) f t
  have e4 := key_eq_iff "USD" "JPY" (by decide) (by decide) f t
  have e5 := key_eq_iff "EUR" "USD" (by decide) (by decide) f t
  have e6 := key_eq_iff "GBP" "USD" (by decide) (by decide) f t
  have e7 := key_eq_iff "JPY" "USD" (by decide) (by decide) f t
  have k1 : "USD" ++ "-" ++ "INR" = "USD-INR" := by decide
  have k2 : "USD" ++ "-" ++ "EUR" = "USD-EUR" := by decide
  have k3 : "USD" ++ "-" ++ "GBP" = "USD-GBP" := by decide
  have k4 : "USD" ++ "-" ++ "JPY" = "USD-JPY" := by decide
  have k5 : "EUR" ++ "-" ++ "USD" = "EUR-USD" := by decide
  have k6 : "GBP" ++ "-" ++ "USD" = "GBP-USD" := by decide
  have k7 : "JPY" ++ "-" ++ "USD" = "JPY-USD" := by decide
  rw [k1] at e1; rw [k2] at e2; rw [k3] at e3; rw [k4] at e4
  rw [k5] at e5; rw [k6] at e6; rw [k7] at e7
  by_cases h1 : (f, t) = ("USD", "INR")
  · cases h1; rfl
  by_cases h2 : (f, t) = ("USD", "EUR")
  · cases h2; rfl
  by_cases h3 : (f, t) = ("USD", "GBP")
  · cases h3; rfl
  by_cases h4 : (f, t) = ("USD", "JPY")
  · cases h4; rfl
  by_cases h5 : (f, t) = ("EUR", "USD")
  · cases h5; rfl
  by_cases h6 : (f, t) = ("GBP", "USD")
  · cases h6; rfl
  by_cases h7 : (f, t) = ("JPY", "USD")
  · cases h7; rfl
  have b1 := beq_false_of_ne (mt e1.1 h1)
  have b2 := beq_false_of_ne (mt e2.1 h2)
  have b3 := beq_false_of_ne (mt e3.1 h3)
  have b4 := beq_false_of_ne (mt e4.1 h4)
  have b5 := beq_false_of_ne (mt e5.1 h5)
  have b6 := beq_false_of_ne (mt e6.1 h6)
  have b7 := beq_false_of_ne (mt e7.1 h7)
  have c1 := beq_false_of_ne h1
  have c2 := beq_false_of_ne h2
  have c3 := beq_false_of_ne h3
  have c4 := beq_false_of_ne h4
  have c5 := beq_false_of_ne h5
  have c6 := beq_false_of_ne h6
  have c7 := beq_false_of_ne h7
  simp only [getProperty, baseRates, mockTable, List.lookup, b1, b2, b3, b4, b5, b6, b7,
    c1, c2, c3, c4, c5, c6, c7, hk.1, hk.2, if_false]

/-- The double of every entry of the table is finite, between `2 ^ (-8)` and `2 ^ 8`. -/
theorem binary64_table (k : String × String) (v : ℚ) (h : mockTable.lookup k = some v) :
    ∃ b : ℚ, binary64 v = .fin b ∧ (1 / 256 : ℚ) ≤ b ∧ b ≤ 256 := by
  have hall : ∀ p ∈ mockTable,
      ∃ b : ℚ, binary64 p.2 = .fin b ∧ (1 / 256 : ℚ) ≤ b ∧ b ≤ 256 := by
    intro p hp
    simp only [mockTable, List.mem_cons, List.mem_singleton, List.not_mem_nil, or_false] at hp
    rcases hp with rfl | rfl | rfl | rfl | rfl | rfl | rfl
    · exact ⟨(333 / 4 : ℚ),
        binary64_eq _ _ (6) 5858197952790528
          (by norm_num) (by norm_num) (by norm_num) (by norm_num)
          (by norm_num) (by norm_num) (by norm_num) (by norm_num),
        by norm_num, by norm_num⟩
    · exact ⟨(8286623314361713 / 9007199254740992 : ℚ),
        binary64_eq _ _ (-1) 8286623314361713
          (by norm_num) (by norm_num) (by norm_num) (by norm_num)
          (by norm_num) (by norm_num) (by norm_num) (by norm_num),
        by norm_num, by norm_num⟩
    · exact ⟨(889460926405673 / 1125899906842624 : ℚ),
        binary64_eq _ _ (-1) 7115687411245384
          (by norm_num) (by norm_num) (by norm_num) (by norm_num)
          (by norm_num) (by norm_num) (by norm_num) (by norm_num),
        by norm_num, by norm_num⟩
    · exact ⟨(299 / 2 : ℚ),
        binary64_eq _ _ (7) 5260063627280384
          (by norm_num) (by norm_num) (by norm_num) (by norm_num)
          (by norm_num) (by norm_num) (by norm_num) (by norm_num),
        by norm_num, by norm_num⟩
    · exact ⟨(607985949695017 / 562949953421312 : ℚ),
        binary64_eq _ _ (0) 4863887597560136
          (by norm_num) (by norm_num) (by norm_num) (by norm_num)
          (by norm_num) (by norm_num) (by norm_num) (by norm_num),
        by norm_num, by norm_num⟩
    · exact ⟨(2859785763380265 / 2251799813685248 : ℚ),
        binary64_eq _ _ (0) 5719571526760530
          (by norm_num) (by norm_num) (by norm_num) (by norm_num)
          (by norm_num) (by norm_num) (by norm_num) (by norm_num),
        by norm_num, by norm_num⟩
    · exact ⟨(7724574080865875 / 1152921504606846976 : ℚ),
        binary64_eq _ _ (-8) 7724574080865875
          (by norm_num) (by norm_num) (by norm_num) (by norm_num)
          (by norm_num) (by norm_num) (by norm_num) (by norm_num),
        by norm_num, by norm_num⟩
  obtain ⟨l₁, l₂, hl, -⟩ := List.lookup_eq_some_iff.1 h
  exact hall (k, v) (by rw [hl]; simp)

/-- In double arithmetic the base rate of every pair is a finite number of magnitude at
most 256. -/
theorem baseRateOf_binary64 (f t : String) :
    ∃ b : ℚ, baseRateOf binary64 f t = .num (.fin b) ∧ |b| ≤ (256 : ℚ) := by
  unfold baseRateOf
  simp only [getProperty_baseRates]
  cases h1 : mockTable.lookup (f, t) with
  | some v =>
    obtain ⟨b, hb, hlo, hhi⟩ := binary64_table _ _ h1
    have hne : b ≠ 0 := by
      intro h0
      rw [h0] at hlo
      norm_num at hlo
    refine ⟨b, ?_, ?_⟩
    · simp [hb, JsVal.truthy, JsNum.truthy, hne]
    · rw [abs_of_nonneg (by linarith)]
      exact hhi
  | none =>
    cases h2 : mockTable.lookup (t, f) with
    | some v =>
      obtain ⟨b, hb, hlo, hhi⟩ := binary64_table _ _ h2
      have hpos : 0 < b := by linarith
      have hne : b ≠ 0 := ne_of_gt hpos
      have hinv : |1 / b| ≤ (2 : ℚ) ^ (8 : ℤ) := by
        rw [abs_of_pos (by positivity), div_le_iff₀ hpos]
        norm_num
        linarith
      obtain ⟨r, hr, hrb⟩ := binary64_bounded (1 / b) 8 (by norm_num) (by norm_num) hinv
      refine ⟨r, ?_, ?_⟩
      · have hr2 : binary64 b⁻¹ = .fin r := by
          rw [← hr, one_div]
        simp [hb, JsVal.truthy, JsNum.truthy, hne, JsNum.div_fin, JsNum.rounded, hr2]
      · norm_num at hrb ⊢
        exact hrb
    | none =>
      refine ⟨1, ?_, by norm_num⟩
      simp [JsVal.truthy]
      norm_num

/-- In double arithmetic every value of the mock series is finite when the draw lies in
`[0, 1)`. -/
theorem mockValue_binary64 (random : Nat → ℚ) (b : ℚ) (k : Nat) (hb : |b| ≤ (256 : ℚ))
    (h0 : 0 ≤ random k) (h1 : random k < 1) :
    ∃ q : ℚ, mockValue binary64 random (.num (.fin b)) k = .fin q := by
  obtain ⟨a1, e1, b1⟩ := binary64_bounded (random k - 0.5) (-1) (by norm_num) (by norm_num)
    (by
      rw [abs_le]
      constructor <;> norm_num <;> linarith)
  obtain ⟨d, e2, b2⟩ := binary64_bounded 0.1 (-3) (by norm_num) (by norm_num)
    (by norm_num [abs_of_pos])
  obtain ⟨a2, e3, b3⟩ := binary64_bounded (a1 * d) (-4) (by norm_num) (by norm_num)
    (by
      rw [abs_mul]
      calc |a1| * |d| ≤ (2 : ℚ) ^ (-1 : ℤ) * (2 : ℚ) ^ (-3 : ℤ) :=
            mul_le_mul b1 b2 (abs_nonneg _) (by positivity)
        _ = (2 : ℚ) ^ (-4 : ℤ) := by norm_num)
  obtain ⟨a3, e4, b4⟩ := binary64_bounded (1 + a2) 1 (by norm_num) (by norm_num)
    (by
      have := abs_le.1 b3
      rw [abs_le]
      norm_num at this ⊢
      constructor <;> linarith)
  obtain ⟨a4, e5, -⟩ := binary64_bounded (b * a3) 9 (by norm_num) (by norm_num)
    (by
      rw [abs_mul]
      calc |b| * |a3| ≤ 256 * (2 : ℚ) ^ (1 : ℤ) :=
            mul_le_mul hb b4 (abs_nonneg _) (by norm_num)
        _ = (2 : ℚ) ^ (9 : ℤ) := by norm_num)
  refine ⟨a4, ?_⟩
  simp only [mockValue, JsNum.rounded, JsNum.sub_fin, e1, e2, JsNum.mul_fin, e3, JsNum.add_fin,
    e4, toNumber_num, e5]

/-- In double arithmetic the mock series consists of finite values when the draws lie in
`[0, 1)`. -/
theorem generateMockHistoricalData_finite (zone : TimeZone) (random : Nat → ℚ)
    (f t : String) (startDate endDate : Int) (hdraw : ∀ k, 0 ≤ random k ∧ random k < 1) :
    ∃ qs : List ℚ,
      (generateMockHistoricalData zone binary64 random f t startDate endDate).data =
        qs.map JsNum.fin := by
  obtain ⟨b, hb, hbound⟩ := baseRateOf_binary64 f t
  refine ⟨(List.range (mockInstants zone endDate startDate).length).map
    (fun k => finiteValue (mockValue binary64 random (.num (.fin b)) k)), ?_⟩
  rw [generateMockHistoricalData_data, hb, mockLoop_eq zone binary64 _ _ _ _ 0 _ _ (le_refl _)]
  simp only [List.nil_append, List.map_map, Nat.zero_add]
  apply List.map_congr_left
  intro k _
  obtain ⟨q, hq⟩ := mockValue_binary64 random b k hbound (hdraw k).1 (hdraw k).2
  simp only [Function.comp, hq, finiteValue]

/-! ## Claims -/

/-- C1: for an amount above zero, a rate above zero and a listed fee type with percentage
`p`, `convertCurrency` computes `convertedAmount = amount * rate`,
`feeAmount = convertedAmount * p / 100` and `finalAmount = convertedAmount * (1 - p / 100)`
(so `finalAmount = amount * rate` for the fee type none); a history record, when one is
written, holds exactly these values, and one is written for an authenticated user with
codes of length 3 when the database accepts it. -/
theorem C1_convert_values (req : ConvertRequest) (env : ConvertEnv) (a r p : ℚ)
    (feeType : String) (ha : 0 < a) (hr : 0 < r)
    (hamount : req.amount = .num (.fin a))
    (hfeeType : req.feeType.getD "none" = feeType)
    (hfee : (feeType, p) ∈ feeSchedule)
    (hrate : (resolveRate env.live env.random req.fromCurrency req.toCurrency).1 =
      .num (.fin r)) :
    calculate req.amount (.num (.fin r)) feeType =
      { convertedAmount := .fin (a * r), feePercentage := .num (.fin p),
        feeAmount := .fin (a * r * p / 100), finalAmount := .fin (a * r * (1 - p / 100)) } ∧
    (feeType = "none" →
      (calculate req.amount (.num (.fin r)) feeType).finalAmount = .fin (a * r)) ∧
    (∀ e, (convertCurrency req env).saved = some e →
      e.amount = .fin a ∧ e.rate = .num (.fin r) ∧ e.convertedAmount = .fin (a * r) ∧
      e.feeAmount = .fin (a * r * p / 100) ∧ e.finalAmount = .fin (a * r * (1 - p / 100))) ∧
    (req.fromCurrency ≠ "" → req.toCurrency ≠ "" →
      req.user.isSome → req.saveHistory = .undefined → env.dbOk = true →
      jsLength (toUpperCase (toUpperCase req.fromCurrency)) = 3 →
      jsLength (toUpperCase (toUpperCase req.toCurrency)) = 3 →
      (convertCurrency req env).saved.isSome) := by
  have hcalc := calculate_listed a r p feeType hfee
  have hb := feeSchedule_bounds feeType p hfee
  have h2 : ¬ JsNum.le (toNumber req.amount) (.fin 0) = true := by
    rw [hamount]; simp; exact ha
  have htruthy : req.amount.truthy = true := by
    rw [hamount]; simp; exact ha.ne'
  refine ⟨by rw [hamount]; exact hcalc, ?_, ?_, ?_⟩
  · intro hnone
    have hp : p = 0 := by
      subst hnone
      simp [feeSchedule] at hfee
      exact hfee
    rw [hamount, hcalc, hp]
    simp
  · intro e he
    by_cases h1 : req.fromCurrency = "" ∨ req.toCurrency = "" ∨ (!req.amount.truthy) = true
    · rw [(convertCurrency_rejected_saved req env (Or.inl h1)).2.2] at he
      cases he
    · rw [convertCurrency_accepted req env h1 h2] at he
      simp only [hrate, hfeeType, hamount, hcalc] at he
      cases hu : req.user with
      | none => rw [hu] at he; cases he
      | some u =>
        rw [hu] at he
        simp only at he
        split_ifs at he <;> cases he <;> simp
  · intro hf ht hu hs hdb hlf hlt
    have h1 : ¬ (req.fromCurrency = "" ∨ req.toCurrency = "" ∨ (!req.amount.truthy) = true) := by
      simp [hf, ht, htruthy]
    rw [convertCurrency_accepted req env h1 h2]
    obtain ⟨u, hu⟩ := Option.isSome_iff_exists.1 hu
    have hmem : feeType ∈ ["none", "bank", "paypal", "wise", "western_union"] := by
      simp only [feeSchedule, List.mem_cons, Prod.mk.injEq, List.mem_singleton,
        List.not_mem_nil, or_false] at hfee
      rcases hfee with ⟨rfl, -⟩ | ⟨rfl, -⟩ | ⟨rfl, -⟩ | ⟨rfl, -⟩ | ⟨rfl, -⟩ <;> simp
    have hconv : 0 ≤ a * r := by positivity
    have hfeeAmt : 0 ≤ a * r * p / 100 := by
      have := hb.1
      positivity
    have hfinal : 0 ≤ a * r * (1 - p / 100) := by
      apply mul_nonneg hconv
      linarith [hb.2]
    simp [hrate, hfeeType, hamount, hcalc, hu, hs, hdb, validHistory,
      hlf, hlt, JsVal.truthy, ha.le, hr.le, hconv, hfeeAmt, hfinal, hmem]

/-- C1 at USD to INR, amount 100, mock rate 83.25, fee type wise. -/
theorem C1_convert_values_witness :
    calculate (.num (.fin 100)) (.num (.fin 83.25)) "wise" =
      { convertedAmount := .fin (100 * 83.25), feePercentage := .num (.fin 0.5),
        feeAmount := .fin (100 * 83.25 * 0.5 / 100),
        finalAmount := .fin (100 * 83.25 * (1 - 0.5 / 100)) } ∧
    (convertCurrency
      { fromCurrency := "USD", toCurrency := "INR", amount := .num (.fin 100),
        feeType := some "wise", saveHistory := .undefined, user := some 1 }
      { live := none, random := 0, dbOk := true }).saved.isSome :=
  have h := C1_convert_values
    { fromCurrency := "USD", toCurrency := "INR", amount := .num (.fin 100),
      feeType := some "wise", saveHistory := .undefined, user := some 1 }
    { live := none, random := 0, dbOk := true } 100 83.25 0.5 "wise"
    (by norm_num) (by norm_num) rfl rfl (by simp [feeSchedule])
    (by simp [resolveRate, getLiveExchangeRate, getMockExchangeRate_eq, mockRateSpec,
      mockTable, List.lookup])
  ⟨h.1, h.2.2.2 (by decide) (by decide) rfl rfl rfl (by decide) (by decide)⟩

/-- C2, evaluated at the fee type `constructor`: the request is answered with status 200,
but the fee percentage read from `feeOptions` is the inherited constructor function, not 0,
so the fee amount and the final amount are `NaN`, and no history record is written. -/
theorem C2_inherited_fee_type :
    convertCurrency
      { fromCurrency := "USD", toCurrency := "INR", amount := .num (.fin 100),
        feeType := some "constructor", saveHistory := .undefined, user := some 1 }
      { live := none, random := 0, dbOk := true } =
      { status := 200,
        body := .result
          { fromCurrency := "USD", toCurrency := "INR", amount := .fin 100,
            rate := .num (.fin 83.25), convertedAmount := .fin 8325,
            feeType := "constructor",
            feePercentage := .obj "function Object() \x7b [native code] \x7d",
            feeAmount := .nan, finalAmount := .nan },
        lookups := [.live "USD" "INR", .mock "USD" "INR"],
        saved := none } := by
  have hc : calculate (.num (.fin 100)) (.num (.fin 83.25)) "constructor" =
      { convertedAmount := .fin 8325,
        feePercentage := .obj "function Object() \x7b [native code] \x7d",
        feeAmount := .nan, finalAmount := .nan } := by
    simp only [calculate, toNumber_constructor.1, toNumber_constructor.2, JsVal.truthy,
      if_true, parseFloat_num, toNumber_num, JsNum.mul_fin]
    norm_num [JsNum.mul, JsNum.div, JsNum.sub]
  rw [convertCurrency_accepted _ _ (by decide) (by decide)]
  simp only [resolveRate_usd_inr, hc, toUpperCase_codes, Option.getD_some]
  norm_num [JsNum.toFixed, validHistory, numberMinZero, JsNum.le]

/-- C3, evaluated at the amounts 0 and -5: both are answered with status 400 before any
rate lookup or history write, but the amount 0 is stopped by the first guard and reported
as a missing field; only -5 gets the invalid-amount message. -/
theorem C3_zero_amount_reported_missing :
    convertCurrency
      { fromCurrency := "USD", toCurrency := "INR", amount := .num (.fin 0),
        feeType := none, saveHistory := .undefined, user := some 1 }
      { live := none, random := 0, dbOk := true } =
      { status := 400,
        body := .error "Missing required fields: fromCurrency, toCurrency, amount",
        lookups := [], saved := none } ∧
    convertCurrency
      { fromCurrency := "USD", toCurrency := "INR", amount := .num (.fin (-5)),
        feeType := none, saveHistory := .undefined, user := some 1 }
      { live := none, random := 0, dbOk := true } =
      { status := 400, body := .error "Amount must be greater than 0",
        lookups := [], saved := none } := by
  constructor <;> decide

/-- C4, evaluated at the string amounts `abc` and `0x10`: both pass the two guards (their
numeric value is `NaN`, respectively 16), the request is answered with status 200, and the
amount used, `parseFloat(amount)`, is `NaN`, respectively 0: not above zero. -/
theorem C4_string_amount_not_positive :
    convertCurrency
      { fromCurrency := "USD", toCurrency := "INR", amount := .str "abc",
        feeType := none, saveHistory := .undefined, user := none }
      { live := none, random := 0, dbOk := true } =
      { status := 200,
        body := .result
          { fromCurrency := "USD", toCurrency := "INR", amount := .nan,
            rate := .num (.fin 83.25), convertedAmount := .nan, feeType := "none",
            feePercentage := .num (.fin 0), feeAmount := .nan, finalAmount := .nan },
        lookups := [.live "USD" "INR", .mock "USD" "INR"],
        saved := none } ∧
    toNumber (.str "abc") = .nan ∧
    (parseFloat (.str "abc")).isPositive = false ∧
    convertCurrency
      { fromCurrency := "USD", toCurrency := "INR", amount := .str "0x10",
        feeType := none, saveHistory := .undefined, user := none }
      { live := none, random := 0, dbOk := true } =
      { status := 200,
        body := .result
          { fromCurrency := "USD", toCurrency := "INR", amount := .fin 0,
            rate := .num (.fin 83.25), convertedAmount := .fin 0, feeType := "none",
            feePercentage := .num (.fin 0), feeAmount := .fin 0, finalAmount := .fin 0 },
        lookups := [.live "USD" "INR", .mock "USD" "INR"],
        saved := none } ∧
    toNumber (.str "0x10") = .fin 16 ∧
    (parseFloat (.str "0x10")).isPositive = false := by
  have hfee : getProperty feeOptions "none" = .num (.fin 0) := rfl
  have habc : parseFloat (.str "abc") = .nan := by decide
  have hhex : parseFloat (.str "0x10") = .fin 0 := by with_unfolding_all decide
  refine ⟨?_, by decide, by rw [habc]; rfl, ?_, by decide, by rw [hhex]; simp [JsNum.isPositive]⟩
  · rw [convertCurrency_accepted _ _ (by decide) (by decide)]
    simp only [resolveRate_usd_inr, toUpperCase_codes, Option.getD_none, calculate, habc, hfee]
    simp [JsNum.mul, JsNum.div, JsNum.sub, JsNum.toFixed, JsVal.truthy, JsNum.truthy]
  · rw [convertCurrency_accepted _ _ (by decide) (by decide)]
    simp only [resolveRate_usd_inr, toUpperCase_codes, Option.getD_none, calculate, hhex, hfee]
    norm_num [JsNum.toFixed, JsVal.truthy, JsNum.truthy]

/-- C5: `getMockExchangeRate` equals the three-branch reference `mockRateSpec`: a listed
pair gives its table value (the direct entry first), else a listed reverse pair gives the
reciprocal of its entry, else the value is `10 * random + 0.1`, which lies in
`[0.1, 10.1)` for a draw in `[0, 1)`. -/
theorem C5_mockRate_refines (random : ℚ) (f t : String) :
    getMockExchangeRate random f t = .num (.fin (mockRateSpec random f t)) ∧
    (∀ v, mockTable.lookup (f, t) = some v →
      getMockExchangeRate random f t = .num (.fin v)) ∧
    (∀ v, mockTable.lookup (f, t) = none → mockTable.lookup (t, f) = some v →
      getMockExchangeRate random f t = .num (.fin (1 / v))) ∧
    (mockTable.lookup (f, t) = none → mockTable.lookup (t, f) = none →
      getMockExchangeRate random f t = .num (.fin (10 * random + 0.1)) ∧
      (0 ≤ random → random < 1 → 0.1 ≤ 10 * random + 0.1 ∧ 10 * random + 0.1 < 10.1)) ∧
    getMockExchangeRate random "USD" "INR" = .num (.fin 83.25) ∧
    getMockExchangeRate random "INR" "USD" = .num (.fin (1 / 83.25)) ∧
    getMockExchangeRate random "USD" "EUR" = .num (.fin 0.92) ∧
    getMockExchangeRate random "USD" "GBP" = .num (.fin 0.79) ∧
    getMockExchangeRate random "USD" "JPY" = .num (.fin 149.50) ∧
    getMockExchangeRate random "EUR" "USD" = .num (.fin 1.08) ∧
    getMockExchangeRate random "GBP" "USD" = .num (.fin 1.27) ∧
    getMockExchangeRate random "JPY" "USD" = .num (.fin 0.0067) := by
  refine ⟨getMockExchangeRate_eq random f t, ?_, ?_, ?_, ?_, ?_, ?_, ?_, ?_, ?_, ?_, ?_⟩
  · intro v h
    rw [getMockExchangeRate_eq, mockRateSpec, h]
  · intro v h1 h2
    rw [getMockExchangeRate_eq, mockRateSpec, h1, h2]
  · intro h1 h2
    refine ⟨by rw [getMockExchangeRate_eq, mockRateSpec, h1, h2], ?_⟩
    intro h0 hlt
    constructor <;> linarith
  all_goals rw [getMockExchangeRate_eq]; rfl

/-- C5 at the unlisted pair INR to EUR with the draw one half. -/
theorem C5_mockRate_refines_witness :
    getMockExchangeRate (1 / 2) "INR" "EUR" = .num (.fin (10 * (1 / 2) + 0.1)) ∧
    ((0.1 : ℚ) ≤ 10 * (1 / 2) + 0.1 ∧ (10 : ℚ) * (1 / 2) + 0.1 < 10.1) :=
  have h := (C5_mockRate_refines (1 / 2) "INR" "EUR").2.2.2.1 rfl rfl
  ⟨h.1, h.2 (by norm_num) (by norm_num)⟩

/-- C6: the transition of `updateRate` sets the trend to up, down or neutral as the new
rate is above, below or equal to the stored one, sets `currentRate` to the new rate and
keeps identifier, owner, both currency codes and `createdAt`; a successful `save()` returns
and stores exactly this document, stamped with the current instant. -/
theorem C6_updateRate_transition (b : Bookmark) (newRate : ℚ) :
    (newRate > b.currentRate → (setRate b newRate).trend = .up) ∧
    (newRate < b.currentRate → (setRate b newRate).trend = .down) ∧
    (newRate = b.currentRate → (setRate b newRate).trend = .neutral) ∧
    (setRate b newRate).currentRate = newRate ∧
    (setRate b newRate).id = b.id ∧
    (setRate b newRate).userId = b.userId ∧
    (setRate b newRate).fromCurrency = b.fromCurrency ∧
    (setRate b newRate).toCurrency = b.toCurrency ∧
    (setRate b newRate).createdAt = b.createdAt ∧
    (∀ store now dbOk b1 store1, updateRate store b newRate now dbOk = .ok (b1, store1) →
      b1 = { setRate b newRate with updatedAt := now }) ∧
    (∀ store now, validBookmark (setRate b newRate) = true →
      updateRate store b newRate now true =
        .ok ({ setRate b newRate with updatedAt := now },
          updateFirst (fun x => x.id = b.id)
            (fun x => { x with currentRate := newRate, trend := (setRate b newRate).trend,
                               updatedAt := now }) store)) := by
  refine ⟨?_, ?_, ?_, rfl, rfl, rfl, rfl, rfl, rfl, ?_, ?_⟩
  · intro h
    simp [setRate, h]
  · intro h
    simp [setRate, h, not_lt_of_gt h]
  · intro h
    simp [setRate, h]
  · intro store now dbOk b1 store1 h
    unfold updateRate saveLoaded at h
    split_ifs at h
    injection h with h
    injection h with h1 h2
    exact h1.symm
  · intro store now hv
    simp [updateRate, saveLoaded, hv]
    rfl

/-- C6 on a bookmark with rate 1.0 and the new rates 1.2, 1.0 and 0.8. -/
theorem C6_updateRate_transition_witness :
    (setRate ⟨7, 1, "USD", "EUR", 1.0, .neutral, 0, 0⟩ 1.2).trend = .up ∧
    (setRate ⟨7, 1, "USD", "EUR", 1.0, .neutral, 0, 0⟩ 1.2).currentRate = 1.2 ∧
    (setRate ⟨7, 1, "USD", "EUR", 1.0, .neutral, 0, 0⟩ 1.0).trend = .neutral ∧
    (setRate ⟨7, 1, "USD", "EUR", 1.0, .neutral, 0, 0⟩ 0.8).trend = .down :=
  ⟨(C6_updateRate_transition ⟨7, 1, "USD", "EUR", 1.0, .neutral, 0, 0⟩ 1.2).1
      (by norm_num),
    (C6_updateRate_transition ⟨7, 1, "USD", "EUR", 1.0, .neutral, 0, 0⟩ 1.2).2.2.2.1,
    (C6_updateRate_transition ⟨7, 1, "USD", "EUR", 1.0, .neutral, 0, 0⟩ 1.0).2.2.1 rfl,
    (C6_updateRate_transition ⟨7, 1, "USD", "EUR", 1.0, .neutral, 0, 0⟩ 0.8).2.1
      (by norm_num)⟩

/-- C7: when the live fetch fails, `convertCurrency` still answers a request that passed
validation with status 200, and its result and history record are those computed with the
mock rate of the requested pair; `updateBookmarkRate` then refreshes the bookmark with the
mock rate of its stored pair, and answers 200 once the database accepts the write. -/
theorem C7_live_failure_uses_mock :
    (∀ (req : ConvertRequest) (env : ConvertEnv),
      req.fromCurrency ≠ "" → req.toCurrency ≠ "" → req.amount.truthy = true →
      JsNum.le (toNumber req.amount) (.fin 0) = false →
      (∃ msg, getLiveExchangeRate env.live req.fromCurrency req.toCurrency = .error msg) →
      (convertCurrency req env).status = 200 ∧
      (convertCurrency req env).body = .result
        { fromCurrency := toUpperCase req.fromCurrency,
          toCurrency := toUpperCase req.toCurrency,
          amount := parseFloat req.amount,
          rate := getMockExchangeRate env.random req.fromCurrency req.toCurrency,
          convertedAmount := JsNum.toFixed 2 (calculate req.amount
            (getMockExchangeRate env.random req.fromCurrency req.toCurrency)
            (req.feeType.getD "none")).convertedAmount,
          feeType := req.feeType.getD "none",
          feePercentage := (calculate req.amount
            (getMockExchangeRate env.random req.fromCurrency req.toCurrency)
            (req.feeType.getD "none")).feePercentage,
          feeAmount := JsNum.toFixed 2 (calculate req.amount
            (getMockExchangeRate env.random req.fromCurrency req.toCurrency)
            (req.feeType.getD "none")).feeAmount,
          finalAmount := JsNum.toFixed 2 (calculate req.amount
            (getMockExchangeRate env.random req.fromCurrency req.toCurrency)
            (req.feeType.getD "none")).finalAmount } ∧
      (∀ e, (convertCurrency req env).saved = some e →
        e.rate = getMockExchangeRate env.random req.fromCurrency req.toCurrency ∧
        e.convertedAmount = (calculate req.amount
          (getMockExchangeRate env.random req.fromCurrency req.toCurrency)
          (req.feeType.getD "none")).convertedAmount ∧
        e.feeAmount = (calculate req.amount
          (getMockExchangeRate env.random req.fromCurrency req.toCurrency)
          (req.feeType.getD "none")).feeAmount ∧
        e.finalAmount = (calculate req.amount
          (getMockExchangeRate env.random req.fromCurrency req.toCurrency)
          (req.feeType.getD "none")).finalAmount)) ∧
    (∀ (store : Store) (user id : Nat) (env : BookmarkEnv) (b : Bookmark),
      findOne (fun x => x.id = id ∧ x.userId = user) store = some b →
      (∃ msg, getLiveExchangeRate env.live b.fromCurrency b.toCurrency = .error msg) →
      refresh store b env =
        updateRate store b (mockRateSpec env.random b.fromCurrency b.toCurrency)
          env.now env.dbOk ∧
      (jsLength b.fromCurrency = 3 → jsLength b.toCurrency = 3 → 0 ≤ env.random →
        env.dbOk = true →
        updateBookmarkRate store user (some id) env =
          { status := 200,
            body := .bookmark "Bookmark rate updated successfully"
              (viewOf { setRate b (mockRateSpec env.random b.fromCurrency b.toCurrency) with
                        updatedAt := env.now }),
            store := updateFirst (fun x => x.id = b.id)
              (fun x =>
                { x with
                  currentRate := mockRateSpec env.random b.fromCurrency b.toCurrency,
                  trend := (setRate b
                    (mockRateSpec env.random b.fromCurrency b.toCurrency)).trend,
                  updatedAt := env.now }) store })) := by
  constructor
  · intro req env hf ht ha hle hlive
    have h1 : ¬ (req.fromCurrency = "" ∨ req.toCurrency = "" ∨ (!req.amount.truthy) = true) := by
      simp [hf, ht, ha]
    have h2 : ¬ JsNum.le (toNumber req.amount) (.fin 0) = true := by simp [hle]
    rw [convertCurrency_accepted req env h1 h2, resolveRate_of_error _ _ _ _ hlive]
    refine ⟨rfl, rfl, ?_⟩
    intro e he
    cases hu : req.user with
    | none => rw [hu] at he; cases he
    | some u =>
      rw [hu] at he
      simp only at he
      split_ifs at he <;> cases he <;> simp
  · intro store user id env b hfind hlive
    have hr := refresh_of_error store b env hlive
    refine ⟨hr, ?_⟩
    intro hf ht h0 hdb
    have hv := validBookmark_setRate b _ hf ht (mockRateSpec_pos env.random b.fromCurrency b.toCurrency h0).le
    simp only [updateBookmarkRate, hfind, hr, updateRate, saveLoaded, hv, hdb]
    simp
    rfl

/-- C7 at a conversion from USD to INR and at the example bookmark 3, live source down. -/
theorem C7_live_failure_uses_mock_witness :
    (convertCurrency
      { fromCurrency := "USD", toCurrency := "INR", amount := .num (.fin 100),
        feeType := none, saveHistory := .undefined, user := none }
      { live := none, random := 0, dbOk := true }).status = 200 ∧
    (updateBookmarkRate exampleStore 1 (some 3) (exampleEnv 1)).status = 200 :=
  ⟨(C7_live_failure_uses_mock.1
      { fromCurrency := "USD", toCurrency := "INR", amount := .num (.fin 100),
        feeType := none, saveHistory := .undefined, user := none }
      { live := none, random := 0, dbOk := true }
      (by decide) (by decide) (by decide) (by decide) ⟨_, rfl⟩).1,
    by
      rw [(C7_live_failure_uses_mock.2 exampleStore 1 3 (exampleEnv 1)
        { id := 3, userId := 1, fromCurrency := "USD", toCurrency := "INR",
          currentRate := 80, trend := .neutral, createdAt := 12, updatedAt := 12 }
        rfl ⟨_, rfl⟩).2 (by decide) (by decide) (le_refl _) rfl]⟩

/-- C8: for an owner with at least one bookmark and any pattern of live-fetch and write
failures, `updateAllBookmarkRates` answers 200 with one result per bookmark, in the order
of the bookmarks, `totalCount` the number of bookmarks and `updatedCount` the number of
results flagged as updated. A bookmark whose live fetch fails is refreshed with the mock
rate of its pair and flagged as updated (given a valid record and an accepted write), also
in the store; a bookmark whose write fails gets a result flagged as not updated, and the
bookmarks after it are processed all the same. -/
theorem C8_updateAll_results (store : Store) (user : Nat) (env : Nat → BookmarkEnv)
    (hne : store.filter (fun b => b.userId = user) ≠ []) :
    ∃ updatedCount results,
      (updateAllBookmarkRates store user env).status = 200 ∧
      (updateAllBookmarkRates store user env).body =
        .summary
          ("Updated " ++ toString updatedCount ++ " out of " ++
            toString (store.filter (fun b => b.userId = user)).length ++ " bookmarks")
          updatedCount (store.filter (fun b => b.userId = user)).length results ∧
      results.length = (store.filter (fun b => b.userId = user)).length ∧
      results.map (fun r => (r.id, r.fromCurrency, r.toCurrency)) =
        (store.filter (fun b => b.userId = user)).map
          (fun b => (b.id, b.fromCurrency, b.toCurrency)) ∧
      updatedCount = results.countP (fun r => r.updated) ∧
      (∀ k b, (store.filter (fun b => b.userId = user))[k]? = some b →
        (∃ msg, getLiveExchangeRate (env k).live b.fromCurrency b.toCurrency = .error msg) →
        jsLength b.fromCurrency = 3 → jsLength b.toCurrency = 3 → 0 ≤ (env k).random →
        (env k).dbOk = true →
        results[k]? = some
          { id := b.id, fromCurrency := b.fromCurrency, toCurrency := b.toCurrency,
            rate := some (JsNum.toFixed 4
              (.fin (mockRateSpec (env k).random b.fromCurrency b.toCurrency))),
            trend := some
              (setRate b (mockRateSpec (env k).random b.fromCurrency b.toCurrency)).trend,
            updated := true, error := none } ∧
        ((store.map (fun x => x.id)).Nodup →
          (updateAllBookmarkRates store user env).store.find? (fun x => x.id = b.id) =
            some { b with
              currentRate := mockRateSpec (env k).random b.fromCurrency b.toCurrency,
              trend :=
                (setRate b (mockRateSpec (env k).random b.fromCurrency b.toCurrency)).trend,
              updatedAt := (env k).now })) ∧
      (∀ k b, (store.filter (fun b => b.userId = user))[k]? = some b →
        (env k).dbOk = false →
        ∃ msg, results[k]? = some
          { id := b.id, fromCurrency := b.fromCurrency, toCurrency := b.toCurrency,
            rate := none, trend := none, updated := false, error := some msg }) := by
  have hlen : ¬ (store.filter (fun b => b.userId = user)).length = 0 := by
    simpa [List.length_eq_zero] using hne
  obtain ⟨hres, hcount⟩ := refreshLoop_eq env 0 (store.filter (fun b => b.userId = user))
    { store := store, updatedCount := 0, results := [] }
  obtain ⟨hl, hk⟩ := loopEntries_keys env 0 (store.filter (fun b => b.userId = user))
  simp only [List.nil_append, Nat.zero_add] at hres hcount
  refine ⟨(loopEntries env 0 (store.filter (fun b => b.userId = user))).countP
      (fun r => r.updated),
    loopEntries env 0 (store.filter (fun b => b.userId = user)), ?_, ?_,
    hl, hk, rfl, ?_, ?_⟩
  · unfold updateAllBookmarkRates
    simp only [if_neg hlen]
  · unfold updateAllBookmarkRates
    simp only [if_neg hlen, hres, hcount]
  · intro k b hb hlive hf ht h0 hdb
    have hok := refresh_mock_ok b (env k) hlive hf ht h0 hdb
    constructor
    · rw [loopEntries_get env 0 _ k b hb, Nat.zero_add, hok []]
      rfl
    · intro hnd
      have hmem : b ∈ store := (List.mem_filter.1 (List.getElem?_mem hb)).1
      have hnd2 : ((store.filter (fun b => b.userId = user)).map (fun x => x.id)).Nodup :=
        hnd.sublist ((List.filter_sublist _).map _)
      have := refreshLoop_find_same env 0 _ { store := store, updatedCount := 0, results := [] }
        k b (mockRateSpec (env k).random b.fromCurrency b.toCurrency) hb hnd2
        (by rw [Nat.zero_add]; exact hok)
      unfold updateAllBookmarkRates
      simp only [if_neg hlen]
      rw [this, Nat.zero_add, find_of_mem store b hmem hnd]
      rfl
  · intro k b hb hdb
    rw [loopEntries_get env 0 _ k b hb, Nat.zero_add]
    obtain ⟨msg, hm⟩ := refresh_error_of_db b (env k) hdb
    exact ⟨msg, by rw [hm []]; rfl⟩

/-- C8 on the example store: three bookmarks of owner 1, the second fetch fails; three
results, the second from the mock rate, and an updated count of 3. -/
theorem C8_updateAll_results_witness :
    ∃ updatedCount results,
      (updateAllBookmarkRates exampleStore 1 exampleEnv).body =
        .summary
          ("Updated " ++ toString updatedCount ++ " out of " ++ toString 3 ++ " bookmarks")
          updatedCount 3 results ∧
      results.length = 3 ∧
      results[1]? = some
        { id := 3, fromCurrency := "USD", toCurrency := "INR",
          rate := some (JsNum.toFixed 4 (.fin (mockRateSpec 0 "USD" "INR"))),
          trend := some (setRate
            { id := 3, userId := 1, fromCurrency := "USD", toCurrency := "INR",
              currentRate := 80, trend := .neutral, createdAt := 12, updatedAt := 12 }
            (mockRateSpec 0 "USD" "INR")).trend,
          updated := true, error := none } ∧
      (updateAllBookmarkRates exampleStore 1 exampleEnv).body =
        .summary "Updated 3 out of 3 bookmarks" 3 3
          [ { id := 1, fromCurrency := "USD", toCurrency := "EUR", rate := some (.fin 0.95),
              trend := some .up, updated := true, error := none },
            { id := 3, fromCurrency := "USD", toCurrency := "INR",
              rate := some (.fin 83.25), trend := some .up, updated := true,
              error := none },
            { id := 4, fromCurrency := "GBP", toCurrency := "USD",
              rate := some (.fin 1.27), trend := some .neutral, updated := true,
              error := none } ] := by
  obtain ⟨uc, rs, -, h2, h3, -, -, h6, -⟩ :=
    C8_updateAll_results exampleStore 1 exampleEnv (by decide)
  exact ⟨uc, rs, h2, h3,
    (h6 1 { id := 3, userId := 1, fromCurrency := "USD", toCurrency := "INR",
            currentRate := 80, trend := .neutral, createdAt := 12, updatedAt := 12 }
      rfl ⟨_, rfl⟩ (by decide) (by decide) (le_refl _) rfl).1, updateAll_example⟩

/-- C9, evaluated on an empty store at the request with codes `usd` and `USD`: the two
strings differ, so the same-currency guard lets the request pass, and a bookmark from USD
to USD is created with status 201. -/
theorem C9_case_variant_pair_created :
    addBookmark [] 1 "usd" "USD"
      { live := some { rates := some [("USD", 1), ("INR", 83.25)], date := "2025-06-01" },
        random := 0, now := 100, dbOk := true, freshId := 1 } =
      { status := 201,
        body := .bookmark "Currency pair bookmarked successfully"
          { id := 1, fromCurrency := "USD", toCurrency := "USD", rate := .fin 1,
            trend := .neutral },
        store :=
          [ { id := 1, userId := 1, fromCurrency := "USD", toCurrency := "USD",
              currentRate := 1, trend := .neutral, createdAt := 100, updatedAt := 100 } ] } := by
  have hr : resolveRate
      (some { rates := some [("USD", 1), ("INR", 83.25)], date := "2025-06-01" }) 0
      "usd" "USD" = (.num (.fin 1), [.live "usd" "USD"]) := by
    with_unfolding_all rfl
  have hu : toUpperCase (toUpperCase "usd") = "USD" ∧ toUpperCase (toUpperCase "USD") = "USD" := by
    decide
  have hl : jsLength "USD" = 3 := by decide
  have hfix : JsNum.toFixed 4 (.fin 1) = .fin 1 := by
    have := toFixed_fixed 4 10000 (by norm_num)
    norm_num at this ⊢
    exact this
  have h1 : ¬ ("usd" = "" ∨ "USD" = "") := by decide
  have h2 : ¬ ("usd" = "USD") := by decide
  simp only [addBookmark, if_neg h1, if_neg h2, hr, castRate, hu, findOne, List.find?_nil,
    Option.isSome_none, validBookmark, hl, viewOf, hfix, List.any_nil, List.nil_append]
  norm_num

/-- C10: on a store where no two bookmarks share owner and pair, every operation
(`addBookmark`, `updateBookmarkRate`, `updateAllBookmarkRates`, `removeBookmark`) leaves a
store with the same property. `addBookmark` for an owner and upper-cased pair already in
the store leaves the store unchanged, answering 409 when the request passes the two input
guards; a rate refresh keeps every record in place, with its identifier, owner, pair and
creation instant, and adds none. -/
theorem C10_unique_pairs_preserved (store : Store) (h : uniquePairs store) :
    (∀ user f t env, uniquePairs (addBookmark store user f t env).store) ∧
    (∀ user id env, uniquePairs (updateBookmarkRate store user id env).store) ∧
    (∀ user env, uniquePairs (updateAllBookmarkRates store user env).store) ∧
    (∀ user id, uniquePairs (removeBookmark store user id).store) ∧
    (∀ user f t env b, b ∈ store → b.userId = user → b.fromCurrency = toUpperCase f →
      b.toCurrency = toUpperCase t →
      (addBookmark store user f t env).store = store ∧
      (f ≠ "" → t ≠ "" → f ≠ t →
        addBookmark store user f t env =
          { status := 409, body := .error "Currency pair already bookmarked",
            store := store })) ∧
    (∀ user id env,
      (updateBookmarkRate store user id env).store.map identityOf = store.map identityOf) ∧
    (∀ user env,
      (updateAllBookmarkRates store user env).store.map identityOf =
        store.map identityOf) := by
  refine ⟨?_, ?_, ?_, ?_, ?_, updateBookmarkRate_identity store,
    updateAllBookmarkRates_identity store⟩
  · intro user f t env
    rcases addBookmark_store store user f t env with he | ⟨b, he, -, -, -, -, -, hb⟩
    · rw [he]
      exact h
    · rw [he]
      unfold uniquePairs at h ⊢
      rw [List.map_append, List.nodup_append]
      refine ⟨h, List.nodup_singleton _, ?_⟩
      intro a ha hb2
      simp only [List.map_cons, List.map_nil, List.mem_singleton] at hb2
      subst hb2
      exact hb ha
  · intro user id env
    exact uniquePairs_of_identity store _ (updateBookmarkRate_identity store user id env) h
  · intro user env
    exact uniquePairs_of_identity store _ (updateAllBookmarkRates_identity store user env) h
  · intro user id
    unfold removeBookmark
    cases id with
    | none => exact h
    | some i =>
      simp only
      cases findOne (fun b => b.id = i ∧ b.userId = user) store with
      | none => exact h
      | some b =>
        simp only
        unfold uniquePairs at h ⊢
        exact h.sublist ((deleteFirst_sublist _ store).map _)
  · intro user f t env b hb hu hf ht
    have h3 : (findOne (fun b => b.userId = user ∧ b.fromCurrency = toUpperCase f ∧
        b.toCurrency = toUpperCase t) store).isSome = true := by
      unfold findOne
      rw [List.find?_isSome]
      exact ⟨b, hb, by simp [hu, hf, ht]⟩
    constructor
    · by_cases h1 : f = "" ∨ t = ""
      · simp only [addBookmark, if_pos h1]
      by_cases h2 : f = t
      · simp only [addBookmark, if_neg h1, if_pos h2]
      simp only [addBookmark, if_neg h1, if_neg h2, if_pos h3]
    · intro hf0 ht0 hft
      have h1 : ¬ (f = "" ∨ t = "") := by simp [hf0, ht0]
      simp only [addBookmark, if_neg h1, if_neg hft, if_pos h3]

/-- C10 on the example store: the pair USD to EUR of owner 1 is already there. -/
theorem C10_unique_pairs_preserved_witness :
    uniquePairs exampleStore ∧
    uniquePairs (addBookmark exampleStore 1 "eur" "usd" (exampleEnv 0)).store ∧
    uniquePairs (updateAllBookmarkRates exampleStore 1 exampleEnv).store ∧
    addBookmark exampleStore 1 "usd" "eur" (exampleEnv 0) =
      { status := 409, body := .error "Currency pair already bookmarked",
        store := exampleStore } :=
  have hu : uniquePairs exampleStore := by decide
  have h := C10_unique_pairs_preserved exampleStore hu
  ⟨hu, h.1 1 "eur" "usd" (exampleEnv 0), h.2.2.1 1 exampleEnv,
    (h.2.2.2.2.1 1 "usd" "eur" (exampleEnv 0)
      { id := 1, userId := 1, fromCurrency := "USD", toCurrency := "EUR",
        currentRate := 0.9, trend := .neutral, createdAt := 10, updatedAt := 10 }
      (by simp [exampleStore]) rfl (by decide) (by decide)).2
      (by decide) (by decide) (by decide)⟩

/-- C11: when the reply maps distinct valid date strings, denoting distinct dates, to rate
tables holding a numeric rate for `toCurrency`, `getHistoricalExchangeRates` succeeds with a
permutation of the entries of the mapping, each with the rate of the mapping for
`toCurrency`, one entry per date, strictly ascending by date. -/
theorem C11_historical_series_sorted (dateParse : String → Option Int)
    (entries : List (String × List (String × JsVal))) (f t s e : String)
    (hvalid : ∀ entry ∈ entries, (dateParse entry.1).isSome = true)
    (hkeys : (entries.map Prod.fst).Nodup)
    (hdistinct : ∀ a ∈ entries.map Prod.fst, ∀ b ∈ entries.map Prod.fst,
      dateParse a = dateParse b → a = b)
    (hrate : ∀ entry ∈ entries, ∃ q : ℚ, getProperty entry.2 t = .num (.fin q)) :
    ∃ d : HistoricalData,
      getHistoricalExchangeRates dateParse (some { rates := some entries }) f t s e = .ok d ∧
      d.data.Perm (entries.map (fun entry =>
        ({ date := entry.1, rate := toNumber (getProperty entry.2 t) } : HistoricalPoint))) ∧
      d.data.length = entries.length ∧
      (d.data.map (fun p => p.date)).Perm (entries.map Prod.fst) ∧
      d.data.Pairwise (fun a b => ∃ ta tb : Int,
        dateParse a.date = some ta ∧ dateParse b.date = some tb ∧ ta < tb) := by
  have hmap : entries.map (historicalPoint t) = entries.map (fun entry =>
      ({ date := entry.1, rate := toNumber (getProperty entry.2 t) } : HistoricalPoint)) := by
    apply List.map_congr_left
    intro entry he
    obtain ⟨q, hq⟩ := hrate entry he
    by_cases h0 : q = 0
    · simp [historicalPoint, hq, h0, JsNum.truthy]
    · simp [historicalPoint, hq, h0, JsNum.truthy]
  have hperm := List.perm_insertionSort (notAfter dateParse) (entries.map (historicalPoint t))
  have hdates : (entries.map (historicalPoint t)).map (fun p => p.date) =
      entries.map Prod.fst := by
    rw [List.map_map]
    apply List.map_congr_left
    intro entry _
    rfl
  have hv : ∀ p ∈ entries.map (historicalPoint t), (dateParse p.date).isSome = true := by
    intro p hp
    obtain ⟨entry, he, rfl⟩ := List.mem_map.1 hp
    exact hvalid entry he
  have hsorted := insertionSort_notAfter_sorted dateParse _ hv
  have hpd : (((entries.map (historicalPoint t)).insertionSort (notAfter dateParse)).map
      (fun p => p.date)).Perm (entries.map Prod.fst) := by
    rw [← hdates]
    exact hperm.map _
  have hnd : (((entries.map (historicalPoint t)).insertionSort (notAfter dateParse)).map
      (fun p => p.date)).Nodup := hpd.nodup_iff.2 hkeys
  refine ⟨_, getHistoricalExchangeRates_ok dateParse entries f t s e, ?_, ?_, hpd, ?_⟩
  · rw [← hmap]
    exact hperm
  · simp
  · have hne := List.pairwise_map.1 hnd
    have hmem : ∀ p ∈ (entries.map (historicalPoint t)).insertionSort (notAfter dateParse),
        p.date ∈ entries.map Prod.fst ∧ (dateParse p.date).isSome = true := by
      intro p hp
      have hp2 := hperm.subset hp
      refine ⟨?_, hv p hp2⟩
      rw [← hdates]
      exact List.mem_map_of_mem _ hp2
    have hboth := List.Pairwise.and_mem.1 (hsorted.and hne)
    refine hboth.imp ?_
    rintro a b ⟨ha, hb, hle, hneq⟩
    obtain ⟨hak, hav⟩ := hmem a ha
    obtain ⟨hbk, hbv⟩ := hmem b hb
    obtain ⟨ta, hta⟩ := Option.isSome_iff_exists.1 hav
    obtain ⟨tb, htb⟩ := Option.isSome_iff_exists.1 hbv
    refine ⟨ta, tb, hta, htb, ?_⟩
    have hle2 : ta ≤ tb := by simpa [timeOf, hta, htb] using hle
    rcases lt_or_eq_of_le hle2 with h | h
    · exact h
    · exfalso
      apply hneq
      apply hdistinct _ hak _ hbk
      rw [hta, htb, h]

/-- Witness for C11: three days of June 2025, given out of order, come back in order. -/
theorem C11_historical_series_sorted_witness :
    parseIsoDate "2025-06-03" = some (20242 * msPerDay) ∧
    parseIsoDate "2025-06-01" = some (20240 * msPerDay) ∧
    parseIsoDate "2025-06-02" = some (20241 * msPerDay) ∧
    getHistoricalExchangeRates parseIsoDate
      (some { rates := some [("2025-06-03", [("INR", .num (.fin 85))]),
                             ("2025-06-01", [("INR", .num (.fin 83))]),
                             ("2025-06-02", [("INR", .num (.fin 84))])] })
      "USD" "INR" "2025-06-01" "2025-06-03" =
      .ok { fromCurrency := "USD", toCurrency := "INR",
            data := [{ date := "2025-06-01", rate := .fin 83 },
                     { date := "2025-06-02", rate := .fin 84 },
                     { date := "2025-06-03", rate := .fin 85 }],
            source := "frankfurter" } ∧
    ∃ d : HistoricalData,
      getHistoricalExchangeRates parseIsoDate
        (some { rates := some [("2025-06-03", [("INR", .num (.fin 85))]),
                               ("2025-06-01", [("INR", .num (.fin 83))]),
                               ("2025-06-02", [("INR", .num (.fin 84))])] })
        "USD" "INR" "2025-06-01" "2025-06-03" = .ok d ∧
      d.data.length = 3 ∧
      d.data.Pairwise (fun a b => ∃ ta tb : Int,
        parseIsoDate a.date = some ta ∧ parseIsoDate b.date = some tb ∧ ta < tb) := by
  have h1 : parseIsoDate "2025-06-03" = some (20242 * msPerDay) := by decide
  have h2 : parseIsoDate "2025-06-01" = some (20240 * msPerDay) := by decide
  have h3 : parseIsoDate "2025-06-02" = some (20241 * msPerDay) := by decide
  obtain ⟨d, hd, -, hlen, -, hsorted⟩ := C11_historical_series_sorted parseIsoDate
    [("2025-06-03", [("INR", .num (.fin 85))]), ("2025-06-01", [("INR", .num (.fin 83))]),
     ("2025-06-02", [("INR", .num (.fin 84))])] "USD" "INR" "2025-06-01" "2025-06-03"
    (by simp [h1, h2, h3]) (by decide)
    (parseIsoDate_distinct _ (by simp [h1, h2, h3]))
    (by
      intro entry he
      simp only [List.mem_cons, List.mem_singleton, List.not_mem_nil, or_false] at he
      rcases he with rfl | rfl | rfl
      · exact ⟨85, by decide⟩
      · exact ⟨83, by decide⟩
      · exact ⟨84, by decide⟩)
  refine ⟨h1, h2, h3, ?_, d, hd, hlen, hsorted⟩
  rw [getHistoricalExchangeRates_ok]
  have e1 : historicalPoint "INR" ("2025-06-03", [("INR", .num (.fin 85))]) =
      { date := "2025-06-03", rate := .fin 85 } := by
    simp [historicalPoint, show getProperty [("INR", JsVal.num (.fin 85))] "INR" =
      .num (.fin 85) from by decide, JsNum.truthy]
  have e2 : historicalPoint "INR" ("2025-06-01", [("INR", .num (.fin 83))]) =
      { date := "2025-06-01", rate := .fin 83 } := by
    simp [historicalPoint, show getProperty [("INR", JsVal.num (.fin 83))] "INR" =
      .num (.fin 83) from by decide, JsNum.truthy]
  have e3 : historicalPoint "INR" ("2025-06-02", [("INR", .num (.fin 84))]) =
      { date := "2025-06-02", rate := .fin 84 } := by
    simp [historicalPoint, show getProperty [("INR", JsVal.num (.fin 84))] "INR" =
      .num (.fin 84) from by decide, JsNum.truthy]
  have n1 : notAfter parseIsoDate { date := "2025-06-01", rate := .fin 83 }
      { date := "2025-06-02", rate := .fin 84 } :=
    (notAfter_iff parseIsoDate _ _ _ _ h2 h3).2 (by decide)
  have n2 : ¬ notAfter parseIsoDate { date := "2025-06-03", rate := .fin 85 }
      { date := "2025-06-01", rate := .fin 83 } := fun h =>
    absurd ((notAfter_iff parseIsoDate _ _ _ _ h1 h2).1 h) (by decide)
  have n3 : ¬ notAfter parseIsoDate { date := "2025-06-03", rate := .fin 85 }
      { date := "2025-06-02", rate := .fin 84 } := fun h =>
    absurd ((notAfter_iff parseIsoDate _ _ _ _ h1 h3).1 h) (by decide)
  simp [e1, e2, e3, List.insertionSort, List.orderedInsert, n1, n2, n3]

/-- C12, as stated, fails on a reply whose entry for 1 June lacks the rate for INR: the call
succeeds and the series holds that day with the rate 0. -/
theorem C12_missing_rate_counterexample :
    getProperty [("EUR", JsVal.num (.fin 0.9))] "INR" = .undefined ∧
    getHistoricalExchangeRates parseIsoDate
      (some { rates := some [("2025-06-01", [("EUR", .num (.fin 0.9))]),
                             ("2025-06-02", [("INR", .num (.fin 83))])] })
      "USD" "INR" "2025-06-01" "2025-06-02" =
      .ok { fromCurrency := "USD", toCurrency := "INR",
            data := [{ date := "2025-06-01", rate := .fin 0 },
                     { date := "2025-06-02", rate := .fin 83 }],
            source := "frankfurter" } := by
  have h1 : parseIsoDate "2025-06-01" = some (20240 * msPerDay) := by decide
  have h2 : parseIsoDate "2025-06-02" = some (20241 * msPerDay) := by decide
  have g1 : getProperty [("EUR", JsVal.num (.fin 0.9))] "INR" = .undefined := by decide
  have e1 : historicalPoint "INR" ("2025-06-01", [("EUR", .num (.fin 0.9))]) =
      { date := "2025-06-01", rate := .fin 0 } := by
    simp [historicalPoint, g1, parseFloat, JsNum.truthy]
  have e2 : historicalPoint "INR" ("2025-06-02", [("INR", .num (.fin 83))]) =
      { date := "2025-06-02", rate := .fin 83 } := by
    simp [historicalPoint, show getProperty [("INR", JsVal.num (.fin 83))] "INR" =
      .num (.fin 83) from by decide, JsNum.truthy]
  have n1 : notAfter parseIsoDate { date := "2025-06-01", rate := .fin 0 }
      { date := "2025-06-02", rate := .fin 83 } :=
    (notAfter_iff parseIsoDate _ _ _ _ h1 h2).2 (by decide)
  refine ⟨g1, ?_⟩
  rw [getHistoricalExchangeRates_ok]
  simp [e1, e2, List.insertionSort, List.orderedInsert, n1]

/-- C12, amended: `getHistoricalExchangeRates` fails exactly when the request throws or the
reply carries no rates object; otherwise it succeeds with one point per date of the reply,
and a date whose table lacks a rate for `toCurrency`, or holds one that does not parse to a
number other than 0, appears with the rate 0. -/
theorem C12_missing_rate_becomes_zero (dateParse : String → Option Int)
    (reply : Option HistoricalResponse) (entries : List (String × List (String × JsVal)))
    (f t s e : String) :
    ((∃ msg, getHistoricalExchangeRates dateParse reply f t s e = .error msg) ↔
      (reply = none ∨ ∃ data, reply = some data ∧ data.rates = none)) ∧
    ∃ d : HistoricalData,
      getHistoricalExchangeRates dateParse (some { rates := some entries }) f t s e = .ok d ∧
      d.data.Perm (entries.map (historicalPoint t)) ∧
      d.data.length = entries.length ∧
      ∀ entry ∈ entries,
        (parseFloat (getProperty entry.2 t)).truthy = false →
        ({ date := entry.1, rate := .fin 0 } : HistoricalPoint) ∈ d.data := by
  constructor
  · cases reply with
    | none => simp [getHistoricalExchangeRates]
    | some data =>
      cases hr : data.rates with
      | none => simp [getHistoricalExchangeRates, hr]
      | some entries => simp [getHistoricalExchangeRates, hr]
  · have hperm := List.perm_insertionSort (notAfter dateParse) (entries.map (historicalPoint t))
    refine ⟨_, getHistoricalExchangeRates_ok dateParse entries f t s e, hperm, by simp, ?_⟩
    intro entry he hfalsy
    apply hperm.symm.subset
    refine List.mem_map.2 ⟨entry, he, ?_⟩
    simp [historicalPoint, hfalsy]

/-- Witness for C12: the reply whose entry for 1 June lacks the rate for INR gives a series
of two points, the one of 1 June with the rate 0. -/
theorem C12_missing_rate_becomes_zero_witness :
    (parseFloat (getProperty [("EUR", JsVal.num (.fin 0.9))] "INR")).truthy = false ∧
    ∃ d : HistoricalData,
      getHistoricalExchangeRates parseIsoDate
        (some { rates := some [("2025-06-01", [("EUR", .num (.fin 0.9))]),
                               ("2025-06-02", [("INR", .num (.fin 83))])] })
        "USD" "INR" "2025-06-01" "2025-06-02" = .ok d ∧
      d.data.length = 2 ∧
      ({ date := "2025-06-01", rate := .fin 0 } : HistoricalPoint) ∈ d.data := by
  have hfalsy : (parseFloat (getProperty [("EUR", JsVal.num (.fin 0.9))] "INR")).truthy =
      false := by decide
  obtain ⟨-, d, hd, -, hlen, hzero⟩ := C12_missing_rate_becomes_zero parseIsoDate none
    [("2025-06-01", [("EUR", .num (.fin 0.9))]), ("2025-06-02", [("INR", .num (.fin 83))])]
    "USD" "INR" "2025-06-01" "2025-06-02"
  exact ⟨hfalsy, d, hd, hlen, hzero ("2025-06-01", [("EUR", .num (.fin 0.9))]) (by simp) hfalsy⟩

/-- C13: with all four parameters present and both dates parsed, `getHistoricalData`
accepts the request (status 200) exactly when `start ≤ end` and
`ceil((end - start) / one day) ≤ 365`, that is when the span is at most 365 days; a start
after the end is answered 400 `Start date cannot be after end date`, a longer range 400
`Date range cannot exceed 365 days`. -/
theorem C13_historical_validation (zone : TimeZone) (rnd : ℚ → JsNum)
    (dateParse : String → Option Int) (reply : Option HistoricalResponse) (random : Nat → ℚ)
    (fromCurrency toCurrency startDate endDate : String) (start stop : Int)
    (hf : fromCurrency ≠ "") (ht : toCurrency ≠ "") (hs : startDate ≠ "") (he : endDate ≠ "")
    (hps : dateParse startDate = some start) (hpe : dateParse endDate = some stop) :
    ((getHistoricalData zone rnd dateParse reply random fromCurrency toCurrency startDate
        endDate).status = 200 ↔
      (start ≤ stop ∧ ceilDiv (stop - start) msPerDay ≤ 365)) ∧
    ((start ≤ stop ∧ ceilDiv (stop - start) msPerDay ≤ 365) ↔
      (start ≤ stop ∧ stop - start ≤ 365 * msPerDay)) ∧
    (start > stop →
      getHistoricalData zone rnd dateParse reply random fromCurrency toCurrency startDate endDate =
        { status := 400, body := .error "Start date cannot be after end date" }) ∧
    (start ≤ stop → ceilDiv (stop - start) msPerDay > 365 →
      getHistoricalData zone rnd dateParse reply random fromCurrency toCurrency startDate endDate =
        { status := 400, body := .error "Date range cannot exceed 365 days" }) := by
  have h1 : ¬ (fromCurrency = "" ∨ toCurrency = "" ∨ startDate = "" ∨ endDate = "") := by
    simp [hf, ht, hs, he]
  have hbad : start > stop →
      getHistoricalData zone rnd dateParse reply random fromCurrency toCurrency startDate endDate =
        { status := 400, body := .error "Start date cannot be after end date" } := by
    intro h
    simp only [getHistoricalData, if_neg h1, hps, hpe, if_pos h]
  have hlong : start ≤ stop → ceilDiv (stop - start) msPerDay > 365 →
      getHistoricalData zone rnd dateParse reply random fromCurrency toCurrency startDate endDate =
        { status := 400, body := .error "Date range cannot exceed 365 days" } := by
    intro h h2
    simp only [getHistoricalData, if_neg h1, hps, hpe, if_neg (not_lt.2 h), if_pos h2]
  refine ⟨?_, ?_, hbad, hlong⟩
  · constructor
    · intro h200
      by_cases h : start > stop
      · rw [hbad h] at h200
        simp at h200
      · by_cases h2 : ceilDiv (stop - start) msPerDay > 365
        · rw [hlong (not_lt.1 h) h2] at h200
          simp at h200
        · exact ⟨not_lt.1 h, not_lt.1 h2⟩
    · rintro ⟨h, h2⟩
      simp only [getHistoricalData, if_neg h1, hps, hpe, if_neg (not_lt.2 h),
        if_neg (not_lt.2 h2)]
      cases getHistoricalExchangeRates dateParse reply fromCurrency toCurrency startDate
        endDate <;> rfl
  · rw [ceilDiv_le_iff]

/-- C13 on a range of exactly 365 days (accepted) and of 366 days (refused). -/
theorem C13_historical_validation_witness :
    (getHistoricalData utc binary64 parseIsoDate none (fun _ => 0) "USD" "INR" "2024-06-01"
      "2025-06-01").status = 200 ∧
    getHistoricalData utc binary64 parseIsoDate none (fun _ => 0) "USD" "INR" "2024-06-01"
      "2025-06-02" = { status := 400, body := .error "Date range cannot exceed 365 days" } ∧
    getHistoricalData utc binary64 parseIsoDate none (fun _ => 0) "USD" "INR" "2025-06-02"
      "2025-06-01" = { status := 400, body := .error "Start date cannot be after end date" } :=
  ⟨(C13_historical_validation utc binary64 parseIsoDate none (fun _ => 0) "USD" "INR"
      "2024-06-01" "2025-06-01" (19875 * msPerDay) (20240 * msPerDay)
      (by decide) (by decide) (by decide) (by decide) (by decide) (by decide)).1.2 (by decide),
    (C13_historical_validation utc binary64 parseIsoDate none (fun _ => 0) "USD" "INR"
      "2024-06-01" "2025-06-02" (19875 * msPerDay) (20241 * msPerDay)
      (by decide) (by decide) (by decide) (by decide) (by decide) (by decide)).2.2.2
      (by decide) (by decide),
    (C13_historical_validation utc binary64 parseIsoDate none (fun _ => 0) "USD" "INR"
      "2025-06-02" "2025-06-01" (20241 * msPerDay) (20240 * msPerDay)
      (by decide) (by decide) (by decide) (by decide) (by decide) (by decide)).2.2.1 (by decide)⟩

/-- C14, evaluated on a server in the zone of New York with the provider down. The dates of
the request are parsed as UTC midnights and the range check counts 24-hour days, but the
loop steps and labels local days. For 1 to 5 June 2025 the five labels are May 31 to Jun 4:
the first lies before the start, and 5 June is missing. For 1 to 5 November 2024, a range
of 5 days (`daysDiff` is 4), the loop yields 4 points, Oct 31 to Nov 3, because the local
day of 3 November has 25 hours. On a server in UTC both ranges give their five days. -/
theorem C14_local_day_stepping :
    parseIsoDate "2025-06-01" = some (20240 * msPerDay) ∧
    parseIsoDate "2025-06-05" = some (20244 * msPerDay) ∧
    parseIsoDate "2024-11-01" = some (20028 * msPerDay) ∧
    parseIsoDate "2024-11-05" = some (20032 * msPerDay) ∧
    (∃ r, getHistoricalData newYork binary64 parseIsoDate none (fun _ => 1 / 2) "USD" "INR"
        "2025-06-01" "2025-06-05" = { status := 200, body := .result r } ∧
      r.labels = ["May 31", "Jun 1", "Jun 2", "Jun 3", "Jun 4"] ∧ r.data.length = 5) ∧
    (∃ r, getHistoricalData newYork binary64 parseIsoDate none (fun _ => 1 / 2) "USD" "INR"
        "2024-11-01" "2024-11-05" = { status := 200, body := .result r } ∧
      r.labels = ["Oct 31", "Nov 1", "Nov 2", "Nov 3"] ∧ r.data.length = 4 ∧
      r.stats.dataPoints = 4) ∧
    ceilDiv (20032 * msPerDay - 20028 * msPerDay) msPerDay = 4 ∧
    (∃ r, getHistoricalData utc binary64 parseIsoDate none (fun _ => 1 / 2) "USD" "INR"
        "2025-06-01" "2025-06-05" = { status := 200, body := .result r } ∧
      r.labels = ["Jun 1", "Jun 2", "Jun 3", "Jun 4", "Jun 5"] ∧ r.data.length = 5) ∧
    (∃ r, getHistoricalData utc binary64 parseIsoDate none (fun _ => 1 / 2) "USD" "INR"
        "2024-11-01" "2024-11-05" = { status := 200, body := .result r } ∧
      r.labels = ["Nov 1", "Nov 2", "Nov 3", "Nov 4", "Nov 5"] ∧ r.data.length = 5) := by
  have p1 : parseIsoDate "2025-06-01" = some (20240 * msPerDay) := by decide
  have p2 : parseIsoDate "2025-06-05" = some (20244 * msPerDay) := by decide
  have p3 : parseIsoDate "2024-11-01" = some (20028 * msPerDay) := by decide
  have p4 : parseIsoDate "2024-11-05" = some (20032 * msPerDay) := by decide
  have hjune := fun zone => getHistoricalData_mock zone binary64 parseIsoDate none
    (fun _ => 1 / 2) "USD" "INR" "2025-06-01" "2025-06-05" _ _ (by decide) (by decide)
    (by decide) (by decide) p1 p2 (by decide) (by decide) ⟨_, rfl⟩
  have hnov := fun zone => getHistoricalData_mock zone binary64 parseIsoDate none
    (fun _ => 1 / 2) "USD" "INR" "2024-11-01" "2024-11-05" _ _ (by decide) (by decide)
    (by decide) (by decide) p3 p4 (by decide) (by decide) ⟨_, rfl⟩
  have sj := generateMockHistoricalData_shape newYork binary64 (fun _ => 1 / 2) "USD" "INR"
    (20240 * msPerDay) (20244 * msPerDay)
  have sn := generateMockHistoricalData_shape newYork binary64 (fun _ => 1 / 2) "USD" "INR"
    (20028 * msPerDay) (20032 * msPerDay)
  have uj := generateMockHistoricalData_shape utc binary64 (fun _ => 1 / 2) "USD" "INR"
    (20240 * msPerDay) (20244 * msPerDay)
  have un := generateMockHistoricalData_shape utc binary64 (fun _ => 1 / 2) "USD" "INR"
    (20028 * msPerDay) (20032 * msPerDay)
  rw [mockInstants_newYork_june] at sj
  rw [mockInstants_newYork_november] at sn
  rw [show utc = fixedZone 0 from rfl,
    mockInstants_fixed 0 _ 5 _ (by decide)] at uj un
  have l1 : (generateMockHistoricalData newYork binary64 (fun _ => 1 / 2) "USD" "INR"
      (20240 * msPerDay) (20244 * msPerDay)).labels =
      ["May 31", "Jun 1", "Jun 2", "Jun 3", "Jun 4"] := by
    rw [sj.2.2]; decide
  have l2 : (generateMockHistoricalData newYork binary64 (fun _ => 1 / 2) "USD" "INR"
      (20028 * msPerDay) (20032 * msPerDay)).labels = ["Oct 31", "Nov 1", "Nov 2", "Nov 3"] := by
    rw [sn.2.2]; decide
  have l3 : (generateMockHistoricalData utc binary64 (fun _ => 1 / 2) "USD" "INR"
      (20240 * msPerDay) (20244 * msPerDay)).labels =
      ["Jun 1", "Jun 2", "Jun 3", "Jun 4", "Jun 5"] := by
    rw [show utc = fixedZone 0 from rfl, uj.2.2]; decide
  have l4 : (generateMockHistoricalData utc binary64 (fun _ => 1 / 2) "USD" "INR"
      (20028 * msPerDay) (20032 * msPerDay)).labels =
      ["Nov 1", "Nov 2", "Nov 3", "Nov 4", "Nov 5"] := by
    rw [show utc = fixedZone 0 from rfl, un.2.2]; decide
  obtain ⟨r1, a1, -, b1, c1, -⟩ := hjune newYork
  obtain ⟨r2, a2, -, b2, c2, d2⟩ := hnov newYork
  obtain ⟨r3, a3, -, b3, c3, -⟩ := hjune utc
  obtain ⟨r4, a4, -, b4, c4, -⟩ := hnov utc
  refine ⟨p1, p2, p3, p4, ⟨r1, a1, b1.trans l1, ?_⟩, ⟨r2, a2, b2.trans l2, ?_, ?_⟩,
    by decide, ⟨r3, a3, b3.trans l3, ?_⟩, ⟨r4, a4, b4.trans l4, ?_⟩⟩
  · rw [c1, sj.1]; rfl
  · rw [c2, sn.1]; rfl
  · rw [d2, sn.2.1]; rfl
  · rw [c3, show utc = fixedZone 0 from rfl, uj.1]; simp
  · rw [c4, show utc = fixedZone 0 from rfl, un.1]; simp

/-- C15, as stated, fails at the unlisted pair INR to EUR: the series is built on the base
rate 1 (the value for the draw one half is 1), while `getMockExchangeRate` gives
`10 * random + 0.1` for that pair, 0.1 for the draw 0; the value 1 is outside
`[0.95 * 0.1, 1.05 * 0.1)`. -/
theorem C15_unlisted_base_counterexample :
    (generateMockHistoricalData utc JsNum.fin (fun _ => 1 / 2) "INR" "EUR" 0 0).data =
      [.fin 1] ∧
    baseRateOf JsNum.fin "INR" "EUR" = .num (.fin 1) ∧
    getMockExchangeRate 0 "INR" "EUR" = .num (.fin 0.1) ∧
    ¬ ((0.95 : ℚ) * 0.1 ≤ 1 ∧ (1 : ℚ) < 1.05 * 0.1) := by
  have hb : baseRateSpec "INR" "EUR" = 1 := rfl
  refine ⟨?_, ?_, ?_, by norm_num⟩
  · rw [show utc = fixedZone 0 from rfl,
      (generateMockHistoricalData_fixed 0 _ _ _ _ _).1, hb]
    have hc : mockCount 0 0 = 1 := by decide
    rw [hc]
    norm_num
  · rw [baseRateOf_eq, hb]
  · rw [getMockExchangeRate_eq]
    have : mockRateSpec 0 "INR" "EUR" = 10 * 0 + 0.1 := rfl
    rw [this]
    norm_num

/-- C15, amended: every value of the mock series is `b * (1 + (r - 0.5) * 0.1)` for the
draw `r` of its day, hence in `[0.95 * b, 1.05 * b)` for a draw in `[0, 1)`, where the base
`b` is the table entry of a listed pair, the reciprocal of the entry of a listed reverse
pair (in both cases the rate `getMockExchangeRate` gives), and the constant 1 for an
unlisted pair. Exact arithmetic, in every time zone. -/
theorem C15_mock_series_jitter (zone : TimeZone) (random : Nat → ℚ) (f t : String)
    (startDate endDate : Int) :
    (generateMockHistoricalData zone JsNum.fin random f t startDate endDate).data =
      (List.range (mockInstants zone endDate startDate).length).map
        (fun k => JsNum.fin (baseRateSpec f t * (1 + (random k - 0.5) * 0.1))) ∧
    (∀ k, 0 ≤ random k → random k < 1 →
      0.95 * baseRateSpec f t ≤ baseRateSpec f t * (1 + (random k - 0.5) * 0.1) ∧
      baseRateSpec f t * (1 + (random k - 0.5) * 0.1) < 1.05 * baseRateSpec f t) ∧
    (∀ v, mockTable.lookup (f, t) = some v →
      baseRateSpec f t = v ∧ ∀ r, getMockExchangeRate r f t = .num (.fin (baseRateSpec f t))) ∧
    (∀ v, mockTable.lookup (f, t) = none → mockTable.lookup (t, f) = some v →
      baseRateSpec f t = 1 / v ∧
      ∀ r, getMockExchangeRate r f t = .num (.fin (baseRateSpec f t))) ∧
    (mockTable.lookup (f, t) = none → mockTable.lookup (t, f) = none →
      baseRateSpec f t = 1) := by
  have hpos := baseRateSpec_pos f t
  refine ⟨(generateMockHistoricalData_series zone random f t startDate endDate).1,
    ?_, ?_, ?_, ?_⟩
  · intro k h0 h1
    constructor <;> nlinarith
  · intro v h
    have hb : baseRateSpec f t = v := by rw [baseRateSpec, h]
    refine ⟨hb, fun r => ?_⟩
    rw [getMockExchangeRate_eq, mockRateSpec, h, hb]
  · intro v h1 h2
    have hb : baseRateSpec f t = 1 / v := by rw [baseRateSpec, h1, h2]
    refine ⟨hb, fun r => ?_⟩
    rw [getMockExchangeRate_eq, mockRateSpec, h1, h2, hb]
  · intro h1 h2
    rw [baseRateSpec, h1, h2]

/-- C15, amended, on USD to INR over one day with the draw one quarter. -/
theorem C15_mock_series_jitter_witness :
    (0.95 * baseRateSpec "USD" "INR" ≤
        baseRateSpec "USD" "INR" * (1 + ((1 / 4 : ℚ) - 0.5) * 0.1) ∧
      baseRateSpec "USD" "INR" * (1 + ((1 / 4 : ℚ) - 0.5) * 0.1) <
        1.05 * baseRateSpec "USD" "INR") ∧
    baseRateSpec "USD" "INR" = 83.25 ∧
    getMockExchangeRate 0 "USD" "INR" = .num (.fin (baseRateSpec "USD" "INR")) :=
  have h := C15_mock_series_jitter utc (fun _ => 1 / 4) "USD" "INR" 0 0
  ⟨h.2.1 0 (by norm_num) (by norm_num), (h.2.2.1 83.25 rfl).1, (h.2.2.1 83.25 rfl).2 0⟩

/-- C16, as stated, fails on a conversion of 1.204 USD at the rate 1 with the bank fee: the
response carries `convertedAmount` 1.2, `feeAmount` 0.04 and `finalAmount` 1.17, and
`1.2 - 0.04` is 1.16. -/
theorem C16_rounded_result_counterexample :
    (convertCurrency
      { fromCurrency := "USD", toCurrency := "EUR", amount := .num (.fin 1.204),
        feeType := some "bank", saveHistory := .undefined, user := none }
      { live := some { rates := some [("EUR", 1)], date := "2025-06-01" },
        random := 0, dbOk := true }).body =
      .result
        { fromCurrency := "USD", toCurrency := "EUR", amount := .fin 1.204,
          rate := .num (.fin 1), convertedAmount := .fin 1.2, feeType := "bank",
          feePercentage := .num (.fin 3), feeAmount := .fin 0.04, finalAmount := .fin 1.17 } ∧
    JsNum.fin 1.17 ≠ JsNum.sub (.fin 1.2) (.fin 0.04) := by
  have hr : resolveRate (some { rates := some [("EUR", 1)], date := "2025-06-01" }) 0
      "USD" "EUR" = (.num (.fin 1), [.live "USD" "EUR"]) := by
    with_unfolding_all rfl
  have hu : toUpperCase "USD" = "USD" ∧ toUpperCase "EUR" = "EUR" := by decide
  have hc := calculate_listed 1.204 1 3 "bank" (by simp [feeSchedule])
  have f1 : JsNum.toFixed 2 (.fin (1.204 * 1)) = .fin 1.2 := by
    have := toFixed_of_floor 2 (1.204 * 1) 120 (by norm_num) (by norm_num) (by norm_num)
      (by norm_num)
    rw [this]
    norm_num
  have f2 : JsNum.toFixed 2 (.fin (1.204 * 1 * 3 / 100)) = .fin 0.04 := by
    have := toFixed_of_floor 2 (1.204 * 1 * 3 / 100) 4 (by norm_num) (by norm_num)
      (by norm_num) (by norm_num)
    rw [this]
    norm_num
  have f3 : JsNum.toFixed 2 (.fin (1.204 * 1 * (1 - 3 / 100))) = .fin 1.17 := by
    have := toFixed_of_floor 2 (1.204 * 1 * (1 - 3 / 100)) 117 (by norm_num) (by norm_num)
      (by norm_num) (by norm_num)
    rw [this]
    norm_num
  constructor
  · rw [convertCurrency_accepted _ _ (by with_unfolding_all decide)
      (by with_unfolding_all decide)]
    simp only [hr, hu, Option.getD_some, hc, f1, f2, f3, parseFloat_num]
  · simp only [JsNum.sub_fin, ne_eq, JsNum.fin.injEq]
    norm_num

/-- C16, amended: for an amount and a rate above zero and a fee type whose percentage is a
number `p` (the five listed types and every unknown type defaulted to 0), the values
`convertCurrency` computes, and stores, satisfy `finalAmount = convertedAmount - feeAmount`
exactly; the response carries each of the three rounded to two decimals, within 0.005 of
the computed value, so that its `finalAmount` is within 0.015 of its
`convertedAmount - feeAmount`. -/
theorem C16_final_amount_identity (req : ConvertRequest) (env : ConvertEnv) (a r p : ℚ)
    (ha : 0 < a) (_hr : 0 < r) (hf : req.fromCurrency ≠ "") (ht : req.toCurrency ≠ "")
    (hamount : req.amount = .num (.fin a))
    (hrate : (resolveRate env.live env.random req.fromCurrency req.toCurrency).1 =
      .num (.fin r))
    (hp : (calculate req.amount (.num (.fin r)) (req.feeType.getD "none")).feePercentage =
      .num (.fin p)) :
    (calculate req.amount (.num (.fin r)) (req.feeType.getD "none")).convertedAmount =
      .fin (a * r) ∧
    (calculate req.amount (.num (.fin r)) (req.feeType.getD "none")).feeAmount =
      .fin (a * r * p / 100) ∧
    (calculate req.amount (.num (.fin r)) (req.feeType.getD "none")).finalAmount =
      .fin (a * r - a * r * p / 100) ∧
    (∀ e, (convertCurrency req env).saved = some e →
      e.convertedAmount = .fin (a * r) ∧ e.feeAmount = .fin (a * r * p / 100) ∧
      e.finalAmount = .fin (a * r - a * r * p / 100)) ∧
    ∃ rc rfee rf : ℚ,
      (convertCurrency req env).body = .result
        { fromCurrency := toUpperCase req.fromCurrency,
          toCurrency := toUpperCase req.toCurrency,
          amount := .fin a, rate := .num (.fin r), convertedAmount := .fin rc,
          feeType := req.feeType.getD "none", feePercentage := .num (.fin p),
          feeAmount := .fin rfee, finalAmount := .fin rf } ∧
      abs (rc - a * r) ≤ 1 / 200 ∧ abs (rfee - a * r * p / 100) ≤ 1 / 200 ∧
      abs (rf - (a * r - a * r * p / 100)) ≤ 1 / 200 ∧
      abs (rf - (rc - rfee)) ≤ 3 / 200 := by
  rw [hamount] at hp ⊢
  have hc := calculate_of_percentage a r p _ hp
  have h1 : ¬ (req.fromCurrency = "" ∨ req.toCurrency = "" ∨ (!req.amount.truthy) = true) := by
    rw [hamount]
    simp [hf, ht, ha.ne']
  have h2 : ¬ JsNum.le (toNumber req.amount) (.fin 0) = true := by
    rw [hamount]; simp; exact ha
  refine ⟨by rw [hc], by rw [hc], by rw [hc], ?_, ?_⟩
  · intro e he
    rw [convertCurrency_accepted req env h1 h2] at he
    simp only [hrate, hamount, hc] at he
    cases hu : req.user with
    | none => rw [hu] at he; cases he
    | some u =>
      rw [hu] at he
      simp only at he
      split_ifs at he <;> cases he <;> simp
  · obtain ⟨rc, hrc, hrc2⟩ := toFixed_close 2 (a * r)
    obtain ⟨rfee, hrfee, hrfee2⟩ := toFixed_close 2 (a * r * p / 100)
    obtain ⟨rf, hrf, hrf2⟩ := toFixed_close 2 (a * r - a * r * p / 100)
    have e200 : (1 : ℚ) / (2 * (10 : ℚ) ^ 2) = 1 / 200 := by norm_num
    rw [e200] at hrc2 hrfee2 hrf2
    refine ⟨rc, rfee, rf, ?_, hrc2, hrfee2, hrf2, ?_⟩
    · rw [convertCurrency_accepted req env h1 h2]
      simp only [hrate, hamount, hc, hrc, hrfee, hrf, parseFloat_num]
    · rw [abs_le] at hrc2 hrfee2 hrf2 ⊢
      constructor <;> linarith [hrc2.1, hrc2.2, hrfee2.1, hrfee2.2, hrf2.1, hrf2.2]

/-- C16, amended, on the conversion of 1.204 USD at the rate 1 with the bank fee. -/
theorem C16_final_amount_identity_witness :
    (calculate (.num (.fin 1.204)) (.num (.fin 1)) "bank").finalAmount =
      .fin (1.204 * 1 - 1.204 * 1 * 3 / 100) :=
  (C16_final_amount_identity
    { fromCurrency := "USD", toCurrency := "EUR", amount := .num (.fin 1.204),
      feeType := some "bank", saveHistory := .undefined, user := none }
    { live := some { rates := some [("EUR", 1)], date := "2025-06-01" },
      random := 0, dbOk := true } 1.204 1 3 (by norm_num) (by norm_num) (by decide)
    (by decide) rfl (by with_unfolding_all rfl)
    (by
      have := calculate_listed 1.204 1 3 "bank" (by simp [feeSchedule])
      simp only [Option.getD_some]
      rw [this])).2.2.1

/-- C17, as stated, fails on a conversion of 100 INR to USD at the mock rate `1 / 83.25`:
the stored entry holds the rate `1 / 83.25` and the final amount `100 / 83.25`, and
`getHistory` returns the rate 0.0120 and the result 1.20. -/
theorem C17_history_rounds_counterexample :
    (convertCurrency
      { fromCurrency := "INR", toCurrency := "USD", amount := .num (.fin 100),
        feeType := none, saveHistory := .undefined, user := some 1 }
      { live := none, random := 0, dbOk := true }).saved =
      some { userId := 1, fromCurrency := "INR", toCurrency := "USD", amount := .fin 100,
             rate := .num (.fin (1 / 83.25)), convertedAmount := .fin (100 * (1 / 83.25)),
             feeType := "none", feeAmount := .fin 0,
             finalAmount := .fin (100 * (1 / 83.25)) } ∧
    getHistory
      [{ id := 1, timestamp := 0,
         entry := { userId := 1, fromCurrency := "INR", toCurrency := "USD",
                    amount := .fin 100, rate := .num (.fin (1 / 83.25)),
                    convertedAmount := .fin (100 * (1 / 83.25)), feeType := "none",
                    feeAmount := .fin 0, finalAmount := .fin (100 * (1 / 83.25)) } }]
      1 (fun l => l) 1 20 60000 true =
      { status := 200,
        body := .page
          [{ id := 1, fromCurrency := "INR", toCurrency := "USD", amount := .fin 100,
             rate := .fin 0.012, result := .fin 1.2, timestamp := "1 minute ago",
             feeType := "none", feeAmount := .fin 0 }]
          { currentPage := 1, totalPages := .fin 1, totalCount := 1, hasMore := false } } ∧
    JsNum.fin 0.012 ≠ JsNum.fin (1 / 83.25) ∧
    JsNum.fin 1.2 ≠ JsNum.fin (100 * (1 / 83.25)) := by
  have hr : resolveRate none 0 "INR" "USD" =
      (.num (.fin (1 / 83.25)), [.live "INR" "USD", .mock "INR" "USD"]) := by
    have h1 : mockTable.lookup ("INR", "USD") = none := by rfl
    have h2 : mockTable.lookup ("USD", "INR") = some 83.25 := by rfl
    simp [resolveRate, getLiveExchangeRate, getMockExchangeRate_eq, mockRateSpec, h1, h2]
  have hu : toUpperCase (toUpperCase "INR") = "INR" ∧ toUpperCase (toUpperCase "USD") = "USD" := by
    decide
  have hl : jsLength "INR" = 3 ∧ jsLength "USD" = 3 := by decide
  have hc := calculate_listed 100 (1 / 83.25) 0 "none" (by simp [feeSchedule])
  have f1 : JsNum.toFixed 4 (.fin (1 / 83.25)) = .fin 0.012 := by
    have := toFixed_of_floor 4 (1 / 83.25) 120 (by norm_num) (by norm_num) (by norm_num)
      (by norm_num)
    rw [this]
    norm_num
  have f2 : JsNum.toFixed 2 (.fin (100 * (1 / 83.25))) = .fin 1.2 := by
    have := toFixed_of_floor 2 (100 * (1 / 83.25)) 120 (by norm_num) (by norm_num)
      (by norm_num) (by norm_num)
    rw [this]
    norm_num
  have f3 : JsNum.toFixed 2 (.fin 0) = .fin 0 := by
    have := toFixed_fixed 2 0 (by norm_num)
    norm_num at this ⊢
    exact this
  have ht : formatRelativeTime 60000 0 = "1 minute ago" := by decide
  refine ⟨?_, ?_, ?_, ?_⟩
  · rw [convertCurrency_accepted _ _ (by decide) (by decide)]
    simp only [hr, hu, Option.getD_none, hc, parseFloat_num]
    norm_num [validHistory, hl, JsVal.truthy]
  · have := getHistory_single
      { id := 1, timestamp := 0,
        entry := { userId := 1, fromCurrency := "INR", toCurrency := "USD",
                   amount := .fin 100, rate := .num (.fin (1 / 83.25)),
                   convertedAmount := .fin (100 * (1 / 83.25)), feeType := "none",
                   feeAmount := .fin 0, finalAmount := .fin (100 * (1 / 83.25)) } }
      (fun l => l) (fun l => List.Perm.refl l) 60000
    rw [this]
    simp only [formatHistoryItem, toNumber_num, f1, f2, f3, ht]
  · simp only [ne_eq, JsNum.fin.injEq]
    norm_num
  · simp only [ne_eq, JsNum.fin.injEq]
    norm_num

/-- C17, amended: the entry `convertCurrency` saves holds the amount, rate, fee type and
final amount of the computation exactly; reading it back through `getHistory` returns the
amount and the fee type exactly, the rate rounded to 4 decimals and the final amount
rounded to 2 decimals. -/
theorem C17_history_round_trip (req : ConvertRequest) (env : ConvertEnv) (e : HistoryEntry)
    (id : Nat) (ts now : Int) (sortDocs : List HistoryRecord → List HistoryRecord)
    (hsort : ∀ l, (sortDocs l).Perm l)
    (he : (convertCurrency req env).saved = some e) :
    (e.amount = parseFloat req.amount ∧
     e.rate = (resolveRate env.live env.random req.fromCurrency req.toCurrency).1 ∧
     e.feeType = req.feeType.getD "none" ∧
     e.finalAmount = (calculate req.amount
       (resolveRate env.live env.random req.fromCurrency req.toCurrency).1
       (req.feeType.getD "none")).finalAmount) ∧
    ∃ v : HistoryView,
      getHistory [{ id := id, timestamp := ts, entry := e }] e.userId sortDocs 1 20 now true =
        { status := 200,
          body := .page [v]
            { currentPage := 1, totalPages := .fin 1, totalCount := 1, hasMore := false } } ∧
      v.amount = parseFloat req.amount ∧
      v.feeType = req.feeType.getD "none" ∧
      v.rate = JsNum.toFixed 4
        (toNumber (resolveRate env.live env.random req.fromCurrency req.toCurrency).1) ∧
      v.result = JsNum.toFixed 2 (calculate req.amount
        (resolveRate env.live env.random req.fromCurrency req.toCurrency).1
        (req.feeType.getD "none")).finalAmount := by
  obtain ⟨h1, h2, h3, -, -, h6, -⟩ := convertCurrency_saved_eq req env e he
  refine ⟨⟨h1, h2, h3, h6⟩, formatHistoryItem now { id := id, timestamp := ts, entry := e },
    getHistory_single { id := id, timestamp := ts, entry := e } sortDocs hsort now, ?_, ?_, ?_, ?_⟩
  · simp [formatHistoryItem, h1]
  · simp [formatHistoryItem, h3]
  · simp [formatHistoryItem, h2]
  · simp [formatHistoryItem, h6]

/-- Witness for C17: 200 USD to INR with the bank fee at the mock rate, saved for user 1 and
read back; the stored rate 83.25 is returned as 83.25 and the final amount 16150.5 as
16150.5, both unchanged by the rounding. -/
theorem C17_history_round_trip_witness :
    (∀ l : List HistoryRecord, ((fun l => l) l).Perm l) ∧
    (convertCurrency
      { fromCurrency := "USD", toCurrency := "INR", amount := .num (.fin 200),
        feeType := some "bank", saveHistory := .undefined, user := some 1 }
      { live := none, random := 0, dbOk := true }).saved =
      some { userId := 1, fromCurrency := "USD", toCurrency := "INR", amount := .fin 200,
             rate := .num (.fin 83.25), convertedAmount := .fin 16650,
             feeType := "bank", feeAmount := .fin 499.5, finalAmount := .fin 16150.5 } ∧
    ∃ v : HistoryView,
      getHistory
        [{ id := 7, timestamp := 0,
           entry := { userId := 1, fromCurrency := "USD", toCurrency := "INR",
                      amount := .fin 200, rate := .num (.fin 83.25),
                      convertedAmount := .fin 16650, feeType := "bank",
                      feeAmount := .fin 499.5, finalAmount := .fin 16150.5 } }]
        1 (fun l => l) 1 20 60000 true =
        { status := 200,
          body := .page [v]
            { currentPage := 1, totalPages := .fin 1, totalCount := 1, hasMore := false } } ∧
      v.amount = .fin 200 ∧ v.feeType = "bank" := by
  have hr := resolveRate_usd_inr 0
  have hu : toUpperCase (toUpperCase "INR") = "INR" ∧ toUpperCase (toUpperCase "USD") = "USD" := by
    decide
  have hl : jsLength "INR" = 3 ∧ jsLength "USD" = 3 := by decide
  have hc := calculate_listed 200 83.25 3 "bank" (by simp [feeSchedule])
  have hs : (convertCurrency
      { fromCurrency := "USD", toCurrency := "INR", amount := .num (.fin 200),
        feeType := some "bank", saveHistory := .undefined, user := some 1 }
      { live := none, random := 0, dbOk := true }).saved =
      some { userId := 1, fromCurrency := "USD", toCurrency := "INR", amount := .fin 200,
             rate := .num (.fin 83.25), convertedAmount := .fin 16650,
             feeType := "bank", feeAmount := .fin 499.5, finalAmount := .fin 16150.5 } := by
    rw [convertCurrency_accepted _ _ (by decide) (by decide)]
    simp only [hr, hu, Option.getD_some, hc, parseFloat_num]
    norm_num [validHistory, hl, JsVal.truthy]
  obtain ⟨-, v, hv, ha, hf, -, -⟩ := C17_history_round_trip _ _ _ 7 0 60000 (fun l => l)
    (fun l => List.Perm.refl l) hs
  exact ⟨fun l => List.Perm.refl l, hs, v, hv, by simpa using ha, by simpa using hf⟩

/-- C18: the status and the body of the response of `convertCurrency` are the same whether
the history save succeeds or throws, and a request that passes validation is answered 200
in both cases; with an authenticated user, history enabled and a record that passes the
schema, the only difference is that the record is written or not. -/
theorem C18_history_failure_invisible (req : ConvertRequest) (live : Option LatestResponse)
    (random : ℚ) :
    (convertCurrency req { live := live, random := random, dbOk := true }).status =
      (convertCurrency req { live := live, random := random, dbOk := false }).status ∧
    (convertCurrency req { live := live, random := random, dbOk := true }).body =
      (convertCurrency req { live := live, random := random, dbOk := false }).body ∧
    (convertCurrency req { live := live, random := random, dbOk := false }).saved = none ∧
    (req.fromCurrency ≠ "" → req.toCurrency ≠ "" → req.amount.truthy = true →
      JsNum.le (toNumber req.amount) (.fin 0) = false →
      (convertCurrency req { live := live, random := random, dbOk := false }).status = 200 ∧
      (convertCurrency req { live := live, random := random, dbOk := true }).status = 200) := by
  obtain ⟨hs, hb⟩ := convertCurrency_response_dbOk req live random true false
  refine ⟨hs, hb, ?_, ?_⟩
  · by_cases h1 : req.fromCurrency = "" ∨ req.toCurrency = "" ∨ (!req.amount.truthy) = true
    · exact (convertCurrency_rejected_saved req _ (Or.inl h1)).2.2
    · by_cases h2 : JsNum.le (toNumber req.amount) (.fin 0) = true
      · exact (convertCurrency_rejected_saved req _ (Or.inr h2)).2.2
      · rw [convertCurrency_accepted _ _ h1 h2]
        cases req.user with
        | none => rfl
        | some u => simp
  · intro hf ht ha hle
    have h1 : ¬ (req.fromCurrency = "" ∨ req.toCurrency = "" ∨ (!req.amount.truthy) = true) := by
      simp [hf, ht, ha]
    have h2 : ¬ JsNum.le (toNumber req.amount) (.fin 0) = true := by simp [hle]
    rw [convertCurrency_accepted _ _ h1 h2, convertCurrency_accepted _ _ h1 h2]
    exact ⟨rfl, rfl⟩

/-- C18 on a conversion of 100 USD to INR by user 1: the record is written when the
database accepts it, not written when it refuses, and both responses are 200. -/
theorem C18_history_failure_invisible_witness :
    (convertCurrency
      { fromCurrency := "USD", toCurrency := "INR", amount := .num (.fin 100),
        feeType := none, saveHistory := .undefined, user := some 1 }
      { live := none, random := 0, dbOk := false }).status = 200 ∧
    (convertCurrency
      { fromCurrency := "USD", toCurrency := "INR", amount := .num (.fin 100),
        feeType := none, saveHistory := .undefined, user := some 1 }
      { live := none, random := 0, dbOk := false }).saved = none ∧
    (convertCurrency
      { fromCurrency := "USD", toCurrency := "INR", amount := .num (.fin 100),
        feeType := none, saveHistory := .undefined, user := some 1 }
      { live := none, random := 0, dbOk := true }).saved.isSome = true :=
  have h := C18_history_failure_invisible
    { fromCurrency := "USD", toCurrency := "INR", amount := .num (.fin 100),
      feeType := none, saveHistory := .undefined, user := some 1 } none 0
  ⟨(h.2.2.2 (by decide) (by decide) (by decide) (by decide)).1, h.2.2.1,
    by with_unfolding_all decide⟩

/-- C19, evaluated on a reply whose table lacks INR and on a failed request: inside the
`try` block the two errors differ (the first carries `Exchange rate not found for USD to
INR`), but the `catch` of the same function replaces both by the one error `Failed to fetch
live exchange rate`, so callers cannot tell them apart. A table entry 0 is reported as
absent as well, and a nonzero entry is returned with the date and the source tag. -/
theorem C19_live_failures_indistinguishable :
    getLiveExchangeRateTry (some { rates := some [("EUR", 0.92)], date := "2025-06-01" })
      "USD" "INR" = .error (.rateNotFound "Exchange rate not found for USD to INR") ∧
    getLiveExchangeRateTry none "USD" "INR" = .error .requestFailed ∧
    getLiveExchangeRate (some { rates := some [("EUR", 0.92)], date := "2025-06-01" })
      "USD" "INR" = .error "Failed to fetch live exchange rate" ∧
    getLiveExchangeRate none "USD" "INR" = .error "Failed to fetch live exchange rate" ∧
    getLiveExchangeRate (some { rates := some [("INR", 0)], date := "2025-06-01" })
      "USD" "INR" = .error "Failed to fetch live exchange rate" ∧
    getLiveExchangeRate (some { rates := some [("INR", 83.25)], date := "2025-06-01" })
      "USD" "INR" =
      .ok { rate := .num (.fin 83.25), timestamp := "2025-06-01",
            source := "exchangerate-api" } := by
  refine ⟨?_, rfl, ?_, rfl, ?_, ?_⟩ <;> with_unfolding_all rfl

/-- C20, evaluated on a conversion of 100 USD to INR, once with the live source answering
83.25 and once with the live source down (the mock table gives 83.25): the two responses
of `convertCurrency` are identical, field by field; the body has no source tag and no
warning to tell the mock rate. The handler `getLiveRate` does tag its response: `source`
is `mock` exactly when the live source failed. -/
theorem C20_conversion_response_untagged :
    (convertCurrency
      { fromCurrency := "USD", toCurrency := "INR", amount := .num (.fin 100),
        feeType := none, saveHistory := .undefined, user := none }
      { live := some { rates := some [("INR", 83.25)], date := "2025-06-01" },
        random := 0, dbOk := true }).body =
    (convertCurrency
      { fromCurrency := "USD", toCurrency := "INR", amount := .num (.fin 100),
        feeType := none, saveHistory := .undefined, user := none }
      { live := none, random := 0, dbOk := true }).body ∧
    (convertCurrency
      { fromCurrency := "USD", toCurrency := "INR", amount := .num (.fin 100),
        feeType := none, saveHistory := .undefined, user := none }
      { live := some { rates := some [("INR", 83.25)], date := "2025-06-01" },
        random := 0, dbOk := true }).lookups = [.live "USD" "INR"] ∧
    (convertCurrency
      { fromCurrency := "USD", toCurrency := "INR", amount := .num (.fin 100),
        feeType := none, saveHistory := .undefined, user := none }
      { live := none, random := 0, dbOk := true }).lookups =
      [.live "USD" "INR", .mock "USD" "INR"] ∧
    (getLiveRate none 0 "2025-06-02T10:00:00.000Z" "USD" "INR").body =
      .result { fromCurrency := "USD", toCurrency := "INR", rate := .num (.fin 83.25),
                timestamp := "2025-06-02T10:00:00.000Z", source := "mock" } ∧
    (getLiveRate (some { rates := some [("INR", 83.25)], date := "2025-06-01" }) 0
      "2025-06-02T10:00:00.000Z" "USD" "INR").body =
      .result { fromCurrency := "USD", toCurrency := "INR", rate := .num (.fin 83.25),
                timestamp := "2025-06-01", source := "exchangerate-api" } := by
  have hlive : resolveRate (some { rates := some [("INR", 83.25)], date := "2025-06-01" }) 0
      "USD" "INR" = (.num (.fin 83.25), [.live "USD" "INR"]) := by
    with_unfolding_all rfl
  have hmock := resolveRate_usd_inr 0
  have hg : getMockExchangeRate 0 "USD" "INR" = .num (.fin 83.25) := by
    rw [getMockExchangeRate_eq]
    rfl
  refine ⟨?_, ?_, ?_, ?_, ?_⟩
  · rw [convertCurrency_accepted _ _ (by decide) (by decide),
      convertCurrency_accepted _ _ (by decide) (by decide)]
    simp only [hlive, hmock]
  · rw [convertCurrency_accepted _ _ (by decide) (by decide)]
    simp only [hlive]
  · rw [convertCurrency_accepted _ _ (by decide) (by decide)]
    simp only [hmock]
  · have hu := toUpperCase_codes
    simp only [getLiveRate, getLiveExchangeRate, hg, hu.1, hu.2.1]
    rfl
  · have hu := toUpperCase_codes
    have hl : getLiveExchangeRate (some { rates := some [("INR", 83.25)], date := "2025-06-01" })
        "USD" "INR" = .ok ⟨.num (.fin 83.25), "2025-06-01", "exchangerate-api"⟩ := by
      with_unfolding_all rfl
    simp only [getLiveRate, hl, hu.1, hu.2.1]
    rfl

/-- C21: `removeBookmark` for owner `user` and identifier `id` either finds no bookmark with
that identifier owned by `user`, answers 404 and leaves the store unchanged, or answers 200
and erases exactly one bookmark, which has that identifier and that owner; in both cases
the bookmarks of every other owner are unchanged. A path parameter that is not an
identifier is answered 500 with the store unchanged. -/
theorem C21_remove_isolated (store : Store) (user id : Nat) :
    (((∀ b ∈ store, ¬ (b.id = id ∧ b.userId = user)) ∧
        (removeBookmark store user (some id)).status = 404 ∧
        (removeBookmark store user (some id)).body = .error "Bookmark not found" ∧
        (removeBookmark store user (some id)).store = store) ∨
      (∃ b ∈ store, b.id = id ∧ b.userId = user ∧
        (removeBookmark store user (some id)).status = 200 ∧
        (removeBookmark store user (some id)).body = .message "Bookmark removed successfully" ∧
        (removeBookmark store user (some id)).store = store.erase b ∧
        (removeBookmark store user (some id)).store.length + 1 = store.length)) ∧
    (∀ other, other ≠ user →
      (removeBookmark store user (some id)).store.filter (fun b => b.userId = other) =
        store.filter (fun b => b.userId = other)) ∧
    (∀ b ∈ store, ¬ (b.id = id ∧ b.userId = user) →
      b ∈ (removeBookmark store user (some id)).store) ∧
    (removeBookmark store user none).status = 500 ∧
    (removeBookmark store user none).store = store := by
  cases hfind : findOne (fun b => b.id = id ∧ b.userId = user) store with
  | none =>
    have hnone : ∀ b ∈ store, ¬ (b.id = id ∧ b.userId = user) := by
      intro b hb
      have := List.find?_eq_none.1 hfind b hb
      simpa using this
    have hout : removeBookmark store user (some id) =
        { status := 404, body := .error "Bookmark not found", store := store } := by
      simp only [removeBookmark, hfind]
    rw [hout]
    exact ⟨Or.inl ⟨hnone, rfl, rfl, rfl⟩, fun _ _ => rfl, fun b hb _ => hb, rfl, rfl⟩
  | some b =>
    have hmem : b ∈ store := List.mem_of_find?_eq_some hfind
    have hp : b.id = id ∧ b.userId = user := by
      have := List.find?_some hfind
      simpa using this
    have hout : removeBookmark store user (some id) =
        { status := 200, body := .message "Bookmark removed successfully",
          store := deleteFirst (fun b => b.id = id ∧ b.userId = user) store } := by
      simp only [removeBookmark, hfind]
    have hstore : deleteFirst (fun b => b.id = id ∧ b.userId = user) store = store.erase b :=
      deleteFirst_eq_erase _ store b hfind
    rw [hout]
    refine ⟨Or.inr ⟨b, hmem, hp.1, hp.2, rfl, rfl, hstore, ?_⟩, ?_, ?_, rfl, rfl⟩
    · show (deleteFirst (fun b => b.id = id ∧ b.userId = user) store).length + 1 = store.length
      rw [hstore, List.length_erase_of_mem hmem]
      have : 0 < store.length := List.length_pos_of_mem hmem
      omega
    · intro other hother
      show (deleteFirst (fun b => b.id = id ∧ b.userId = user) store).filter
        (fun b => b.userId = other) = store.filter (fun b => b.userId = other)
      apply deleteFirst_filter
      intro x hx
      have hx2 : x.id = id ∧ x.userId = user := by simpa using hx
      simp [hx2.2, Ne.symm hother]
    · intro x hx hnot
      show x ∈ deleteFirst (fun b => b.id = id ∧ b.userId = user) store
      rw [hstore]
      apply (List.mem_erase_of_ne ?_).2 hx
      intro hxb
      rw [hxb] at hnot
      exact hnot hp

/-- Witness for C21 on the example store: owner 1 removes bookmark 3 of their own, and owner
1 asking for bookmark 2, which belongs to owner 2, gets 404 with the store unchanged. -/
theorem C21_remove_isolated_witness :
    (removeBookmark exampleStore 1 (some 3)).status = 200 ∧
    (removeBookmark exampleStore 1 (some 3)).store.map (fun b => b.id) = [1, 2, 4] ∧
    (removeBookmark exampleStore 1 (some 2)).status = 404 ∧
    (removeBookmark exampleStore 1 (some 2)).store = exampleStore ∧
    (removeBookmark exampleStore 1 (some 3)).store.filter (fun b => b.userId = 2) =
      exampleStore.filter (fun b => b.userId = 2) :=
  ⟨by decide, by decide, by decide, by rfl,
    (C21_remove_isolated exampleStore 1 3).2.1 2 (by decide)⟩

/-- C22, as stated, fails on an owner with one bookmark USD to INR stored at 83.25 while the
live source is down: the mock rate is 83.25 again, the rate is unchanged and the trend is
neutral, and `updatedCount` is 1. -/
theorem C22_unchanged_bookmark_counted :
    updateAllBookmarkRates
      [{ id := 1, userId := 1, fromCurrency := "USD", toCurrency := "INR",
         currentRate := 83.25, trend := .neutral, createdAt := 10, updatedAt := 10 }]
      1 (fun _ => { live := none, random := 0, now := 100, dbOk := true, freshId := 50 }) =
      { status := 200,
        body := .summary "Updated 1 out of 1 bookmarks" 1 1
          [{ id := 1, fromCurrency := "USD", toCurrency := "INR",
             rate := some (.fin 83.25), trend := some .neutral, updated := true,
             error := none }],
        store :=
          [{ id := 1, userId := 1, fromCurrency := "USD", toCurrency := "INR",
             currentRate := 83.25, trend := .neutral, createdAt := 10, updatedAt := 100 }] } := by
  have hm : mockRateSpec 0 "USD" "INR" = 83.25 := rfl
  have e := fun s => refresh_mock_ok
    { id := 1, userId := 1, fromCurrency := "USD", toCurrency := "INR",
      currentRate := 83.25, trend := .neutral, createdAt := 10, updatedAt := 10 }
    { live := none, random := 0, now := 100, dbOk := true, freshId := 50 }
    ⟨_, rfl⟩ (by decide) (by decide) (le_refl _) rfl s
  have f1 : JsNum.toFixed 4 (.fin (333 / 4)) = .fin (333 / 4) := by
    have := toFixed_fixed 4 832500 (by norm_num)
    norm_num at this
    exact this
  have hs : "Updated " ++ toString 1 ++ " out of " ++ toString 1 ++ " bookmarks" =
      "Updated 1 out of 1 bookmarks" := by decide
  simp only [updateAllBookmarkRates, List.filter, decide_True, List.length_singleton,
    one_ne_zero, if_false, refreshLoop, refreshStep, e, hm, setRate, updateFirst]
  norm_num [f1, hs]

/-- C22, amended: `updatedCount` counts every bookmark whose refresh was saved, whether or
not the rate changed. The entry of a bookmark is flagged as updated, and counted, exactly
when the rate obtained is a number, the document passes validation and the write is
accepted; a bookmark whose new rate equals the stored one is then flagged, with the trend
neutral. -/
theorem C22_updatedCount_counts_saved (store : Store) (user : Nat) (env : Nat → BookmarkEnv)
    (hne : store.filter (fun b => b.userId = user) ≠ []) :
    ∃ updatedCount results,
      (updateAllBookmarkRates store user env).body =
        .summary
          ("Updated " ++ toString updatedCount ++ " out of " ++
            toString (store.filter (fun b => b.userId = user)).length ++ " bookmarks")
          updatedCount (store.filter (fun b => b.userId = user)).length results ∧
      updatedCount = results.countP (fun r => r.updated) ∧
      ∀ k b, (store.filter (fun b => b.userId = user))[k]? = some b →
        ∃ r, results[k]? = some r ∧
          (r.updated = true ↔
            ∃ q, castRate (resolveRate (env k).live (env k).random b.fromCurrency
                b.toCurrency).1 = some q ∧
              validBookmark (setRate b q) = true ∧ (env k).dbOk = true) ∧
          (castRate (resolveRate (env k).live (env k).random b.fromCurrency
              b.toCurrency).1 = some b.currentRate →
            validBookmark b = true → (env k).dbOk = true →
            r.updated = true ∧ r.trend = some .neutral ∧
            r.rate = some (JsNum.toFixed 4 (.fin b.currentRate))) := by
  refine ⟨_, _, updateAllBookmarkRates_body store user env hne, rfl, ?_⟩
  intro k b hb
  refine ⟨_, ?_, (resultEntry_updated b (env k)).1, ?_⟩
  · have := loopEntries_get env 0 _ k b hb
    simpa using this
  · intro hc hv hdb
    have hv2 : validBookmark (setRate b b.currentRate) = true := by
      simpa [validBookmark, setRate] using hv
    rw [(resultEntry_updated b (env k)).2 b.currentRate hc hv2 hdb]
    simp [setRate]

/-- Witness for C22: the owner of one bookmark USD to INR stored at 83.25, refreshed with
the mock rate 83.25. -/
theorem C22_updatedCount_counts_saved_witness :
    [({ id := 1, userId := 1, fromCurrency := "USD", toCurrency := "INR",
        currentRate := 83.25, trend := .neutral, createdAt := 10, updatedAt := 10 } :
      Bookmark)].filter (fun b => b.userId = 1) ≠ [] ∧
    ∃ updatedCount results,
      (updateAllBookmarkRates
        [{ id := 1, userId := 1, fromCurrency := "USD", toCurrency := "INR",
           currentRate := 83.25, trend := .neutral, createdAt := 10, updatedAt := 10 }]
        1 (fun _ => { live := none, random := 0, now := 100, dbOk := true,
                      freshId := 50 })).body =
        .summary
          ("Updated " ++ toString updatedCount ++ " out of " ++ toString 1 ++ " bookmarks")
          updatedCount 1 results ∧
      updatedCount = results.countP (fun r => r.updated) := by
  refine ⟨by decide, ?_⟩
  obtain ⟨n, rs, h1, h2, -⟩ := C22_updatedCount_counts_saved
    [{ id := 1, userId := 1, fromCurrency := "USD", toCurrency := "INR",
       currentRate := 83.25, trend := .neutral, createdAt := 10, updatedAt := 10 }]
    1 (fun _ => { live := none, random := 0, now := 100, dbOk := true, freshId := 50 })
    (by decide)
  exact ⟨n, rs, h1, h2⟩

/-- C23, evaluated at the fee type `toString`, a name every object inherits: for the
amount 200 and the rate 83.25 the percentage is the inherited function, the fee and the
final amount are `NaN`, neither is at least 0, the history entry fails validation and is
not stored. -/
theorem C23_inherited_fee_breaks_bounds :
    calculate (.num (.fin 200)) (.num (.fin 83.25)) "toString" =
      { convertedAmount := .fin 16650,
        feePercentage := .obj "function toString() \x7b [native code] \x7d",
        feeAmount := .nan, finalAmount := .nan } ∧
    JsNum.le (.fin 0) (calculate (.num (.fin 200)) (.num (.fin 83.25)) "toString").feeAmount =
      false ∧
    JsNum.lt (.fin 0) (calculate (.num (.fin 200)) (.num (.fin 83.25)) "toString").finalAmount =
      false ∧
    numberMinZero
      (.num (calculate (.num (.fin 200)) (.num (.fin 83.25)) "toString").feeAmount) = false ∧
    numberMinZero
      (.num (calculate (.num (.fin 200)) (.num (.fin 83.25)) "toString").finalAmount) = false ∧
    (convertCurrency
      { fromCurrency := "USD", toCurrency := "INR", amount := .num (.fin 200),
        feeType := some "toString", saveHistory := .undefined, user := some 1 }
      { live := none, random := 0, dbOk := true }).status = 200 ∧
    (convertCurrency
      { fromCurrency := "USD", toCurrency := "INR", amount := .num (.fin 200),
        feeType := some "toString", saveHistory := .undefined, user := some 1 }
      { live := none, random := 0, dbOk := true }).saved = none := by
  have hg : getProperty feeOptions "toString" =
      .obj "function toString() \x7b [native code] \x7d" := by decide
  have hn : toNumber (.obj "function toString() \x7b [native code] \x7d") = .nan := by decide
  have hc : calculate (.num (.fin 200)) (.num (.fin 83.25)) "toString" =
      { convertedAmount := .fin 16650,
        feePercentage := .obj "function toString() \x7b [native code] \x7d",
        feeAmount := .nan, finalAmount := .nan } := by
    simp only [calculate, hg, hn, JsVal.truthy, if_true, parseFloat_num, toNumber_num,
      JsNum.mul_fin]
    norm_num [JsNum.mul, JsNum.div, JsNum.sub]
  refine ⟨hc, ?_, ?_, ?_, ?_, ?_, ?_⟩
  · rw [hc]; rfl
  · rw [hc]; rfl
  · rw [hc]; rfl
  · rw [hc]; rfl
  · rw [convertCurrency_accepted _ _ (by decide) (by decide)]
  · rw [convertCurrency_accepted _ _ (by decide) (by decide)]
    simp only [resolveRate_usd_inr, hc, toUpperCase_codes, Option.getD_some]
    norm_num [validHistory, numberMinZero, JsNum.le]

/-- C24: for a page and a limit of at least 1, `getHistory` answers 200 with the records at
positions `(page - 1) * limit` up to `page * limit` of the sorted collection of the user,
`totalPages` the ceiling of `totalCount / limit`, and `hasMore` true exactly when
`currentPage < totalPages`, which is when `page * limit < totalCount`. -/
theorem C24_pagination_has_more (store : List HistoryRecord) (user : Nat)
    (sortDocs : List HistoryRecord → List HistoryRecord) (page limit : Nat) (now : Int)
    (hp : 1 ≤ page) (hl : 1 ≤ limit) (hsort : ∀ l, (sortDocs l).length = l.length) :
    ∃ history pagination,
      getHistory store user sortDocs page limit now true =
        { status := 200, body := .page history pagination } ∧
      history = (((sortDocs (store.filter (fun r => r.entry.userId = user))).drop
        ((page - 1) * limit)).take limit).map (formatHistoryItem now) ∧
      history.length = min limit
        ((store.filter (fun r => r.entry.userId = user)).length - (page - 1) * limit) ∧
      pagination.currentPage = page ∧
      pagination.totalCount = (store.filter (fun r => r.entry.userId = user)).length ∧
      pagination.totalPages = .fin
        ((((store.filter (fun r => r.entry.userId = user)).length + limit - 1) / limit : Nat) : ℚ) ∧
      (pagination.hasMore = true ↔
        page < ((store.filter (fun r => r.entry.userId = user)).length + limit - 1) / limit) ∧
      (pagination.hasMore = true ↔
        page * limit < (store.filter (fun r => r.entry.userId = user)).length) := by
  obtain ⟨p, rfl⟩ : ∃ p, page = p + 1 := ⟨page - 1, by omega⟩
  have hskip : ¬ (((p + 1 : Nat) : Int) - 1) * (limit : Int) < 0 := by
    have : (0 : Int) ≤ (p : Int) * (limit : Int) := by positivity
    push_cast
    simpa using this
  have htoNat : ((((p + 1 : Nat) : Int) - 1) * (limit : Int)).toNat = p * limit := by
    push_cast
    simp only [add_sub_cancel_right]
    exact_mod_cast Int.toNat_natCast (p * limit)
  have hl0 : limit ≠ 0 := by omega
  have hmul : (p + 1) * limit = p * limit + limit := by ring
  have hceil : p + 1 < ((store.filter (fun r => r.entry.userId = user)).length + limit - 1) / limit ↔
      (p + 1) * limit < (store.filter (fun r => r.entry.userId = user)).length := by
    rw [Nat.lt_iff_add_one_le, Nat.le_div_iff_mul_le (by omega)]
    have : (p + 1 + 1) * limit = (p + 1) * limit + limit := by ring
    rw [this]
    omega
  refine ⟨(((sortDocs (store.filter (fun r => r.entry.userId = user))).drop
      (p * limit)).take limit).map (formatHistoryItem now),
    { currentPage := p + 1,
      totalPages := ceilQuotient (store.filter (fun r => r.entry.userId = user)).length limit,
      totalCount := (store.filter (fun r => r.entry.userId = user)).length,
      hasMore := decide ((((p + 1 : Nat) : Int) - 1) * (limit : Int) +
        (((((sortDocs (store.filter (fun r => r.entry.userId = user))).drop
          (p * limit)).take limit).length : Nat) : Int) <
        (((store.filter (fun r => r.entry.userId = user)).length : Nat) : Int)) },
    ?_, ?_, ?_, rfl, rfl, ?_, ?_, ?_⟩
  · simp only [getHistory, Bool.not_true, Bool.false_eq_true, false_or, if_neg hskip, htoNat,
      if_neg hl0]
  · simp
  · simp [hsort]
  · simp [ceilQuotient, hl0]
  · rw [hceil]
    simp only [decide_eq_true_eq, List.length_take, List.length_drop, hsort]
    push_cast
    simp only [add_sub_cancel_right]
    rw [hmul]
    have : ((p : Int) * (limit : Int)) = ((p * limit : Nat) : Int) := by push_cast; rfl
    rw [this]
    omega
  · simp only [decide_eq_true_eq, List.length_take, List.length_drop, hsort]
    push_cast
    simp only [add_sub_cancel_right]
    rw [hmul]
    have : ((p : Int) * (limit : Int)) = ((p * limit : Nat) : Int) := by push_cast; rfl
    rw [this]
    omega

/-- Witness for C24: five records of user 1 read with a limit of 2; page 2 of 3 has more,
page 3 of 3 has not. -/
theorem C24_pagination_has_more_witness :
    (exampleHistory.filter (fun r => r.entry.userId = 1)).length = 5 ∧
    (∃ history pagination,
      getHistory exampleHistory 1 (fun l => l) 2 2 0 true =
        { status := 200, body := .page history pagination } ∧
      history.length = 2 ∧ pagination.totalPages = .fin 3 ∧ pagination.hasMore = true) ∧
    (∃ history pagination,
      getHistory exampleHistory 1 (fun l => l) 3 2 0 true =
        { status := 200, body := .page history pagination } ∧
      history.length = 1 ∧ pagination.totalPages = .fin 3 ∧ pagination.hasMore = false) := by
  have hN : (exampleHistory.filter (fun r => r.entry.userId = 1)).length = 5 := by decide
  refine ⟨hN, ?_, ?_⟩
  · obtain ⟨h, pg, h1, -, h3, -, -, h6, -, h8⟩ :=
      C24_pagination_has_more exampleHistory 1 (fun l => l) 2 2 0 (by decide) (by decide)
        (fun _ => rfl)
    rw [hN] at h3 h6 h8
    exact ⟨h, pg, h1, by simpa using h3, by simpa using h6, h8.2 (by decide)⟩
  · obtain ⟨h, pg, h1, -, h3, -, -, h6, -, h8⟩ :=
      C24_pagination_has_more exampleHistory 1 (fun l => l) 3 2 0 (by decide) (by decide)
        (fun _ => rfl)
    rw [hN] at h3 h6 h8
    refine ⟨h, pg, h1, by simpa using h3, by simpa using h6, ?_⟩
    cases hm : pg.hasMore with
    | false => rfl
    | true => exact absurd (h8.1 hm) (by decide)

/-- C25, evaluated at the lower-case codes `usd` and `inr` with the random draw 1/2 and
the live source down: the mock rate of the upper-case pair is the table entry 83.25, the
mock rate of the lower-case pair is the generated `10 * 0.5 + 0.1 = 5.1`, and both
`convertCurrency` and `addBookmark` answer with the pair labelled USD to INR and the rate
5.1. -/
theorem C25_mock_rate_depends_on_case :
    getMockExchangeRate (1 / 2) "USD" "INR" = .num (.fin 83.25) ∧
    getMockExchangeRate (1 / 2) "usd" "inr" = .num (.fin 5.1) ∧
    convertCurrency
      { fromCurrency := "usd", toCurrency := "inr", amount := .num (.fin 100),
        feeType := none, saveHistory := .undefined, user := none }
      { live := none, random := 1 / 2, dbOk := true } =
      { status := 200,
        body := .result
          { fromCurrency := "USD", toCurrency := "INR", amount := .fin 100,
            rate := .num (.fin 5.1), convertedAmount := .fin 510, feeType := "none",
            feePercentage := .num (.fin 0), feeAmount := .fin 0, finalAmount := .fin 510 },
        lookups := [.live "usd" "inr", .mock "usd" "inr"],
        saved := none } ∧
    addBookmark [] 1 "usd" "inr"
      { live := none, random := 1 / 2, now := 100, dbOk := true, freshId := 1 } =
      { status := 201,
        body := .bookmark "Currency pair bookmarked successfully"
          { id := 1, fromCurrency := "USD", toCurrency := "INR", rate := .fin 5.1,
            trend := .neutral },
        store :=
          [ { id := 1, userId := 1, fromCurrency := "USD", toCurrency := "INR",
              currentRate := 5.1, trend := .neutral, createdAt := 100, updatedAt := 100 } ] } := by
  have hm1 : getMockExchangeRate (1 / 2) "USD" "INR" = .num (.fin 83.25) := by
    rw [getMockExchangeRate_eq]
    rfl
  have hm2 : getMockExchangeRate (1 / 2) "usd" "inr" = .num (.fin 5.1) := by
    have h1 : mockTable.lookup ("usd", "inr") = none := by rfl
    have h2 : mockTable.lookup ("inr", "usd") = none := by rfl
    rw [getMockExchangeRate_eq]
    simp only [mockRateSpec, h1, h2]
    norm_num
  have hr : resolveRate none (1 / 2) "usd" "inr" =
      (.num (.fin 5.1), [.live "usd" "inr", .mock "usd" "inr"]) := by
    rw [resolveRate_of_error none (1 / 2) "usd" "inr" ⟨_, rfl⟩, hm2]
  have hu : toUpperCase "usd" = "USD" ∧ toUpperCase "inr" = "INR" ∧
      toUpperCase "USD" = "USD" ∧ toUpperCase "INR" = "INR" := by
    decide
  have hl : jsLength "USD" = 3 ∧ jsLength "INR" = 3 := by decide
  have hc := calculate_listed 100 5.1 0 "none" (by simp [feeSchedule])
  have f0 : JsNum.toFixed 2 (.fin 0) = .fin 0 := by
    have := toFixed_fixed 2 0 (by norm_num)
    norm_num at this ⊢
    exact this
  have f1 : JsNum.toFixed 2 (.fin 510) = .fin 510 := by
    have := toFixed_fixed 2 51000 (by norm_num)
    norm_num at this ⊢
    exact this
  have f2 : JsNum.toFixed 4 (.fin (51 / 10)) = .fin (51 / 10) := by
    have := toFixed_fixed 4 51000 (by norm_num)
    norm_num at this
    exact this
  refine ⟨hm1, hm2, ?_, ?_⟩
  · rw [convertCurrency_accepted _ _ (by decide) (by decide)]
    simp only [hr, hu, Option.getD_none, hc, parseFloat_num]
    norm_num [f0, f1]
  · have h1 : ¬ ("usd" = "" ∨ "inr" = "") := by decide
    have h2 : ¬ ("usd" = "inr") := by decide
    simp only [addBookmark, if_neg h1, if_neg h2, hr, castRate, hu, findOne, List.find?_nil,
      Option.isSome_none, validBookmark, hl, viewOf, List.any_nil, List.nil_append]
    norm_num [f2]

/-- C26, as stated, fails in the arithmetic of the engine. USD to EUR for 1 to 5 June 2025
on a UTC server with the provider down and every draw one half: the series is five times
the double of 0.92, `highest` and `lowest` are that double, and the sum 4.6000000000000005
divided by 5 gives the average 0.9200000000000002, above `highest`. -/
theorem C26_average_above_highest :
    ∃ r : HistoricalResult,
      getHistoricalData utc binary64 parseIsoDate none (fun _ => 1 / 2) "USD" "EUR"
        "2025-06-01" "2025-06-05" = { status := 200, body := .result r } ∧
      r.source = "mock" ∧
      r.data = List.replicate 5 (JsNum.fin (8286623314361713 / 2 ^ 53 : ℚ)) ∧
      r.stats.highest = .fin (8286623314361713 / 2 ^ 53 : ℚ) ∧
      r.stats.lowest = .fin (8286623314361713 / 2 ^ 53 : ℚ) ∧
      r.stats.average = .fin (4143311657180857 / 2 ^ 52 : ℚ) ∧
      r.stats.dataPoints = 5 ∧
      JsNum.lt r.stats.highest r.stats.average = true ∧
      JsNum.le r.stats.average r.stats.highest = false := by
  have p1 : parseIsoDate "2025-06-01" = some (20240 * msPerDay) := by decide
  have p2 : parseIsoDate "2025-06-05" = some (20244 * msPerDay) := by decide
  obtain ⟨r, hr, hsrc, -, hdata, hstats⟩ := getHistoricalData_mock utc binary64 parseIsoDate
    none (fun _ => 1 / 2) "USD" "EUR" "2025-06-01" "2025-06-05" _ _ (by decide) (by decide)
    (by decide) (by decide) p1 p2 (by decide) (by decide) ⟨_, rfl⟩
  obtain ⟨m1, m2⟩ := mock_usd_eur_binary64
  rw [m1] at hdata
  rw [m2] at hstats
  refine ⟨r, hr, hsrc, hdata, ?_, ?_, ?_, ?_, ?_, ?_⟩
  · rw [hstats]
  · rw [hstats]
  · rw [hstats]
  · rw [hstats]
  · rw [hstats]
    simp only [JsNum.lt, decide_eq_true_eq]
    norm_num
  · rw [hstats]
    simp only [JsNum.le, decide_eq_false_iff_not]
    norm_num

/-- C26, amended. For a request that passes validation and falls back to mock data, in
every time zone: under every rounding the series is not empty, `dataPoints` is its length,
above zero, and `highest` and `lowest` are `Math.max` and `Math.min` of the series; in
exact arithmetic they are members of the series that bound it, and the average is the sum
over the length, between them; in double arithmetic with draws in `[0, 1)` the values are
finite and `highest` and `lowest` are again members that bound the series, while the
average is the rounded sum over the length, for which no such bound holds. -/
theorem C26_mock_stats_ordered (zone : TimeZone) (dateParse : String → Option Int)
    (reply : Option HistoricalResponse) (random : Nat → ℚ) (f t sd ed : String)
    (start stop : Int)
    (hf : f ≠ "") (ht : t ≠ "") (hsd : sd ≠ "") (hed : ed ≠ "")
    (hstart : dateParse sd = some start) (hstop : dateParse ed = some stop)
    (hle : start ≤ stop) (hrange : stop - start ≤ 365 * msPerDay)
    (hfail : ∃ msg, getHistoricalExchangeRates dateParse reply f t sd ed = .error msg) :
    (∀ rnd : ℚ → JsNum, ∃ r : HistoricalResult,
      getHistoricalData zone rnd dateParse reply random f t sd ed =
        { status := 200, body := .result r } ∧
      r.source = "mock" ∧ r.data ≠ [] ∧
      r.stats.dataPoints = r.data.length ∧ 0 < r.stats.dataPoints ∧
      r.stats.highest = mathMax r.data ∧ r.stats.lowest = mathMin r.data ∧
      r.stats.average = JsNum.rounded rnd
        (JsNum.div (r.data.foldl (fun a b => JsNum.rounded rnd (JsNum.add a b)) (.fin 0))
          (.fin r.data.length))) ∧
    (∃ (r : HistoricalResult) (qs : List ℚ) (hi lo : ℚ),
      getHistoricalData zone JsNum.fin dateParse reply random f t sd ed =
        { status := 200, body := .result r } ∧
      r.data = qs.map JsNum.fin ∧ qs ≠ [] ∧
      r.stats.highest = .fin hi ∧ r.stats.lowest = .fin lo ∧
      r.stats.average = .fin (qs.sum / qs.length) ∧
      hi ∈ qs ∧ lo ∈ qs ∧ (∀ q ∈ qs, q ≤ hi) ∧ (∀ q ∈ qs, lo ≤ q) ∧
      lo ≤ qs.sum / qs.length ∧ qs.sum / qs.length ≤ hi) ∧
    ((∀ k, 0 ≤ random k ∧ random k < 1) →
      ∃ (r : HistoricalResult) (qs : List ℚ) (hi lo : ℚ),
        getHistoricalData zone binary64 dateParse reply random f t sd ed =
          { status := 200, body := .result r } ∧
        r.data = qs.map JsNum.fin ∧ qs ≠ [] ∧
        r.stats.highest = .fin hi ∧ r.stats.lowest = .fin lo ∧
        hi ∈ qs ∧ lo ∈ qs ∧ (∀ q ∈ qs, q ≤ hi) ∧ (∀ q ∈ qs, lo ≤ q)) := by
  have hmock := fun rnd => getHistoricalData_mock zone rnd dateParse reply random f t sd ed
    start stop hf ht hsd hed hstart hstop hle hrange hfail
  have hlen : ∀ rnd,
      0 < (generateMockHistoricalData zone rnd random f t start stop).data.length := by
    intro rnd
    rw [(generateMockHistoricalData_shape zone rnd random f t start stop).1,
      mockInstants_step zone stop start hle]
    simp
  have hnonempty : ∀ rnd (qs : List ℚ),
      (generateMockHistoricalData zone rnd random f t start stop).data = qs.map JsNum.fin →
      qs ≠ [] := by
    intro rnd qs hqs hnil
    have := hlen rnd
    rw [hqs, hnil] at this
    simp at this
  refine ⟨?_, ?_, ?_⟩
  · intro rnd
    obtain ⟨r, hr, hsrc, -, hdata, hstats⟩ := hmock rnd
    have hs := generateMockHistoricalData_stats zone rnd random f t start stop
    rw [← hdata] at hs
    have hpos : 0 < r.data.length := by
      rw [hdata]
      exact hlen rnd
    refine ⟨r, hr, hsrc, ?_, ?_, ?_, ?_, ?_, ?_⟩
    · intro h
      rw [h] at hpos
      simp at hpos
    · rw [hstats, hs]; rfl
    · rw [hstats, hs]; exact hpos
    · rw [hstats, hs]; rfl
    · rw [hstats, hs]; rfl
    · rw [hstats, hs]; rfl
  · obtain ⟨r, hr, -, -, hdata, hstats⟩ := hmock JsNum.fin
    have hs := generateMockHistoricalData_stats zone JsNum.fin random f t start stop
    have hseries : (generateMockHistoricalData zone JsNum.fin random f t start stop).data =
        ((List.range (mockInstants zone stop start).length).map
          (fun k => baseRateSpec f t * (1 + (random k - 0.5) * 0.1))).map JsNum.fin := by
      rw [(generateMockHistoricalData_series zone random f t start stop).1, List.map_map]
      rfl
    have hne := hnonempty JsNum.fin _ hseries
    obtain ⟨hi, lo, s1, s2, -, s5, s6, s7, s8⟩ := seriesStats_extremes JsNum.fin _ hne
    obtain ⟨s3, s9, s10⟩ := seriesStats_average _ hne hi lo s7 s8
    rw [hseries] at hs hdata
    rw [hs] at hstats
    refine ⟨r, _, hi, lo, hr, hdata, hne, ?_, ?_, ?_, s5, s6, s7, s8, s9, s10⟩
    · rw [hstats, s1]
    · rw [hstats, s2]
    · rw [hstats, s3]
  · intro hdraw
    obtain ⟨r, hr, -, -, hdata, hstats⟩ := hmock binary64
    have hs := generateMockHistoricalData_stats zone binary64 random f t start stop
    obtain ⟨qs, hqs⟩ := generateMockHistoricalData_finite zone random f t start stop hdraw
    have hne := hnonempty binary64 qs hqs
    obtain ⟨hi, lo, s1, s2, -, s5, s6, s7, s8⟩ := seriesStats_extremes binary64 qs hne
    rw [hqs] at hs hdata
    rw [hs] at hstats
    refine ⟨r, qs, hi, lo, hr, hdata, hne, ?_, ?_, s5, s6, s7, s8⟩
    · rw [hstats, s1]
    · rw [hstats, s2]

/-- Witness for C26: five days of June 2025 for USD to EUR on a UTC server while the
provider is down, every draw one half. -/
theorem C26_mock_stats_ordered_witness :
    parseIsoDate "2025-06-01" = some (20240 * msPerDay) ∧
    parseIsoDate "2025-06-05" = some (20244 * msPerDay) ∧
    (∃ (r : HistoricalResult) (qs : List ℚ) (hi lo : ℚ),
      getHistoricalData utc JsNum.fin parseIsoDate none (fun _ => 1 / 2) "USD" "EUR"
        "2025-06-01" "2025-06-05" = { status := 200, body := .result r } ∧
      r.data = qs.map JsNum.fin ∧ qs ≠ [] ∧
      r.stats.highest = .fin hi ∧ r.stats.lowest = .fin lo ∧
      r.stats.average = .fin (qs.sum / qs.length) ∧
      lo ≤ qs.sum / qs.length ∧ qs.sum / qs.length ≤ hi) ∧
    (∃ (r : HistoricalResult) (qs : List ℚ) (hi lo : ℚ),
      getHistoricalData utc binary64 parseIsoDate none (fun _ => 1 / 2) "USD" "EUR"
        "2025-06-01" "2025-06-05" = { status := 200, body := .result r } ∧
      r.data = qs.map JsNum.fin ∧ qs ≠ [] ∧
      r.stats.highest = .fin hi ∧ r.stats.lowest = .fin lo ∧
      (∀ q ∈ qs, q ≤ hi) ∧ (∀ q ∈ qs, lo ≤ q)) := by
  have p1 : parseIsoDate "2025-06-01" = some (20240 * msPerDay) := by decide
  have p2 : parseIsoDate "2025-06-05" = some (20244 * msPerDay) := by decide
  obtain ⟨-, ⟨r, qs, hi, lo, a1, a2, a3, a4, a5, a6, -, -, -, -, a11, a12⟩, hb⟩ :=
    C26_mock_stats_ordered utc parseIsoDate none (fun _ => 1 / 2) "USD" "EUR" "2025-06-01"
      "2025-06-05" (20240 * msPerDay) (20244 * msPerDay) (by decide) (by decide) (by decide)
      (by decide) p1 p2 (by decide) (by decide) ⟨_, rfl⟩
  obtain ⟨r2, qs2, hi2, lo2, b1, b2, b3, b4, b5, -, -, b8, b9⟩ :=
    hb (fun _ => ⟨by norm_num, by norm_num⟩)
  exact ⟨p1, p2, ⟨r, qs, hi, lo, a1, a2, a3, a4, a5, a6, a11, a12⟩,
    ⟨r2, qs2, hi2, lo2, b1, b2, b3, b4, b5, b8, b9⟩⟩

end CurrencyConverter
